import Mathlib

/-!
Verification development for `tictactoe.py`: a shallow embedding of the
board model, the winner evaluation `TicTacToe.get_winner`, the two search
engines `MinimaxInput` and `AlphaBetaInput` (both the pure scores and
board-state-passing versions that model the in-place mutation of the
shared board), the move-selection loops, and the game loop
`TicTacToe.play`.  Machine integers are modelled as `Int`/`Nat`; the
`pygame` window argument carries no game state and is dropped.
-/

namespace Tictactoe

/-- A cell of the 3x3 grid: `none` is Python `None` (empty), `some p`
holds the integer of the player occupying it. -/
abbrev Cell := Option Nat

/-- `Board = List[List[Optional[int]]]`, addressed as `board[y][x]`. -/
abbrev Board := List (List Cell)

/-- `INFINITY = 1000000` from the source. -/
def INFINITY : Int := 1000000

/-- Python truthiness of an `Optional[int]` cell: `None` and `0` are
falsy, every other integer is truthy. -/
def truthy (c : Cell) : Bool :=
  match c with
  | none => false
  | some v => v != 0

/-- Read `board[y][x]`; an out-of-range read is treated as empty (never
exercised by the program, whose indices stay in `{0,1,2}`). -/
def cell (b : Board) (y x : Nat) : Cell :=
  (b.getD y []).getD x none

/-- Write `board[y][x] = c`; an out-of-range write is dropped. -/
def setCell (b : Board) (y x : Nat) (c : Cell) : Board :=
  b.set y ((b.getD y []).set x c)

/-- The nine grid positions `(y, x)` in the scan order of the nested
`for y in range(3): for x in range(3)` loops: row-major, `y` outer. -/
def allPos : List (Nat × Nat) :=
  [(0, 0), (0, 1), (0, 2), (1, 0), (1, 1), (1, 2), (2, 0), (2, 1), (2, 2)]

/-- The `has_empty_field` scan at the end of `TicTacToe.get_winner`:
`if not board[y][x]: has_empty_field = True` over all nine cells. -/
def has_empty_field (b : Board) : Bool :=
  allPos.any (fun yx => !truthy (cell b yx.1 yx.2))

/-- The guard of one line check in `TicTacToe.get_winner`:
`board[a] and board[a] == board[b] == board[c]`; Python's chained
`a == b == c` is `a == b and b == c`. -/
def lineGuard (c0 c1 c2 : Cell) : Bool :=
  truthy c0 && c0 == c1 && c1 == c2

/-- `TicTacToe.get_winner`: rows, then columns, then the two diagonals;
a line whose first cell is truthy and whose three cells are equal wins
and its first cell is returned; otherwise `some 0` for a draw on a full
board, `none` while an empty field remains. -/
def get_winner (b : Board) : Option Nat :=
  if lineGuard (cell b 0 0) (cell b 0 1) (cell b 0 2) then cell b 0 0
  else if lineGuard (cell b 1 0) (cell b 1 1) (cell b 1 2) then cell b 1 0
  else if lineGuard (cell b 2 0) (cell b 2 1) (cell b 2 2) then cell b 2 0
  else if lineGuard (cell b 0 0) (cell b 1 0) (cell b 2 0) then cell b 0 0
  else if lineGuard (cell b 0 1) (cell b 1 1) (cell b 2 1) then cell b 0 1
  else if lineGuard (cell b 0 2) (cell b 1 2) (cell b 2 2) then cell b 0 2
  else if lineGuard (cell b 0 0) (cell b 1 1) (cell b 2 2) then cell b 0 0
  else if lineGuard (cell b 0 2) (cell b 1 1) (cell b 2 0) then cell b 0 2
  else if has_empty_field b then none
  else some 0

/-- The value of a decided board as seen from `player`, shared by the
terminal branches of `__minimax` and `__alpha_beta`:
`0` for a draw, `1` if `player` won, `-1` otherwise. -/
def terminalScore (w player : Nat) : Int :=
  if w = 0 then 0 else if w = player then 1 else -1

/-- The mover placed by a recursive frame:
`player if maximizing else player % 2 + 1`. -/
def mover (player : Nat) (maximizing : Bool) : Nat :=
  if maximizing then player else player % 2 + 1

/-- The candidate loop of `MinimaxInput.__minimax`: for each empty cell
(in scan order) score the hypothetical move with `f` and fold with
`max` (maximizing) or `min` (minimizing) into `best`.  `f` stands for
the recursive call at one less remaining depth. -/
def mmGo (f : Board → Int) (b : Board) (player : Nat) (maximizing : Bool) :
    List (Nat × Nat) → Int → Int
  | [], best => best
  | (y, x) :: rest, best =>
    if cell b y x = none then
      mmGo f b player maximizing rest
        (if maximizing then max (f (setCell b y x (some (mover player maximizing)))) best
         else min (f (setCell b y x (some (mover player maximizing)))) best)
    else mmGo f b player maximizing rest best

/-- `MinimaxInput.__minimax`, with a fuel argument standing for the
recursion depth (any fuel above the number of empty cells computes the
Python function; see the fuel-stability lemmas). -/
def minimax : Nat → Board → Nat → Bool → Int
  | 0, _, _, _ => 0
  | fuel + 1, b, player, maximizing =>
    match get_winner b with
    | some w => terminalScore w player
    | none =>
      mmGo (fun c => minimax fuel c player (!maximizing)) b player maximizing allPos
        (if maximizing then -INFINITY else INFINITY)

/-- The candidate loop of `AlphaBetaInput.__alpha_beta`: like `mmGo` but
carrying the `(alpha, beta)` window.  After each candidate the side's
bound is updated (`alpha` raised by a maximizing node, `beta` lowered by
a minimizing one, the `elif` of the source) and the remaining siblings
are abandoned as soon as `alpha > beta`. -/
def abGo (f : Board → Int → Int → Int) (b : Board) (player : Nat) (maximizing : Bool) :
    List (Nat × Nat) → Int → Int → Int → Int
  | [], best, _, _ => best
  | (y, x) :: rest, best, alpha, beta =>
    if cell b y x = none then
      let score := f (setCell b y x (some (mover player maximizing))) alpha beta
      let best' := if maximizing then max score best else min score best
      let alpha' := if maximizing then (if alpha < score then score else alpha) else alpha
      let beta' := if maximizing then beta else (if score < beta then score else beta)
      if beta' < alpha' then best'
      else abGo f b player maximizing rest best' alpha' beta'
    else abGo f b player maximizing rest best alpha beta

/-- `AlphaBetaInput.__alpha_beta`, fuelled like `minimax`. -/
def alphabeta : Nat → Board → Nat → Bool → Int → Int → Int
  | 0, _, _, _, _, _ => 0
  | fuel + 1, b, player, maximizing, alpha, beta =>
    match get_winner b with
    | some w => terminalScore w player
    | none =>
      abGo (fun c a bt => alphabeta fuel c player (!maximizing) a bt) b player maximizing allPos
        (if maximizing then -INFINITY else INFINITY) alpha beta

/-- The candidate loop of `MinimaxInput.move`: state is
`(best_score, best_move)`, started at `(-INFINITY, (0, 0))`; an empty
cell whose hypothetical score strictly exceeds `best_score` becomes the
new best, recorded as `(x, y)`. -/
def mmMoveGo (b : Board) (player : Nat) :
    List (Nat × Nat) → Int × (Nat × Nat) → Int × (Nat × Nat)
  | [], st => st
  | (y, x) :: rest, st =>
    if cell b y x = none then
      let score := minimax 9 (setCell b y x (some player)) player false
      if st.1 < score then mmMoveGo b player rest (score, (x, y))
      else mmMoveGo b player rest st
    else mmMoveGo b player rest st

/-- `MinimaxInput.move` (the returned `Position` is `(x, y)`). -/
def mmMove (b : Board) (player : Nat) : Nat × Nat :=
  (mmMoveGo b player allPos (-INFINITY, (0, 0))).2

/-- The candidate loop of `AlphaBetaInput.move`; each candidate is
scored by `__alpha_beta(board, player, False, -INFINITY, INFINITY)`. -/
def abMoveGo (b : Board) (player : Nat) :
    List (Nat × Nat) → Int × (Nat × Nat) → Int × (Nat × Nat)
  | [], st => st
  | (y, x) :: rest, st =>
    if cell b y x = none then
      let score := alphabeta 9 (setCell b y x (some player)) player false (-INFINITY) INFINITY
      if st.1 < score then abMoveGo b player rest (score, (x, y))
      else abMoveGo b player rest st
    else abMoveGo b player rest st

/-- `AlphaBetaInput.move`. -/
def abMove (b : Board) (player : Nat) : Nat × Nat :=
  (abMoveGo b player allPos (-INFINITY, (0, 0))).2

/-- Outcome of `TicTacToe.play`: the winner returned by `get_winner`
(`0` encodes a draw), the `Exception('Invalid move')`, or exhausted
fuel (never reached with enough fuel: at most nine moves fit). -/
inductive PlayResult where
  | ok (winner : Nat)
  | invalidMove
  | outOfFuel
deriving DecidableEq

/-- The game loop of `TicTacToe.play` (rendering dropped): while
`get_winner` is `None`, ask the current player's input for `(x, y)`;
a move onto a non-empty cell raises `Exception('Invalid move')`,
otherwise the cell is marked and the player flipped.  The board is
returned alongside the result so that the state at each exit is
visible. -/
def playLoop (fuel : Nat) (p1 p2 : Board → Nat → Nat × Nat) (b : Board) (current : Nat) :
    Board × PlayResult :=
  match fuel with
  | 0 => (b, PlayResult.outOfFuel)
  | fuel + 1 =>
    match get_winner b with
    | some w => (b, PlayResult.ok w)
    | none =>
      let xy := (if current = 1 then p1 else p2) b current
      if cell b xy.2 xy.1 ≠ none then (b, PlayResult.invalidMove)
      else playLoop fuel p1 p2 (setCell b xy.2 xy.1 (some current)) (current % 2 + 1)

/-- The empty starting board `[[None]*3]*3` of `TicTacToe.play`. -/
def emptyBoard : Board :=
  [[none, none, none], [none, none, none], [none, none, none]]

/-- A cell the data model allows: empty or occupied by player 1 or 2. -/
def validCell (c : Cell) : Bool :=
  c == none || c == some 1 || c == some 2

/-- A well-formed 3x3 board: three rows of three cells, every cell
empty or occupied by one of the two players. -/
def WF (b : Board) : Bool :=
  b.length == 3 && b.all (fun r => r.length == 3) &&
    allPos.all (fun yx => validCell (cell b yx.1 yx.2))

/-- Number of empty cells among the nine grid positions. -/
def countEmpty (b : Board) : Nat :=
  (allPos.filter (fun yx => cell b yx.1 yx.2 == none)).length

/-! ### State-passing versions of the search

The Python engines mutate the single shared board in place: place a
hypothetical stone, recurse, restore the cell to `None`.  The versions
below thread the board through every call and return it, so that the
restore discipline of each exit path (including the pruning cutoff)
becomes a provable statement about the returned board. -/

/-- State-passing `__minimax` candidate loop. -/
def mmGoS (f : Board → Int × Board) (player : Nat) (maximizing : Bool) :
    List (Nat × Nat) → Int → Board → Int × Board
  | [], best, b => (best, b)
  | (y, x) :: rest, best, b =>
    if cell b y x = none then
      let sb := f (setCell b y x (some (mover player maximizing)))
      mmGoS f player maximizing rest
        (if maximizing then max sb.1 best else min sb.1 best)
        (setCell sb.2 y x none)
    else mmGoS f player maximizing rest best b

/-- State-passing `__minimax`. -/
def minimaxS : Nat → Board → Nat → Bool → Int × Board
  | 0, b, _, _ => (0, b)
  | fuel + 1, b, player, maximizing =>
    match get_winner b with
    | some w => (terminalScore w player, b)
    | none =>
      mmGoS (fun c => minimaxS fuel c player (!maximizing)) player maximizing allPos
        (if maximizing then -INFINITY else INFINITY) b

/-- State-passing `__alpha_beta` candidate loop; the cutoff return also
carries the board, whose touched cell was restored just before. -/
def abGoS (f : Board → Int → Int → Int × Board) (player : Nat) (maximizing : Bool) :
    List (Nat × Nat) → Int → Int → Int → Board → Int × Board
  | [], best, _, _, b => (best, b)
  | (y, x) :: rest, best, alpha, beta, b =>
    if cell b y x = none then
      let sb := f (setCell b y x (some (mover player maximizing))) alpha beta
      let b' := setCell sb.2 y x none
      let best' := if maximizing then max sb.1 best else min sb.1 best
      let alpha' := if maximizing then (if alpha < sb.1 then sb.1 else alpha) else alpha
      let beta' := if maximizing then beta else (if sb.1 < beta then sb.1 else beta)
      if beta' < alpha' then (best', b')
      else abGoS f player maximizing rest best' alpha' beta' b'
    else abGoS f player maximizing rest best alpha beta b

/-- State-passing `__alpha_beta`. -/
def alphabetaS : Nat → Board → Nat → Bool → Int → Int → Int × Board
  | 0, b, _, _, _, _ => (0, b)
  | fuel + 1, b, player, maximizing, alpha, beta =>
    match get_winner b with
    | some w => (terminalScore w player, b)
    | none =>
      abGoS (fun c a bt => alphabetaS fuel c player (!maximizing) a bt) player maximizing allPos
        (if maximizing then -INFINITY else INFINITY) alpha beta b

/-- State-passing `MinimaxInput.move` candidate loop. -/
def mmMoveGoS (player : Nat) :
    List (Nat × Nat) → Int × (Nat × Nat) → Board → (Int × (Nat × Nat)) × Board
  | [], st, b => (st, b)
  | (y, x) :: rest, st, b =>
    if cell b y x = none then
      let sb := minimaxS 9 (setCell b y x (some player)) player false
      let b' := setCell sb.2 y x none
      if st.1 < sb.1 then mmMoveGoS player rest (sb.1, (x, y)) b'
      else mmMoveGoS player rest st b'
    else mmMoveGoS player rest st b

/-- State-passing `MinimaxInput.move`. -/
def mmMoveS (b : Board) (player : Nat) : (Nat × Nat) × Board :=
  let r := mmMoveGoS player allPos (-INFINITY, (0, 0)) b
  (r.1.2, r.2)

/-- State-passing `AlphaBetaInput.move` candidate loop. -/
def abMoveGoS (player : Nat) :
    List (Nat × Nat) → Int × (Nat × Nat) → Board → (Int × (Nat × Nat)) × Board
  | [], st, b => (st, b)
  | (y, x) :: rest, st, b =>
    if cell b y x = none then
      let sb := alphabetaS 9 (setCell b y x (some player)) player false (-INFINITY) INFINITY
      let b' := setCell sb.2 y x none
      if st.1 < sb.1 then abMoveGoS player rest (sb.1, (x, y)) b'
      else abMoveGoS player rest st b'
    else abMoveGoS player rest st b

/-- State-passing `AlphaBetaInput.move`. -/
def abMoveS (b : Board) (player : Nat) : (Nat × Nat) × Board :=
  let r := abMoveGoS player allPos (-INFINITY, (0, 0)) b
  (r.1.2, r.2)

/-! ### Analysis of `get_winner` -/

/-- The eight terminal lines in the order `get_winner` checks them:
three rows, three columns, main diagonal, anti-diagonal. -/
def lines : List (List (Nat × Nat)) :=
  [[(0, 0), (0, 1), (0, 2)], [(1, 0), (1, 1), (1, 2)], [(2, 0), (2, 1), (2, 2)],
   [(0, 0), (1, 0), (2, 0)], [(0, 1), (1, 1), (2, 1)], [(0, 2), (1, 2), (2, 2)],
   [(0, 0), (1, 1), (2, 2)], [(0, 2), (1, 1), (2, 0)]]

/-- Some terminal line is filled uniformly with player `p`. -/
def lineFilled (b : Board) (p : Nat) : Prop :=
  ∃ l ∈ lines, ∀ yx ∈ l, cell b yx.1 yx.2 = some p

instance (b : Board) (p : Nat) : Decidable (lineFilled b p) := by
  unfold lineFilled; infer_instance

/-- All nine cells are occupied. -/
def boardFull (b : Board) : Prop :=
  ∀ yx ∈ allPos, cell b yx.1 yx.2 ≠ none

instance (b : Board) : Decidable (boardFull b) := by
  unfold boardFull; infer_instance

/-- The `get_winner` guard of a three-cell line. -/
def guardOfLine (b : Board) (l : List (Nat × Nat)) : Bool :=
  match l with
  | [p0, p1, p2] => lineGuard (cell b p0.1 p0.2) (cell b p1.1 p1.2) (cell b p2.1 p2.2)
  | _ => false

/-- Every line guard of `get_winner` is false. -/
def linesGuardsFalse (b : Board) : Prop :=
  ∀ l ∈ lines, guardOfLine b l = false

/-! ### Equivalence of `__alpha_beta` and `__minimax`

The windowed search is related to the plain search by a Knuth-Moore
style specification: a result at or below `alpha` is an upper bound on
the true value, a result at or beyond `beta` is a lower bound, and a
value inside the closed window is computed exactly. -/

/-- Relation between an alpha-beta result `r` and the minimax value `v`
for the window `[alpha, beta]`. -/
def Spec (r v alpha beta : Int) : Prop :=
  (r ≤ alpha → v ≤ r) ∧ (beta ≤ r → r ≤ v) ∧
    (alpha ≤ v → v ≤ beta → r = v) ∧ (alpha < r → r < beta → r = v)

/-! ### The move loop picks the first empty cell of maximal score -/

/-- Score of the candidate move `(y, x)` as computed inside
`MinimaxInput.move`. -/
def candScore (b : Board) (player y x : Nat) : Int :=
  minimax 9 (setCell b y x (some player)) player false

/-- Scan-order key of a grid position. -/
def posIdx (yx : Nat × Nat) : Nat := 3 * yx.1 + yx.2

/-! ### A certified table of minimax values

`tableT` packs, for every board code `c < 3 ^ 9` (digit `k` of `c` in
base 3 is cell `(k / 3, k % 3)`: `0` empty, `1`/`2` the player), the
value `minimax (boardOfCode c) 1 m + 1` in base 4 at digit `c`, where
`m` is true exactly when the number of empty cells is odd (the flag the
self-play game reaches at `c`).  `checkAll` re-derives every entry from
its children in one pass, which `decide` evaluates in the kernel;
`minimax_eq_table` below turns that single boolean into the recurrence
the search satisfies. -/

def tableT : Nat := 16557677726121949349945047696886936325524148109796556296329512529356451396229043092126031648393055881695980437988852361445742604768445691822603159844707697001058005936635900846516447380247155866182251940085847992521028394345493283799800286867256249089168377782721351894554621284721911774892708563308484595041060214115291057266658214037912252413921263945682337803912439176675640022307163698500901330889799735993483001973127509636998890630016332060288770043130839624074810747244496896693144773523902347151353943785280512061473418095838610415257371484298241921348753116892716257598842458415222579313600344928237022202057593328922484048417907272311682980917899721376143136475495353707777722484511939112994865438913209498760238000892630593165503944818107895681541390051099956533512499294980617990788695518179733800954638435899027388865817949410124649750327116728266839259727857087151687366565716416884199779707164282346477639166856670879303333267421164439603226890519099731708152973373012756567754189303035330791057705438647946812780479254700052980605226150755440782352655199758896555009506620400458785481282600408006911805482223142514870246927513669284896545441038006903245975075854191225930663778286686920480655387279495185736933014754442618342486361499977170139673177563868528600673603307440088227542484593390104171027380357079281657639111676118867733142264450260820091287089345390777546667948886977954009322269078831900592848007095830026858647630482341301253607340798451636794590706715113339211162053265383414144522775663063836686700303229329540364335197879058851215859846599455571172694159131154628505132954788914993899725668407756167771778514128123669110272264742257541999643456531076537656684642961086613308394809015448398085508315494485348519375383291471562808701392304179032750746797533407911273178732358054585620349518599794114655195643684374318535277515410573132573169402663450641829285761667573275700200883276497023343778325228253549064164978806817692330102656296508469238105064966532232768972117941524658920279552731534313125904830239941787832643350219951328994173229243736429983464537648602288790593174660313667060941970633653220800642326693883470867994324041921521484943949456483762268977828141577016071327484795024874320298935279428137788927593376158021477792933902543212441086757444418511164367859357857207770159789191610481246020650893697882011001247619566733746673568200957178438490414189876253255928711362889894808091403603328973797930050807784515439052488254841979772605500735494748566893618218618857847296781817268179681633436352284630607702324258712538406836838517094559357056896955989621833422424983204841580432147630407328760216791734325829493751945489706012339027655780653847721801762609117277813705027435104241723837348798759010146651356508829275422726784056771362824799945647850069973132905476528872717406635366040181597349418659171032036601337798076719096870337078363632414908872587306077569352905308209136679926603858335936804428587364238886648302829338842869892184894056598997144121818728592806177450297456591890762429930508575778626135650595440935108920909074097494631032583560689079995505536931747810394627622286957992125539185129345526383725672860712680387334191967133258015000837807774966484825128521873712458335858671788880969852281673958231438483908082494160985418208326321773022131668557228088590613173854683227256106097595087347353129061099054796411830911807012000716510552106462501253844350900319656343248743357821166684888942438035544985424899756790900703940496420097155587932680704590405887160525226724228934292532148103104288597839504561716623154489154197145798879599529130174027472460910841948303931039369720352531059836195693384437986856730143814998217018079956633345108206066316561371772563314280885409905690332509617524391850951292792626237815796092607000409247600272134544848753569049842323344574316766197380008740439201871850273922710811646789632830579732049755433043144316437028093512883824191606115334710112452235851725495847416732625445000467792083923170515482162899193894487101517141937580604834608013443676569346108960182448163318572237118382191207898064586443223824975239636919926924078101513268776949054862623068370955613091905578237238793025065071003037464570455584879888746887384544533810302472243759264542069248235737850348318185294015366780756461853673146058419937995962881256726473421844475329199870773630081396246697840419248068806803366761815794341233223254007440768260101873137474274349477054816879472763137451811500587924410016008653644613178473079432552770232177259205252782548831294724218885739386662280510101798110799803152083742840811607923002320839788763249609372847252688060753943910371636323178870046052995039745460402304068300722547323808917820575503075089230259370736802239529131971991864255064971617328640885016778394774115373412619670567600469602015030949139404340172195138626933749720627294856305228786456803919306018816180381585939000161671310149437657606904226214938919178387322802676304427851102997969049375724533885186167448266789221688873648208163149598642031122278453101468998753483628945454847592642677681035179526600091504557301162935914276490947521813099130093603583359379886787674096851910751435334084755953678495200364833837781825439286628995531154202363642341422011554664961491635639897216411142992334465896124160095089737835388319213993225385727488818437555493417715232802090547057902679838342193257378282302779883516120664854124949383661489511897515287562211216827547357955628143256511035171990656215045824486985370043165441563389961297780370882330382378763937815661912543358151532948518423066684383214194378543018150626922860551867233622632562806051069537406949260126878758893221066727924760983604240867856204867142335358722361585763826853132053527372159757723021901071509655759678839084877227217514673546592434650265120877435060372609069820427333545285856418370328556182783228150252746413636544294979284405921165349362368075726636070457035935834932712269210820917461589132928255325759133900331983749335885184458361848695189582969362396454080656328238331315441252399000982699156311534789683296945068579072117907296070422799501497900220946415253025318841095594440529090019567669055681294279785234841296009214685614417718526746069977125521923701287234459999643191195825590964851805823342426995419811403002630118902117569646770350751199859780184533567435100198971951235206483577383739815830987443407854635924980416428643497884056478551941873043080170405504211057387716638431229426105930941074876163866295941605429969763174784613757985053914270560855235238635827228067457602723371207236189529269427231746996672880809197421369982465094032679086282566471354580110530967302101907081249515163656801145333700260372230320142735817904918078052657430529686533963738848226523503366136338009914441507709192839708836249200174684561510740452105502742685671539255574646804631330894223071293262626243402314118136590765844567164373033463496813796548867932798777362631733839642464940839098086732650501232805783265030572965111033689318852713594257955189518163240968574834140956613922594375561239005970603654010881194882964427791174827571470216750140596931708962861650074945917036494108012060039057766419713784247319312863629718830053251873226601995046752631130213303835620835158421129643492045150576830950299661994752152773721762859451858223874604415875609605245440821554997685011336196808391995697042149349131191110183174566485145531154008738789816788858392357072589629932120646073886457199049459970165844521782220960678974581308182116747717504066949251939888176668743345007569527085181796794587454615179561931249840259096116053189598158433097885109180524977814989394005837434842163806424300499327995396650571913862797043012872966140423389183455408514740256432718186698258647614502384919089748743812561479348034792957015630094072646451873345724126886286880176922497486431956342900138067610807687736380525877105701655523124087272900564207755142076977147353062509855429266517714963951463858490932315645511596556083977856092901127217773741395736430846066516968971908464422942232749667846467005162358600426522732217647848397370961492764823639183360327387287965906167142362169645300945801215790754233290758175883226252030764680397364979196431677827839651737796093206345373749350634627708297499236019698676318496256277865928871556972908123395731950105456005968721949799713822130895315070500658093702792816295631860362858231796978910671773331565815600802359992657807337941808009861806969836535257745134422019264055221913972372518116089762710006372748714032799059989570591473964869366246949114081659906726701001362036640377776212100301339677999735274950137424887432992127079311953904826723515651117112047922396844292576932530595668573844145391547600678591687739987803689959243367430315518332865618048210177879288937408664600167785915004106546878763921550320718183735112840977521753177325836717927935798071692771557845246050286786479684857090292670375964136475113490162248774745695315962962243116670288249711400963915090301649635678133232784503546945544101180305704604560868027750011758746046253744622218402630614792076581838793466081295015197061656168628750486430591798889070935857106357916409883833694305564834900481105416392572566368619365593605421783882644472088789864595722412265448659066958239719939060739882150359326402537487432573680801379602321901134076472468820354086623800316748446073060056844799854027857503714493135439643594192370291993828847678264218080108249027792401919271166424674130856349750094962312470726188172773568596583680624459880659863150479648391381682274110517582073063370470806092445944902920894899295539960834303877343574470984591310863484520565936181956063777697526252612924377530590826746355750555460962438363629027119341387069537714321347250278400812207638870362204253612397913750174832850585417137070248139949907376202048724968645789237002766218825573292053884038320855820386319773186150241509302552036185346539109523982411338707392518614064650241890230215369165301218232438227321037619911233560666900535068536267599560087737370264493792727518774178040955254880371260397397662299360402389715414973306986410305092146005789845481392581749976812002942357910049125603629554183662155276605201275677075591341009528876320519015945611279314214448213461963384216817994687951842299676464239127121948917164670549166784954842986406440039859373488199800178498627292735900140310695756707220764320577140817074204030751261220995440706749054740228449499453378193427362562329904545766245953331918519164028661660145807866481054343184563375301096538698834577450783656329557077055023196837340573554959783897791002865481449883856085851125255443376750522124292866300248193982141804400656050880181413753471817559074000852762741391564560484912318510157347027043230079717628664332970895364566858090893959370001980899818827890078320041910578235969116766371958246205951522827668851723099723132396213225666485172358475112553009560843165222581101610657865665224928596243397189208700735676764861814633951889090003212666320493482698308918227125196436235653945508158984494086575191542773624337218840327249578264155115205909374181699013057703745868507964314735642906031346431406051068730074329540250741028757701541257561569693595002058005345155681962918204310222392886791507127880161554168864030228022278848464655740818797459653352156838650538037448758845776337411320072889853783799650626173730110697464090101010526582331696488710616068603022402255826991177717364185925372565080464657342532298843944408087942089744302710828800484943030306459730586566812378493920140813066997217990305036043469731693536502376908758409047013404753807752255577948148070484013974722926632384075927795558029743665599836316413886526806326019862111863729656166602927269684561506169840963758249052056289868326148674037505413704432169939053511282908238799692934281612390590838709644989398300383104849160968635973

/-- `pa k = 4 ^ 3 ^ k` for `k ≤ 8`, as literals (the kernel's unary
`Nat.pow` cannot build these exponents directly). -/
def pa : Nat → Nat
  | 0 => 4
  | 1 => 64
  | 2 => 262144
  | 3 => 18014398509481984
  | 4 => 5846006549323611672814739330865132078623730171904
  | 5 => 199791907220223502808422222706762643567910281130558153654986045416023791284464999687699590596063486154228923591770023865308670443474450259602571264
  | 6 => 7975054838978857957869783595079038148815929134873574372267239147002092943367488761318118323875971614518937350748146290561474995443284105875630084237401365691741820338695355818455664737390057540900825684807418526691288993393970109201605650784885019821709886980841347925777256289930194351608431522864880360956238794237301100891415162717067858756153598763756850431348717233286605102660510814000306243542621599170963477008725517984745855647744
  | 7 => 507225447826939326570474204384744624587292063190884919519958374327267592446234541149782464773813904983076586169758837559623997352275764134734265591056592354842893024051753306505721447223427506942149076705186922736841776924892539469698228686890936216774563789265208977119344668602338697007002597246440315262987071988430881869188980084215919636478615255874439738762110029113697212477281723181425049633702124217760565866771734245767142903127420727621442506621568503555881655621988258728906734833633087237325868777435372652421103272145663999198035836500263311631423102121237616381035135597837503612648243156402972560003117185222422836279597971665965965556497808583360180261735846343750923769749185131998414009812663705292072261504874332382221486873652739457805212907927621267024570409954953299985491867005139524006944837604255826158255222126898655489235570216546433812509888820488568129085667062737157233956975318027396609489671497037844046066892135179249685789389605044999059610671618630046027843244131464219115024762685856346937467848778847913116236218254819803039081535275924247894938512236763938987757822851231533023735765358680656771508972149162409800807270788654391882309582604054113721956703291224061490160344726994171382640846463552826176983036547426346674167677006284090884761401157612956237702160883052953206784
  | _ => 130497773734304738645386430975283381005438803762497925495697899928454566836740531906196249321158156071400708183150199087393059051036948873154599697229779419116108396911215454331019360637097400997928706348402294627030649617873852077612186257898003509348455331221588308813824234075471424175623276107014717732843484978473577357292362887961652389236186958883218421037849602384713228121202971258425502819965182162076920222237330769769263519786315096184073352772969943582697252125323323271078014040107067988992764068162477432121612331661522251806400858248386550385563104791802697828103643168531204002326790183135765922253978727138883810116913448662430627210273161024891424481184100013610072842959145690702777781465625614042011618217972635293552785347191598359305803648504567750757893039456097319823334325108635659804059331952099380728523511447134610453553606411399257136958719310238537633960720582584824091738029447426668508276150176629891011941734070920620242220613687199590592443717827156824233617904446681813420093805949112467081783917426881873102772477430019336090633167339656498182735856693023654313901881874153815444888346990374285433797945710188087006875128782648829493957811500602410691829365100473335467094646056634013165590448767543180263204672887769478331818142104605095962370509281034650050105563761995713695076848909005670191054281937445405837529510586586105058730580590183743629025270852009295727278033895283073725995796228142672738638845918775396738213091407496483263141767185437548366045533080889088412674366126267888610545339709034360938017790645298810519921195243729291793778135633428913270740844407738375777369149026195692016567792072394719530702626331593797793817981141497297574263271143522309145329304395422894550681029447953717321767252312863856385151459035586709119224018368744383174734227195899293025887972957751112163963000215474660630260138881879657204327316430645250960399522396668206334280378934470001008648650957271969545206991759109075919336884578737967408919198494660192550870906320553305602528957365151518855075666928311952869342982923446153665743133807111342291612450011410074735935991930007342561231483799190809069239561104862475071841251954750801625219036525567234024887826216026491753309672730714809916860252431438603857694638688520180904827008620158413133684933407020449498796941573800283830124698107775385436419158005644957408064588549493139436992503347898724048919921767599681821876085910873926988457745158120624334279530683242593688680782386297034215077386355878617930403555102021643569708607383629578054520722347294138608574784023849353151681392681065344397075217568561990493984940133593224781171831375917818818338728788627453333885413133719104978999302652125390645172587786785281917269929943043827968755109495240956233512600508983627322170563047937012039999472699860669389135680112070584113602359462055145128194835550719822062174106295494345617015624257015865464611408286727004985543209259113196790713117680077466333016716365373270746378973031628223547095626084774459832030487047680338906693820317146207016060049130292857658736593383677088588315690574052658520896559148524914087263536117058344737241211205599767420268111657706427280216210723404144886277038127309247719211588691678333350495007934022518772150917303638763938093851767621514732760148025612475442843896293400914079215967511033312618921770764916587187972643234767631843533904290506586646782839667497954229499791179758250647146949089180624048455427680701901507734301697910826720603153250942989795083356085071155829570619161457938537886490341772732817598572826037729718774042122195663649888607560962169345227359775912451769824685068342472866161592012183184980317264537328681176232104909514047198247546533417904675137109445941316107478085562910464155705885151597620788632224014614827970972282736761816438045554315685096796257974161336138606655513816520982101954504224620247236178677698942802310871847087787439258487538774912053676976191461749049515315298304

/-- `pb k = 4 ^ (2 * 3 ^ k)` for `k ≤ 8`. -/
def pb (k : Nat) : Nat := pa k * pa k

/-- Fast binary power of 4, `pw4 f e = 4 ^ e` for `e < 2 ^ f`. -/
def pw4 : Nat → Nat → Nat
  | 0, _ => 1
  | f + 1, e => if e == 0 then 1 else (let h := pw4 f (e / 2); if e % 2 == 0 then h * h else h * h * 4)

def nmax (a b : Nat) : Nat := cond (Nat.ble a b) b a

def nmin (a b : Nat) : Nat := cond (Nat.ble a b) a b

/-- Guard of a line on base-3 digits: first cell occupied and all
three equal (the digit form of `lineGuard`). -/
def lgN (a b c : Nat) : Bool := !(a == 0) && a == b && b == c

/-- Table encoding of a decided line: winner digit `1` stores `2`
(score `+1` for player 1), digit `2` stores `0` (score `-1`). -/
def tvN (w : Nat) : Nat := cond (w == 1) 2 0

/-- `1` for an empty digit, `0` otherwise. -/
def z01 (d : Nat) : Nat := cond (d == 0) 1 0

/-- Fold of the stored child values `t / p % 4` of the empty digits
with `max`, mirroring a maximizing `mmGo` pass. -/
def foldMax (t : Nat) : List (Nat × Nat) → Nat → Nat
  | [], acc => acc
  | (d, p) :: rest, acc => foldMax t rest (cond (d == 0) (nmax acc (t / p % 4)) acc)

/-- Fold of the stored child values with `min`, mirroring a minimizing
`mmGo` pass. -/
def foldMin (t : Nat) : List (Nat × Nat) → Nat → Nat
  | [], acc => acc
  | (d, p) :: rest, acc => foldMin t rest (cond (d == 0) (nmin acc (t / p % 4)) acc)

/-- One table entry re-derived from its children: for `t = tableT / 4 ^ c`,
the stored value `t % 4` must be the terminal value of code `c` (first
matching line in `get_winner` order, or the draw value `1` on a full
board) or, on an undecided board, the max/min (by the parity flag) of
the children's stored values reached by placing `1` (maximizing, offset
`pa k`) or `2` (minimizing, offset `pb k`) on each empty digit `k`. -/
def checkOne (c t : Nat) : Bool :=
  cond (Nat.ble 19683 c) true
  (let d0 := c % 3;         let d1 := c / 3 % 3;     let d2 := c / 9 % 3
   let d3 := c / 27 % 3;    let d4 := c / 81 % 3;    let d5 := c / 243 % 3
   let d6 := c / 729 % 3;   let d7 := c / 2187 % 3;  let d8 := c / 6561 % 3
   cond (lgN d0 d1 d2) (t % 4 == tvN d0)
   (cond (lgN d3 d4 d5) (t % 4 == tvN d3)
   (cond (lgN d6 d7 d8) (t % 4 == tvN d6)
   (cond (lgN d0 d3 d6) (t % 4 == tvN d0)
   (cond (lgN d1 d4 d7) (t % 4 == tvN d1)
   (cond (lgN d2 d5 d8) (t % 4 == tvN d2)
   (cond (lgN d0 d4 d8) (t % 4 == tvN d0)
   (cond (lgN d2 d4 d6) (t % 4 == tvN d2)
   (cond (d0 == 0 || d1 == 0 || d2 == 0 || d3 == 0 || d4 == 0 || d5 == 0 || d6 == 0 || d7 == 0 || d8 == 0)
     (cond ((z01 d0 + z01 d1 + z01 d2 + z01 d3 + z01 d4 + z01 d5 + z01 d6 + z01 d7 + z01 d8) % 2 == 1)
       (t % 4 == foldMax t [(d0, pa 0), (d1, pa 1), (d2, pa 2), (d3, pa 3), (d4, pa 4),
                            (d5, pa 5), (d6, pa 6), (d7, pa 7), (d8, pa 8)] 0)
       (t % 4 == foldMin t [(d0, pb 0), (d1, pb 1), (d2, pb 2), (d3, pb 3), (d4, pb 4),
                            (d5, pb 5), (d6, pb 6), (d7, pb 7), (d8, pb 8)] 2))
     (t % 4 == 1))))))))))

/-- Check `n` consecutive codes starting at `c`, with `t = tableT / 4 ^ c`
shifted two bits per step. -/
def scanChunk : Nat → Nat → Nat → Bool
  | 0, _, _ => true
  | n + 1, c, t => checkOne c t && scanChunk n (c + 1) (t / 4)

/-- Check the 128 codes of chunk `lo`. -/
def chunkAt (lo : Nat) : Bool := scanChunk 128 (128 * lo) (tableT / pw4 15 (128 * lo))

/-! ### Boards as base-3 codes -/

/-- Digit `k` of code `c` in base 3. -/
def dig (c k : Nat) : Nat := c / 3 ^ k % 3

/-- Zeros of `c`: the number of empty cells of the coded board. -/
def zerosN (c : Nat) : Nat :=
  z01 (c % 3) + z01 (c / 3 % 3) + z01 (c / 9 % 3) + z01 (c / 27 % 3) + z01 (c / 81 % 3) +
    z01 (c / 243 % 3) + z01 (c / 729 % 3) + z01 (c / 2187 % 3) + z01 (c / 6561 % 3)

/-- The maximizing flag the table stores values for at code `c`. -/
def flagN (c : Nat) : Bool := zerosN c % 2 == 1

/-- The table entry of code `c`, in `{0, 1, 2}` (the score shifted by one). -/
def lookupT (c : Nat) : Nat := tableT / 4 ^ c % 4

/-- The cell a base-3 digit denotes. -/
def dcell (d : Nat) : Cell := cond (d == 1) (some 1) (cond (d == 2) (some 2) none)

/-- The board a code denotes. -/
def boardOfCode (c : Nat) : Board :=
  [[dcell (c % 3), dcell (c / 3 % 3), dcell (c / 9 % 3)],
   [dcell (c / 27 % 3), dcell (c / 81 % 3), dcell (c / 243 % 3)],
   [dcell (c / 729 % 3), dcell (c / 2187 % 3), dcell (c / 6561 % 3)]]

/-- `get_winner` on digits, branch for branch. -/
def winnerN (c : Nat) : Option Nat :=
  let d0 := c % 3;         let d1 := c / 3 % 3;     let d2 := c / 9 % 3
  let d3 := c / 27 % 3;    let d4 := c / 81 % 3;    let d5 := c / 243 % 3
  let d6 := c / 729 % 3;   let d7 := c / 2187 % 3;  let d8 := c / 6561 % 3
  cond (lgN d0 d1 d2) (some d0)
  (cond (lgN d3 d4 d5) (some d3)
  (cond (lgN d6 d7 d8) (some d6)
  (cond (lgN d0 d3 d6) (some d0)
  (cond (lgN d1 d4 d7) (some d1)
  (cond (lgN d2 d5 d8) (some d2)
  (cond (lgN d0 d4 d8) (some d0)
  (cond (lgN d2 d4 d6) (some d2)
  (cond (d0 == 0 || d1 == 0 || d2 == 0 || d3 == 0 || d4 == 0 || d5 == 0 || d6 == 0 || d7 == 0 || d8 == 0)
    none (some 0)))))))))

/-! ### Linking table entries to minimax values -/

/-- Pairs each grid position with its digit and the maximizing child
offset of the table. -/
def tblL (c : Nat) : List ((Nat × Nat) × (Nat × Nat)) :=
  [((0, 0), (c % 3, pa 0)), ((0, 1), (c / 3 % 3, pa 1)), ((0, 2), (c / 9 % 3, pa 2)),
   ((1, 0), (c / 27 % 3, pa 3)), ((1, 1), (c / 81 % 3, pa 4)), ((1, 2), (c / 243 % 3, pa 5)),
   ((2, 0), (c / 729 % 3, pa 6)), ((2, 1), (c / 2187 % 3, pa 7)), ((2, 2), (c / 6561 % 3, pa 8))]

/-- Pairs each grid position with its digit and the minimizing child
offset of the table. -/
def tblL2 (c : Nat) : List ((Nat × Nat) × (Nat × Nat)) :=
  [((0, 0), (c % 3, pb 0)), ((0, 1), (c / 3 % 3, pb 1)), ((0, 2), (c / 9 % 3, pb 2)),
   ((1, 0), (c / 27 % 3, pb 3)), ((1, 1), (c / 81 % 3, pb 4)), ((1, 2), (c / 243 % 3, pb 5)),
   ((2, 0), (c / 729 % 3, pb 6)), ((2, 1), (c / 2187 % 3, pb 7)), ((2, 2), (c / 6561 % 3, pb 8))]

/-! ### The engines replayed on codes -/

/-- Table lookup through the fast power (kernel-friendly). -/
def lookupP (x : Nat) : Nat := tableT / pw4 15 x % 4

/-- The score `move` computes for placing `p` on empty digit `k` of
code `c`, read off the table. -/
def scoreN (c p k : Nat) : Int :=
  if p = 1 then ((lookupP (c + 3 ^ k) : Nat) : Int) - 1
  else 1 - ((lookupP (c + 2 * 3 ^ k) : Nat) : Int)

/-- The candidate loop of `move` on codes. -/
def moveNGo (c p : Nat) : List (Nat × Nat) → Int × (Nat × Nat) → Int × (Nat × Nat)
  | [], st => st
  | (y, x) :: rest, st =>
    if dig c (3 * y + x) = 0 then
      if st.1 < scoreN c p (3 * y + x) then moveNGo c p rest (scoreN c p (3 * y + x), (x, y))
      else moveNGo c p rest st
    else moveNGo c p rest st

/-- `move` on codes. -/
def moveN (c p : Nat) : Nat × Nat := (moveNGo c p allPos (-INFINITY, (0, 0))).2

/-- The game loop on codes. -/
def playN : Nat → Nat → Nat → Nat × PlayResult
  | 0, c, _ => (c, PlayResult.outOfFuel)
  | fuel + 1, c, p =>
    match winnerN c with
    | some w => (c, PlayResult.ok w)
    | none =>
      let xy := moveN c p
      if dig c (3 * xy.2 + xy.1) ≠ 0 then (c, PlayResult.invalidMove)
      else playN fuel (c + p * 3 ^ (3 * xy.2 + xy.1)) (p % 2 + 1)

/-! ### Small list lemmas for cell reads and writes -/

theorem list_getD_set_self {α : Type} (l : List α) (i : Nat) (a d : α) (h : i < l.length) :
    (l.set i a).getD i d = a := by
  induction l generalizing i with
  | nil => simp at h
  | cons x xs ih =>
    cases i with
    | zero => rfl
    | succ j => simpa using ih j (by simpa using h)

theorem list_getD_set_ne {α : Type} (l : List α) (i j : Nat) (a d : α) (h : i ≠ j) :
    (l.set i a).getD j d = l.getD j d := by
  induction l generalizing i j with
  | nil => rfl
  | cons x xs ih =>
    cases i with
    | zero =>
      cases j with
      | zero => exact absurd rfl h
      | succ j' => rfl
    | succ i' =>
      cases j with
      | zero => rfl
      | succ j' => simpa using ih i' j' (fun hc => h (by rw [hc]))

theorem list_set_getD_self {α : Type} (l : List α) (i : Nat) (d : α) (h : i < l.length) :
    l.set i (l.getD i d) = l := by
  induction l generalizing i with
  | nil => rfl
  | cons x xs ih =>
    cases i with
    | zero => rfl
    | succ j => simpa using ih j (by simpa using h)

theorem list_set_oob {α : Type} (l : List α) (i : Nat) (a : α) (h : l.length ≤ i) :
    l.set i a = l := by
  induction l generalizing i with
  | nil => rfl
  | cons x xs ih =>
    cases i with
    | zero => simp at h
    | succ j => simpa using ih j (by simpa using h)

theorem list_set_set {α : Type} (l : List α) (i : Nat) (a a' : α) :
    (l.set i a).set i a' = l.set i a' := by
  induction l generalizing i with
  | nil => rfl
  | cons x xs ih =>
    cases i with
    | zero => rfl
    | succ j => simp [ih j]

/-- Restoring a freshly placed stone returns the original board:
`board[y][x] = v; board[y][x] = None` is the identity when the cell was
empty before. -/
theorem setCell_restore (b : Board) (y x : Nat) (v : Cell) (h : cell b y x = none) :
    setCell (setCell b y x v) y x none = b := by
  unfold setCell cell at *
  by_cases hy : y < b.length
  · rw [list_getD_set_self b y _ _ hy, list_set_set, list_set_set]
    by_cases hx : x < (b.getD y []).length
    · have h2 := list_set_getD_self (b.getD y []) x none hx
      rw [h] at h2
      rw [h2, list_set_getD_self b y [] hy]
    · rw [list_set_oob _ _ _ (Nat.le_of_not_lt hx), list_set_getD_self b y [] hy]
  · rw [list_set_oob b y _ (Nat.le_of_not_lt hy), list_set_oob b y _ (Nat.le_of_not_lt hy)]

/-! ### The restore discipline: every search call hands the board back
unchanged, and its score agrees with the pure recursion. -/

theorem mmGoS_spec (f : Board → Int) (fS : Board → Int × Board)
    (hf : ∀ c, fS c = (f c, c)) (player : Nat) (maximizing : Bool) :
    ∀ (L : List (Nat × Nat)) (best : Int) (b : Board),
      mmGoS fS player maximizing L best b = (mmGo f b player maximizing L best, b) := by
  intro L
  induction L with
  | nil => intro best b; rfl
  | cons yx rest ih =>
    intro best b
    obtain ⟨y, x⟩ := yx
    by_cases h : cell b y x = none
    · simp only [mmGoS, mmGo, if_pos h, hf, setCell_restore b y x _ h]
      exact ih _ b
    · simp only [mmGoS, mmGo, if_neg h]
      exact ih best b

theorem minimaxS_spec (fuel : Nat) :
    ∀ (b : Board) (player : Nat) (maximizing : Bool),
      minimaxS fuel b player maximizing = (minimax fuel b player maximizing, b) := by
  induction fuel with
  | zero => intro b player maximizing; rfl
  | succ fuel ih =>
    intro b player maximizing
    simp only [minimaxS, minimax]
    cases hw : get_winner b with
    | some w => rfl
    | none =>
      exact mmGoS_spec (fun c => minimax fuel c player (!maximizing))
        (fun c => minimaxS fuel c player (!maximizing))
        (fun c => ih c player (!maximizing)) player maximizing allPos _ b

theorem abGoS_spec (f : Board → Int → Int → Int) (fS : Board → Int → Int → Int × Board)
    (hf : ∀ c a bt, fS c a bt = (f c a bt, c)) (player : Nat) (maximizing : Bool) :
    ∀ (L : List (Nat × Nat)) (best alpha beta : Int) (b : Board),
      abGoS fS player maximizing L best alpha beta b
        = (abGo f b player maximizing L best alpha beta, b) := by
  intro L
  induction L with
  | nil => intro best alpha beta b; rfl
  | cons yx rest ih =>
    intro best alpha beta b
    obtain ⟨y, x⟩ := yx
    by_cases h : cell b y x = none
    · simp only [abGoS, abGo, if_pos h, hf, setCell_restore b y x _ h]
      by_cases hcut :
          (if maximizing then beta
            else if f (setCell b y x (some (mover player maximizing))) alpha beta < beta
              then f (setCell b y x (some (mover player maximizing))) alpha beta else beta) <
          (if maximizing then
              (if alpha < f (setCell b y x (some (mover player maximizing))) alpha beta
                then f (setCell b y x (some (mover player maximizing))) alpha beta else alpha)
            else alpha)
      · simp only [if_pos hcut]
      · simp only [if_neg hcut]
        exact ih _ _ _ b
    · simp only [abGoS, abGo, if_neg h]
      exact ih best alpha beta b

theorem alphabetaS_spec (fuel : Nat) :
    ∀ (b : Board) (player : Nat) (maximizing : Bool) (alpha beta : Int),
      alphabetaS fuel b player maximizing alpha beta
        = (alphabeta fuel b player maximizing alpha beta, b) := by
  induction fuel with
  | zero => intro b player maximizing alpha beta; rfl
  | succ fuel ih =>
    intro b player maximizing alpha beta
    simp only [alphabetaS, alphabeta]
    cases hw : get_winner b with
    | some w => rfl
    | none =>
      exact abGoS_spec (fun c a bt => alphabeta fuel c player (!maximizing) a bt)
        (fun c a bt => alphabetaS fuel c player (!maximizing) a bt)
        (fun c a bt => ih c player (!maximizing) a bt) player maximizing allPos _ _ _ b

theorem mmMoveGoS_spec (player : Nat) :
    ∀ (L : List (Nat × Nat)) (st : Int × (Nat × Nat)) (b : Board),
      mmMoveGoS player L st b = (mmMoveGo b player L st, b) := by
  intro L
  induction L with
  | nil => intro st b; rfl
  | cons yx rest ih =>
    intro st b
    obtain ⟨y, x⟩ := yx
    by_cases h : cell b y x = none
    · simp only [mmMoveGoS, mmMoveGo, if_pos h, minimaxS_spec, setCell_restore b y x _ h]
      by_cases hlt : st.1 < minimax 9 (setCell b y x (some player)) player false
      · simp only [if_pos hlt]; exact ih _ b
      · simp only [if_neg hlt]; exact ih st b
    · simp only [mmMoveGoS, mmMoveGo, if_neg h]
      exact ih st b

theorem abMoveGoS_spec (player : Nat) :
    ∀ (L : List (Nat × Nat)) (st : Int × (Nat × Nat)) (b : Board),
      abMoveGoS player L st b = (abMoveGo b player L st, b) := by
  intro L
  induction L with
  | nil => intro st b; rfl
  | cons yx rest ih =>
    intro st b
    obtain ⟨y, x⟩ := yx
    by_cases h : cell b y x = none
    · simp only [abMoveGoS, abMoveGo, if_pos h, alphabetaS_spec, setCell_restore b y x _ h]
      by_cases hlt : st.1 < alphabeta 9 (setCell b y x (some player)) player false (-INFINITY) INFINITY
      · simp only [if_pos hlt]; exact ih _ b
      · simp only [if_neg hlt]; exact ih st b
    · simp only [abMoveGoS, abMoveGo, if_neg h]
      exact ih st b

theorem mmMoveS_spec (b : Board) (player : Nat) :
    mmMoveS b player = (mmMove b player, b) := by
  unfold mmMoveS mmMove
  rw [mmMoveGoS_spec]

theorem abMoveS_spec (b : Board) (player : Nat) :
    abMoveS b player = (abMove b player, b) := by
  unfold abMoveS abMove
  rw [abMoveGoS_spec]

theorem lineGuard_spec (c0 c1 c2 : Cell) (h : lineGuard c0 c1 c2 = true) :
    ∃ v, v ≠ 0 ∧ c0 = some v ∧ c1 = some v ∧ c2 = some v := by
  cases c0 with
  | none => simp [lineGuard, truthy] at h
  | some v =>
    simp only [lineGuard, truthy, Bool.and_eq_true, bne_iff_ne, ne_eq, beq_iff_eq] at h
    exact ⟨v, h.1.1, rfl, h.1.2.symm, by rw [← h.2, h.1.2]⟩

theorem lineGuard_of_filled (v : Nat) (hv : v ≠ 0) :
    lineGuard (some v) (some v) (some v) = true := by
  simp [lineGuard, truthy, hv]

/-- Validity of every in-range cell of a well-formed board. -/
theorem WF_cell (b : Board) (h : WF b = true) (y x : Nat) (hm : (y, x) ∈ allPos) :
    cell b y x = none ∨ cell b y x = some 1 ∨ cell b y x = some 2 := by
  simp only [WF, Bool.and_eq_true, List.all_eq_true] at h
  have hv := h.2 (y, x) hm
  simp only [validCell, Bool.or_eq_true, beq_iff_eq] at hv
  tauto

/-- Branch structure of `get_winner`: either some checked line's guard
fires and its first cell is returned, or every guard is false and the
result is decided by `has_empty_field`. -/
theorem get_winner_master (b : Board) :
    (∃ y0 x0 y1 x1 y2 x2, [(y0, x0), (y1, x1), (y2, x2)] ∈ lines ∧
       lineGuard (cell b y0 x0) (cell b y1 x1) (cell b y2 x2) = true ∧
       get_winner b = cell b y0 x0)
    ∨ (linesGuardsFalse b ∧
        ((has_empty_field b = true ∧ get_winner b = none)
          ∨ (has_empty_field b = false ∧ get_winner b = some 0))) := by
  cases hg1 : lineGuard (cell b 0 0) (cell b 0 1) (cell b 0 2) with
  | true => exact Or.inl ⟨0, 0, 0, 1, 0, 2, by simp [lines], hg1, by simp [get_winner, hg1]⟩
  | false =>
  cases hg2 : lineGuard (cell b 1 0) (cell b 1 1) (cell b 1 2) with
  | true => exact Or.inl ⟨1, 0, 1, 1, 1, 2, by simp [lines], hg2, by simp [get_winner, hg1, hg2]⟩
  | false =>
  cases hg3 : lineGuard (cell b 2 0) (cell b 2 1) (cell b 2 2) with
  | true =>
    exact Or.inl ⟨2, 0, 2, 1, 2, 2, by simp [lines], hg3, by simp [get_winner, hg1, hg2, hg3]⟩
  | false =>
  cases hg4 : lineGuard (cell b 0 0) (cell b 1 0) (cell b 2 0) with
  | true =>
    exact Or.inl ⟨0, 0, 1, 0, 2, 0, by simp [lines], hg4,
      by simp [get_winner, hg1, hg2, hg3, hg4]⟩
  | false =>
  cases hg5 : lineGuard (cell b 0 1) (cell b 1 1) (cell b 2 1) with
  | true =>
    exact Or.inl ⟨0, 1, 1, 1, 2, 1, by simp [lines], hg5,
      by simp [get_winner, hg1, hg2, hg3, hg4, hg5]⟩
  | false =>
  cases hg6 : lineGuard (cell b 0 2) (cell b 1 2) (cell b 2 2) with
  | true =>
    exact Or.inl ⟨0, 2, 1, 2, 2, 2, by simp [lines], hg6,
      by simp [get_winner, hg1, hg2, hg3, hg4, hg5, hg6]⟩
  | false =>
  cases hg7 : lineGuard (cell b 0 0) (cell b 1 1) (cell b 2 2) with
  | true =>
    exact Or.inl ⟨0, 0, 1, 1, 2, 2, by simp [lines], hg7,
      by simp [get_winner, hg1, hg2, hg3, hg4, hg5, hg6, hg7]⟩
  | false =>
  cases hg8 : lineGuard (cell b 0 2) (cell b 1 1) (cell b 2 0) with
  | true =>
    exact Or.inl ⟨0, 2, 1, 1, 2, 0, by simp [lines], hg8,
      by simp [get_winner, hg1, hg2, hg3, hg4, hg5, hg6, hg7, hg8]⟩
  | false =>
  refine Or.inr ⟨?_, ?_⟩
  · intro l hm
    simp only [lines, List.mem_cons, List.not_mem_nil, or_false] at hm
    rcases hm with rfl | rfl | rfl | rfl | rfl | rfl | rfl | rfl <;>
      simpa [guardOfLine] using by assumption
  · cases hhe : has_empty_field b with
    | true =>
      exact Or.inl ⟨rfl, by simp [get_winner, hg1, hg2, hg3, hg4, hg5, hg6, hg7, hg8, hhe]⟩
    | false =>
      exact Or.inr ⟨rfl, by simp [get_winner, hg1, hg2, hg3, hg4, hg5, hg6, hg7, hg8, hhe]⟩

theorem guardOfLine_of_filled (b : Board) (p : Nat) (hp : p ≠ 0) (p0 p1 p2 : Nat × Nat)
    (h0 : cell b p0.1 p0.2 = some p) (h1 : cell b p1.1 p1.2 = some p)
    (h2 : cell b p2.1 p2.2 = some p) : guardOfLine b [p0, p1, p2] = true := by
  simp only [guardOfLine]
  rw [h0, h1, h2]
  exact lineGuard_of_filled p hp

theorem linesGuardsFalse_no_filled (b : Board) (p : Nat) (hp : p ≠ 0)
    (hfalse : linesGuardsFalse b) (hfill : lineFilled b p) : False := by
  obtain ⟨l, hl, hf⟩ := hfill
  have hg := hfalse l hl
  simp only [lines, List.mem_cons, List.not_mem_nil, or_false] at hl
  rcases hl with rfl | rfl | rfl | rfl | rfl | rfl | rfl | rfl
  · exact absurd (guardOfLine_of_filled b p hp (0, 0) (0, 1) (0, 2)
      (hf _ (by simp)) (hf _ (by simp)) (hf _ (by simp))) (by rw [hg]; simp)
  · exact absurd (guardOfLine_of_filled b p hp (1, 0) (1, 1) (1, 2)
      (hf _ (by simp)) (hf _ (by simp)) (hf _ (by simp))) (by rw [hg]; simp)
  · exact absurd (guardOfLine_of_filled b p hp (2, 0) (2, 1) (2, 2)
      (hf _ (by simp)) (hf _ (by simp)) (hf _ (by simp))) (by rw [hg]; simp)
  · exact absurd (guardOfLine_of_filled b p hp (0, 0) (1, 0) (2, 0)
      (hf _ (by simp)) (hf _ (by simp)) (hf _ (by simp))) (by rw [hg]; simp)
  · exact absurd (guardOfLine_of_filled b p hp (0, 1) (1, 1) (2, 1)
      (hf _ (by simp)) (hf _ (by simp)) (hf _ (by simp))) (by rw [hg]; simp)
  · exact absurd (guardOfLine_of_filled b p hp (0, 2) (1, 2) (2, 2)
      (hf _ (by simp)) (hf _ (by simp)) (hf _ (by simp))) (by rw [hg]; simp)
  · exact absurd (guardOfLine_of_filled b p hp (0, 0) (1, 1) (2, 2)
      (hf _ (by simp)) (hf _ (by simp)) (hf _ (by simp))) (by rw [hg]; simp)
  · exact absurd (guardOfLine_of_filled b p hp (0, 2) (1, 1) (2, 0)
      (hf _ (by simp)) (hf _ (by simp)) (hf _ (by simp))) (by rw [hg]; simp)

/-- A line of `lines` only holds grid positions. -/
theorem lines_sub_allPos : ∀ l ∈ lines, ∀ yx ∈ l, yx ∈ allPos := by decide

theorem key_guard (b : Board) (hWF : WF b = true) (y0 x0 y1 x1 y2 x2 : Nat)
    (hm : [(y0, x0), (y1, x1), (y2, x2)] ∈ lines)
    (hg : lineGuard (cell b y0 x0) (cell b y1 x1) (cell b y2 x2) = true) :
    ∃ v, (v = 1 ∨ v = 2) ∧ cell b y0 x0 = some v ∧ lineFilled b v := by
  obtain ⟨v, hv0, h0, h1, h2⟩ := lineGuard_spec _ _ _ hg
  have hv12 : v = 1 ∨ v = 2 := by
    rcases WF_cell b hWF y0 x0 (lines_sub_allPos _ hm _ (by simp)) with hc | hc | hc
    · rw [h0] at hc; cases hc
    · rw [h0] at hc; exact Or.inl (Option.some.inj hc)
    · rw [h0] at hc; exact Or.inr (Option.some.inj hc)
  refine ⟨v, hv12, h0, ⟨[(y0, x0), (y1, x1), (y2, x2)], hm, ?_⟩⟩
  intro yx hyx
  simp only [List.mem_cons, List.not_mem_nil, or_false] at hyx
  rcases hyx with rfl | rfl | rfl <;> assumption

theorem has_empty_none (b : Board) (hWF : WF b = true) (h : has_empty_field b = true) :
    ∃ yx ∈ allPos, cell b yx.1 yx.2 = none := by
  simp only [has_empty_field, List.any_eq_true] at h
  obtain ⟨yx, hm, ht⟩ := h
  rcases WF_cell b hWF yx.1 yx.2 (by simpa using hm) with hc | hc | hc
  · exact ⟨yx, hm, hc⟩
  · rw [hc] at ht; simp [truthy] at ht
  · rw [hc] at ht; simp [truthy] at ht

theorem has_empty_of_none (b : Board) (yx : Nat × Nat) (hm : yx ∈ allPos)
    (hc : cell b yx.1 yx.2 = none) : has_empty_field b = true := by
  simp only [has_empty_field, List.any_eq_true]
  exact ⟨yx, hm, by simp [hc, truthy]⟩

/-- C2, win direction: a line filled with `p` and no line of the other
player forces `get_winner` to report `p`; the state of the remaining
cells (full board or not) is irrelevant. -/
theorem get_winner_of_filled (b : Board) (p : Nat) (hWF : WF b = true)
    (hp : p = 1 ∨ p = 2) (hl : lineFilled b p) (hno : ¬ lineFilled b (3 - p)) :
    get_winner b = some p := by
  rcases get_winner_master b with ⟨y0, x0, y1, x1, y2, x2, hm, hg, heq⟩ | ⟨hfalse, _⟩
  · obtain ⟨v, hv12, h0, hfl⟩ := key_guard b hWF y0 x0 y1 x1 y2 x2 hm hg
    rw [heq, h0]
    by_cases hvp : v = p
    · rw [hvp]
    · have hv3 : v = 3 - p := by omega
      exact absurd (hv3 ▸ hfl) hno
  · exact absurd hl (fun hfill => linesGuardsFalse_no_filled b p (by omega) hfalse hfill)

/-- C2, draw direction: no completed line and a full board yield the
draw value `0`. -/
theorem get_winner_full_draw (b : Board) (hWF : WF b = true)
    (h1 : ¬ lineFilled b 1) (h2 : ¬ lineFilled b 2) (hfull : boardFull b) :
    get_winner b = some 0 := by
  rcases get_winner_master b with ⟨y0, x0, y1, x1, y2, x2, hm, hg, heq⟩ | ⟨hfalse, hrest⟩
  · obtain ⟨v, hv12, h0, hfl⟩ := key_guard b hWF y0 x0 y1 x1 y2 x2 hm hg
    rcases hv12 with rfl | rfl
    · exact absurd hfl h1
    · exact absurd hfl h2
  · rcases hrest with ⟨hhe, heq⟩ | ⟨hhe, heq⟩
    · obtain ⟨yx, hm, hc⟩ := has_empty_none b hWF hhe
      exact absurd hc (hfull yx hm)
    · exact heq

/-- C2, undecided direction: no completed line and a remaining empty
cell yield `None`. -/
theorem get_winner_undecided (b : Board) (hWF : WF b = true)
    (h1 : ¬ lineFilled b 1) (h2 : ¬ lineFilled b 2)
    (hex : ∃ yx ∈ allPos, cell b yx.1 yx.2 = none) : get_winner b = none := by
  rcases get_winner_master b with ⟨y0, x0, y1, x1, y2, x2, hm, hg, heq⟩ | ⟨hfalse, hrest⟩
  · obtain ⟨v, hv12, h0, hfl⟩ := key_guard b hWF y0 x0 y1 x1 y2 x2 hm hg
    rcases hv12 with rfl | rfl
    · exact absurd hfl h1
    · exact absurd hfl h2
  · rcases hrest with ⟨hhe, heq⟩ | ⟨hhe, heq⟩
    · exact heq
    · obtain ⟨yx, hm, hc⟩ := hex
      rw [has_empty_of_none b yx hm hc] at hhe
      cases hhe

/-- A well-formed undecided board has an empty cell among the nine
positions. -/
theorem get_winner_none_empty (b : Board) (hWF : WF b = true) (h : get_winner b = none) :
    ∃ yx ∈ allPos, cell b yx.1 yx.2 = none := by
  rcases get_winner_master b with ⟨y0, x0, y1, x1, y2, x2, hm, hg, heq⟩ | ⟨hfalse, hrest⟩
  · obtain ⟨v, hv0, h0, h1m, h2m⟩ := lineGuard_spec _ _ _ hg
    rw [h, h0] at heq
    cases heq
  · rcases hrest with ⟨hhe, heq⟩ | ⟨hhe, heq⟩
    · exact has_empty_none b hWF hhe
    · rw [h] at heq; cases heq

/-- On a well-formed board a reported winner is `0`, `1` or `2`. -/
theorem get_winner_some_range (b : Board) (w : Nat) (hWF : WF b = true)
    (h : get_winner b = some w) : w = 0 ∨ w = 1 ∨ w = 2 := by
  rcases get_winner_master b with ⟨y0, x0, y1, x1, y2, x2, hm, hg, heq⟩ | ⟨hfalse, hrest⟩
  · obtain ⟨v, hv12, h0, hfl⟩ := key_guard b hWF y0 x0 y1 x1 y2 x2 hm hg
    rw [h, h0] at heq
    have := Option.some.inj heq
    omega
  · rcases hrest with ⟨hhe, heq⟩ | ⟨hhe, heq⟩
    · rw [h] at heq; cases heq
    · rw [h] at heq
      exact Or.inl (Option.some.inj heq)

theorem spec_refl (v alpha beta : Int) : Spec v v alpha beta :=
  ⟨fun _ => le_rfl, fun _ => le_rfl, fun _ _ => rfl, fun _ _ => rfl⟩

/-- The three possible situations for a single alpha-beta call. -/
theorem spec_trichotomy {r v alpha beta : Int} (h : Spec r v alpha beta) :
    (r ≤ alpha ∧ v ≤ r) ∨ (alpha < r ∧ r < beta ∧ r = v) ∨ (beta ≤ r ∧ r ≤ v) := by
  obtain ⟨h1, h2, h3, h4⟩ := h
  rcases le_or_lt r alpha with hr | hr
  · exact Or.inl ⟨hr, h1 hr⟩
  rcases lt_or_le r beta with hrb | hrb
  · exact Or.inr (Or.inl ⟨hr, hrb, h4 hr hrb⟩)
  · exact Or.inr (Or.inr ⟨hrb, h2 hrb⟩)

theorem mover_true (player : Nat) : mover player true = player := rfl

theorem mover_false (player : Nat) : mover player false = player % 2 + 1 := rfl

theorem ite_lt_eq_max (a s : Int) : (if a < s then s else a) = max a s := by
  split <;> omega

theorem ite_lt_eq_min (bt s : Int) : (if s < bt then s else bt) = min bt s := by
  split <;> omega

theorem mmGo_cons_max (f : Board → Int) (b : Board) (player y x : Nat)
    (rest : List (Nat × Nat)) (best : Int) (h : cell b y x = none) :
    mmGo f b player true ((y, x) :: rest) best
      = mmGo f b player true rest (max (f (setCell b y x (some player))) best) := by
  simp [mmGo, h, mover]

theorem mmGo_cons_min (f : Board → Int) (b : Board) (player y x : Nat)
    (rest : List (Nat × Nat)) (best : Int) (h : cell b y x = none) :
    mmGo f b player false ((y, x) :: rest) best
      = mmGo f b player false rest (min (f (setCell b y x (some (player % 2 + 1)))) best) := by
  simp [mmGo, h, mover]

theorem mmGo_cons_skip (f : Board → Int) (b : Board) (player : Nat) (m : Bool) (y x : Nat)
    (rest : List (Nat × Nat)) (best : Int) (h : ¬ cell b y x = none) :
    mmGo f b player m ((y, x) :: rest) best = mmGo f b player m rest best := by
  simp [mmGo, h]

theorem abGo_cons_max (f : Board → Int → Int → Int) (b : Board) (player y x : Nat)
    (rest : List (Nat × Nat)) (best alpha beta : Int) (h : cell b y x = none) :
    abGo f b player true ((y, x) :: rest) best alpha beta
      = (if beta < max alpha (f (setCell b y x (some player)) alpha beta)
          then max (f (setCell b y x (some player)) alpha beta) best
          else abGo f b player true rest
            (max (f (setCell b y x (some player)) alpha beta) best)
            (max alpha (f (setCell b y x (some player)) alpha beta)) beta) := by
  simp [abGo, h, mover, ite_lt_eq_max]

theorem abGo_cons_min (f : Board → Int → Int → Int) (b : Board) (player y x : Nat)
    (rest : List (Nat × Nat)) (best alpha beta : Int) (h : cell b y x = none) :
    abGo f b player false ((y, x) :: rest) best alpha beta
      = (if min beta (f (setCell b y x (some (player % 2 + 1))) alpha beta) < alpha
          then min (f (setCell b y x (some (player % 2 + 1))) alpha beta) best
          else abGo f b player false rest
            (min (f (setCell b y x (some (player % 2 + 1))) alpha beta) best)
            alpha (min beta (f (setCell b y x (some (player % 2 + 1))) alpha beta))) := by
  simp [abGo, h, mover, ite_lt_eq_min]

theorem abGo_cons_skip (f : Board → Int → Int → Int) (b : Board) (player : Nat) (m : Bool)
    (y x : Nat) (rest : List (Nat × Nat)) (best alpha beta : Int) (h : ¬ cell b y x = none) :
    abGo f b player m ((y, x) :: rest) best alpha beta
      = abGo f b player m rest best alpha beta := by
  simp [abGo, h]

theorem mmGo_max_mono (f : Board → Int) (b : Board) (player : Nat) :
    ∀ (L : List (Nat × Nat)) (M : Int), M ≤ mmGo f b player true L M := by
  intro L
  induction L with
  | nil => intro M; exact le_rfl
  | cons yx rest ih =>
    intro M
    obtain ⟨y, x⟩ := yx
    by_cases h : cell b y x = none
    · rw [mmGo_cons_max f b player y x rest M h]
      exact le_trans (le_max_right _ _) (ih _)
    · rw [mmGo_cons_skip f b player true y x rest M h]
      exact ih M

theorem mmGo_min_mono (f : Board → Int) (b : Board) (player : Nat) :
    ∀ (L : List (Nat × Nat)) (M : Int), mmGo f b player false L M ≤ M := by
  intro L
  induction L with
  | nil => intro M; exact le_rfl
  | cons yx rest ih =>
    intro M
    obtain ⟨y, x⟩ := yx
    by_cases h : cell b y x = none
    · rw [mmGo_cons_min f b player y x rest M h]
      exact le_trans (ih _) (min_le_right _ _)
    · rw [mmGo_cons_skip f b player false y x rest M h]
      exact ih M

set_option maxHeartbeats 3200000 in
/-- Maximizing-node candidate loop: the alpha-beta fold, started from
accumulator `A` and raised bound `a`, satisfies the window specification
against the minimax fold started from `M`, provided the listed coupling
invariants between the two loop states hold.  `alpha0` is the bound the
node was entered with, `beta` stays constant at a maximizing node. -/
theorem abGo_mmGo_max (f_ab : Board → Int → Int → Int) (f_mm : Board → Int)
    (b : Board) (player : Nat)
    (hrec : ∀ c a bt, -INFINITY ≤ a → a ≤ bt → bt ≤ INFINITY →
      Spec (f_ab c a bt) (f_mm c) a bt) :
    ∀ (L : List (Nat × Nat)) (A M a alpha0 beta : Int),
      -INFINITY ≤ alpha0 → alpha0 ≤ a → a ≤ beta → beta ≤ INFINITY →
      a = max alpha0 A →
      (A ≤ alpha0 → M ≤ A) →
      (beta ≤ A → A ≤ M) →
      (alpha0 ≤ M → M ≤ beta → A = M) →
      A ≤ max alpha0 M →
      (alpha0 < A → A < beta → A = M) →
      (M ≤ a ∨ beta ≤ M) →
      (beta ≤ M → beta ≤ A) →
      Spec (abGo f_ab b player true L A a beta) (mmGo f_mm b player true L M) alpha0 beta := by
  intro L
  induction L with
  | nil =>
    intro A M a alpha0 beta hb0 hb1 hb2 hb3 hK4 hK1 hK2 hK3 hK5 hK6 hK7 hK8
    exact ⟨hK1, hK2, hK3, hK6⟩
  | cons yx rest ih =>
    intro A M a alpha0 beta hb0 hb1 hb2 hb3 hK4 hK1 hK2 hK3 hK5 hK6 hK7 hK8
    obtain ⟨y, x⟩ := yx
    by_cases hc : cell b y x = none
    · rw [abGo_cons_max f_ab b player y x rest A a beta hc,
        mmGo_cons_max f_mm b player y x rest M hc]
      have hspec := hrec (setCell b y x (some player)) a beta (le_trans hb0 hb1) hb2 hb3
      set s := f_ab (setCell b y x (some player)) a beta with hsdef
      set w := f_mm (setCell b y x (some player)) with hwdef
      clear_value s w
      clear hsdef hwdef
      have htri := spec_trichotomy hspec
      obtain ⟨hs1, hs2, hs3, hs4⟩ := hspec
      by_cases hcut : beta < max a s
      · rw [if_pos hcut]
        have hmono := mmGo_max_mono f_mm b player rest (max w M)
        rcases htri with ⟨h1, h2⟩ | ⟨h1, h2, h3⟩ | ⟨h1, h2⟩
        · exact absurd h1 (by omega)
        · exact absurd h2 (by omega)
        · refine ⟨fun h' => by omega, fun h' => ?_, fun h1' h2' => by omega,
            fun h1' h2' => by omega⟩
          by_cases hA : beta ≤ A
          · have hAM := hK2 hA; omega
          · omega
      · rw [if_neg hcut]
        have hncut : max a s ≤ beta := by omega
        apply ih (max s A) (max w M) (max a s) alpha0 beta hb0 (by omega) hncut hb3
        · omega
        · intro h'
          have hws := hs1 (by omega)
          have hMA := hK1 (by omega)
          omega
        · intro h'
          by_cases hbs : beta ≤ s
          · have hsw := hs2 hbs
            by_cases hA : beta ≤ A
            · have := hK2 hA; omega
            · omega
          · have hA : beta ≤ A := by omega
            have := hK2 hA; omega
        · intro h1' h2'
          by_cases hwM : w ≤ M
          · have hAM := hK3 (by omega) (by omega)
            rcases htri with ⟨h1, h2⟩ | ⟨h1, h2, h3⟩ | ⟨h1, h2⟩
            · omega
            · rcases hK7 with h7 | h7
              · omega
              · have h8 := hK8 h7; omega
            · rcases hK7 with h7 | h7
              · omega
              · have h8 := hK8 h7; omega
          · rcases htri with ⟨h1, h2⟩ | ⟨h1, h2, h3⟩ | ⟨h1, h2⟩ <;> omega
        · rcases htri with ⟨h1, h2⟩ | ⟨h1, h2, h3⟩ | ⟨h1, h2⟩ <;> omega
        · intro h1' h2'
          rcases htri with ⟨h1, h2⟩ | ⟨h1, h2, h3⟩ | ⟨h1, h2⟩
          · by_cases hsA : s ≤ A
            · have := hK6 (by omega) (by omega); omega
            · omega
          · rcases hK7 with h7 | h7
            · omega
            · have := hK8 h7; omega
          · omega
        · rcases htri with ⟨h1, h2⟩ | ⟨h1, h2, h3⟩ | ⟨h1, h2⟩
          · rcases hK7 with h7 | h7
            · exact Or.inl (by omega)
            · exact Or.inr (by omega)
          · rcases hK7 with h7 | h7
            · exact Or.inl (by omega)
            · exact Or.inr (by omega)
          · exact Or.inr (by omega)
        · intro h'
          by_cases hbM : beta ≤ M
          · have := hK8 hbM; omega
          · rcases htri with ⟨h1, h2⟩ | ⟨h1, h2, h3⟩ | ⟨h1, h2⟩ <;> omega
    · rw [abGo_cons_skip f_ab b player true y x rest A a beta hc,
        mmGo_cons_skip f_mm b player true y x rest M hc]
      exact ih A M a alpha0 beta hb0 hb1 hb2 hb3 hK4 hK1 hK2 hK3 hK5 hK6 hK7 hK8

set_option maxHeartbeats 3200000 in
/-- Minimizing-node candidate loop, the mirror image of
`abGo_mmGo_max`: `alpha` stays constant, the lowered bound is `bb`,
`beta0` is the bound the node was entered with. -/
theorem abGo_mmGo_min (f_ab : Board → Int → Int → Int) (f_mm : Board → Int)
    (b : Board) (player : Nat)
    (hrec : ∀ c a bt, -INFINITY ≤ a → a ≤ bt → bt ≤ INFINITY →
      Spec (f_ab c a bt) (f_mm c) a bt) :
    ∀ (L : List (Nat × Nat)) (A M bb alpha beta0 : Int),
      -INFINITY ≤ alpha → alpha ≤ bb → bb ≤ beta0 → beta0 ≤ INFINITY →
      bb = min beta0 A →
      (beta0 ≤ A → A ≤ M) →
      (A ≤ alpha → M ≤ A) →
      (alpha ≤ M → M ≤ beta0 → A = M) →
      min beta0 M ≤ A →
      (alpha < A → A < beta0 → A = M) →
      (bb ≤ M ∨ M ≤ alpha) →
      (M ≤ alpha → A ≤ alpha) →
      Spec (abGo f_ab b player false L A alpha bb) (mmGo f_mm b player false L M) alpha beta0 := by
  intro L
  induction L with
  | nil =>
    intro A M bb alpha beta0 hb0 hb1 hb2 hb3 hK4 hK1 hK2 hK3 hK5 hK6 hK7 hK8
    exact ⟨hK2, hK1, hK3, hK6⟩
  | cons yx rest ih =>
    intro A M bb alpha beta0 hb0 hb1 hb2 hb3 hK4 hK1 hK2 hK3 hK5 hK6 hK7 hK8
    obtain ⟨y, x⟩ := yx
    by_cases hc : cell b y x = none
    · rw [abGo_cons_min f_ab b player y x rest A alpha bb hc,
        mmGo_cons_min f_mm b player y x rest M hc]
      have hspec := hrec (setCell b y x (some (player % 2 + 1))) alpha bb hb0 hb1
        (le_trans hb2 hb3)
      set s := f_ab (setCell b y x (some (player % 2 + 1))) alpha bb with hsdef
      set w := f_mm (setCell b y x (some (player % 2 + 1))) with hwdef
      clear_value s w
      clear hsdef hwdef
      have htri := spec_trichotomy hspec
      obtain ⟨hs1, hs2, hs3, hs4⟩ := hspec
      by_cases hcut : min bb s < alpha
      · rw [if_pos hcut]
        have hmono := mmGo_min_mono f_mm b player rest (min w M)
        rcases htri with ⟨h1, h2⟩ | ⟨h1, h2, h3⟩ | ⟨h1, h2⟩
        · refine ⟨fun h' => ?_, fun h' => by omega, fun h1' h2' => by omega,
            fun h1' h2' => by omega⟩
          by_cases hA : A ≤ alpha
          · have hMA := hK2 hA; omega
          · omega
        · exact absurd h1 (by omega)
        · exact absurd h1 (by omega)
      · rw [if_neg hcut]
        have hncut : alpha ≤ min bb s := by omega
        apply ih (min s A) (min w M) (min bb s) alpha beta0 hb0 hncut (by omega) hb3
        · omega
        · intro h'
          have hsw := hs2 (by omega)
          have hAM := hK1 (by omega)
          omega
        · intro h'
          by_cases hsa : s ≤ alpha
          · have hws := hs1 hsa
            by_cases hA : A ≤ alpha
            · have := hK2 hA; omega
            · omega
          · have hA : A ≤ alpha := by omega
            have := hK2 hA; omega
        · intro h1' h2'
          by_cases hwM : M ≤ w
          · have hAM := hK3 (by omega) (by omega)
            rcases htri with ⟨h1, h2⟩ | ⟨h1, h2, h3⟩ | ⟨h1, h2⟩
            · rcases hK7 with h7 | h7
              · omega
              · have h8 := hK8 h7; omega
            · rcases hK7 with h7 | h7
              · omega
              · have h8 := hK8 h7; omega
            · omega
          · rcases htri with ⟨h1, h2⟩ | ⟨h1, h2, h3⟩ | ⟨h1, h2⟩ <;> omega
        · rcases htri with ⟨h1, h2⟩ | ⟨h1, h2, h3⟩ | ⟨h1, h2⟩ <;> omega
        · intro h1' h2'
          rcases htri with ⟨h1, h2⟩ | ⟨h1, h2, h3⟩ | ⟨h1, h2⟩
          · omega
          · rcases hK7 with h7 | h7
            · omega
            · have := hK8 h7; omega
          · by_cases hsA : A ≤ s
            · have := hK6 (by omega) (by omega); omega
            · omega
        · rcases htri with ⟨h1, h2⟩ | ⟨h1, h2, h3⟩ | ⟨h1, h2⟩
          · exact Or.inr (by omega)
          · rcases hK7 with h7 | h7
            · exact Or.inl (by omega)
            · exact Or.inr (by omega)
          · rcases hK7 with h7 | h7
            · exact Or.inl (by omega)
            · exact Or.inr (by omega)
        · intro h'
          by_cases hbM : M ≤ alpha
          · have := hK8 hbM; omega
          · rcases htri with ⟨h1, h2⟩ | ⟨h1, h2, h3⟩ | ⟨h1, h2⟩ <;> omega
    · rw [abGo_cons_skip f_ab b player false y x rest A alpha bb hc,
        mmGo_cons_skip f_mm b player false y x rest M hc]
      exact ih A M bb alpha beta0 hb0 hb1 hb2 hb3 hK4 hK1 hK2 hK3 hK5 hK6 hK7 hK8

/-- Any window inside `[-INFINITY, INFINITY]` relates `__alpha_beta` to
`__minimax` by the Knuth-Moore specification, for every board, player
and side to move. -/
theorem ab_spec :
    ∀ (fuel : Nat) (b : Board) (player : Nat) (m : Bool) (alpha beta : Int),
      -INFINITY ≤ alpha → alpha ≤ beta → beta ≤ INFINITY →
      Spec (alphabeta fuel b player m alpha beta) (minimax fuel b player m) alpha beta := by
  intro fuel
  induction fuel with
  | zero => intro b player m alpha beta h0 h1 h2; exact spec_refl 0 alpha beta
  | succ fuel ih =>
    intro b player m alpha beta h0 h1 h2
    cases hw : get_winner b with
    | some w =>
      simp only [alphabeta, minimax, hw]
      exact spec_refl _ alpha beta
    | none =>
      cases m with
      | true =>
        simp only [alphabeta, minimax, hw, Bool.not_true, if_true]
        exact abGo_mmGo_max (fun c a bt => alphabeta fuel c player false a bt)
          (fun c => minimax fuel c player false) b player
          (fun c a bt ha hab hb => ih c player false a bt ha hab hb)
          allPos (-INFINITY) (-INFINITY) alpha alpha beta h0 le_rfl h1 h2
          (by omega) (fun _ => le_rfl) (fun _ => le_rfl) (fun _ _ => rfl)
          (by omega) (fun _ _ => rfl) (Or.inl h0) (fun h => h)
      | false =>
        simp only [alphabeta, minimax, hw, Bool.not_false, if_false]
        exact abGo_mmGo_min (fun c a bt => alphabeta fuel c player true a bt)
          (fun c => minimax fuel c player true) b player
          (fun c a bt ha hab hb => ih c player true a bt ha hab hb)
          allPos INFINITY INFINITY beta alpha beta h0 h1 le_rfl h2
          (by omega) (fun _ => le_rfl) (fun _ => le_rfl) (fun _ _ => rfl)
          (by omega) (fun _ _ => rfl) (Or.inl h2) (fun h => h)

/-- Every minimax result stays between the two sentinels. -/
theorem minimax_bounds :
    ∀ (fuel : Nat) (b : Board) (player : Nat) (m : Bool),
      -INFINITY ≤ minimax fuel b player m ∧ minimax fuel b player m ≤ INFINITY := by
  have hIa : (1 : Int) ≤ INFINITY := by norm_num [INFINITY]
  intro fuel
  induction fuel with
  | zero => intro b player m; constructor <;> simp [minimax] <;> omega
  | succ fuel ih =>
    intro b player m
    cases hw : get_winner b with
    | some w =>
      simp only [minimax, hw, terminalScore]
      constructor <;> split <;> try split
      all_goals omega
    | none =>
      cases m with
      | true =>
        simp only [minimax, hw, Bool.not_true, if_true]
        have hgo : ∀ (L : List (Nat × Nat)) (M : Int),
            -INFINITY ≤ M → M ≤ INFINITY →
            -INFINITY ≤ mmGo (fun c => minimax fuel c player false) b player true L M ∧
              mmGo (fun c => minimax fuel c player false) b player true L M ≤ INFINITY := by
          intro L
          induction L with
          | nil => intro M hM1 hM2; exact ⟨hM1, hM2⟩
          | cons yx rest ihL =>
            intro M hM1 hM2
            obtain ⟨y, x⟩ := yx
            by_cases hcn : cell b y x = none
            · rw [mmGo_cons_max _ b player y x rest M hcn]
              have hch := ih (setCell b y x (some player)) player false
              exact ihL _ (by omega) (by omega)
            · rw [mmGo_cons_skip _ b player true y x rest M hcn]
              exact ihL M hM1 hM2
        exact hgo allPos (-INFINITY) le_rfl (by omega)
      | false =>
        simp only [minimax, hw, Bool.not_false, if_false]
        have hgo : ∀ (L : List (Nat × Nat)) (M : Int),
            -INFINITY ≤ M → M ≤ INFINITY →
            -INFINITY ≤ mmGo (fun c => minimax fuel c player true) b player false L M ∧
              mmGo (fun c => minimax fuel c player true) b player false L M ≤ INFINITY := by
          intro L
          induction L with
          | nil => intro M hM1 hM2; exact ⟨hM1, hM2⟩
          | cons yx rest ihL =>
            intro M hM1 hM2
            obtain ⟨y, x⟩ := yx
            by_cases hcn : cell b y x = none
            · rw [mmGo_cons_min _ b player y x rest M hcn]
              have hch := ih (setCell b y x (some (player % 2 + 1))) player true
              exact ihL _ (by omega) (by omega)
            · rw [mmGo_cons_skip _ b player false y x rest M hcn]
              exact ihL M hM1 hM2
        exact hgo allPos INFINITY (by omega) le_rfl

/-- The central equivalence: with the full starting window the pruned
search computes exactly the minimax score. -/
theorem ab_eq_mm (fuel : Nat) (b : Board) (player : Nat) (m : Bool) :
    alphabeta fuel b player m (-INFINITY) INFINITY = minimax fuel b player m := by
  have hI : -INFINITY ≤ (INFINITY : Int) := by norm_num [INFINITY]
  have h := ab_spec fuel b player m (-INFINITY) INFINITY le_rfl hI le_rfl
  have hb := minimax_bounds fuel b player m
  exact h.2.2.1 hb.1 hb.2

/-- Both move loops walk the same candidates with pointwise equal
scores, hence agree from any state. -/
theorem moveGo_eq (b : Board) (player : Nat) :
    ∀ (L : List (Nat × Nat)) (st : Int × (Nat × Nat)),
      abMoveGo b player L st = mmMoveGo b player L st := by
  intro L
  induction L with
  | nil => intro st; rfl
  | cons yx rest ih =>
    intro st
    obtain ⟨y, x⟩ := yx
    simp only [abMoveGo, mmMoveGo, ab_eq_mm]
    by_cases hcn : cell b y x = none
    · simp only [if_pos hcn, ih]
    · simp only [if_neg hcn, ih]

/-- `AlphaBetaInput.move` and `MinimaxInput.move` pick the same cell. -/
theorem abMove_eq_mmMove (b : Board) (player : Nat) :
    abMove b player = mmMove b player := by
  unfold abMove mmMove
  rw [moveGo_eq]

/-! ### Well-formedness is preserved by placing a stone, and scores of
well-formed positions stay in `{-1, 0, 1}` -/

theorem cell_setCell_same (b : Board) (y x : Nat) (v : Cell)
    (hy : y < b.length) (hx : x < (b.getD y []).length) :
    cell (setCell b y x v) y x = v := by
  unfold cell setCell
  rw [list_getD_set_self _ _ _ _ hy, list_getD_set_self _ _ _ _ hx]

theorem cell_setCell_other (b : Board) (y x y' x' : Nat) (v : Cell)
    (h : ¬(y' = y ∧ x' = x)) : cell (setCell b y x v) y' x' = cell b y' x' := by
  unfold cell setCell
  by_cases hyy : y' = y
  · subst hyy
    have hxx : x' ≠ x := fun hc => h ⟨rfl, hc⟩
    by_cases hyl : y' < b.length
    · rw [list_getD_set_self _ _ _ _ hyl, list_getD_set_ne _ _ _ _ _ (fun hc => hxx hc.symm)]
    · rw [list_set_oob _ _ _ (Nat.le_of_not_lt hyl)]
  · rw [list_getD_set_ne _ _ _ _ _ (fun hc => hyy hc.symm)]

theorem WF_shape (b : Board) (h : WF b = true) :
    b.length = 3 ∧ ∀ r ∈ b, r.length = 3 := by
  simp only [WF, Bool.and_eq_true, List.all_eq_true, beq_iff_eq] at h
  exact ⟨h.1.1, h.1.2⟩

theorem WF_row_len (b : Board) (h : WF b = true) (y : Nat) (hy : y < 3) :
    (b.getD y []).length = 3 := by
  obtain ⟨hl, hr⟩ := WF_shape b h
  have hyl : y < b.length := by omega
  rw [List.getD_eq_getElem _ _ hyl]
  exact hr _ (List.getElem_mem hyl)

theorem WF_setCell (b : Board) (y x p' : Nat) (hWF : WF b = true)
    (hy : y < 3) (hx : x < 3) (hp : p' = 1 ∨ p' = 2) :
    WF (setCell b y x (some p')) = true := by
  obtain ⟨hl, hr⟩ := WF_shape b hWF
  have hrow := WF_row_len b hWF y hy
  simp only [WF, Bool.and_eq_true, List.all_eq_true, beq_iff_eq]
  refine ⟨⟨?_, ?_⟩, ?_⟩
  · simp [setCell, hl]
  · intro r hrm
    rcases List.mem_or_eq_of_mem_set hrm with hrm' | rfl
    · exact hr r hrm'
    · rw [List.length_set]
      exact hrow
  · intro yx hm
    by_cases hsame : yx.1 = y ∧ yx.2 = x
    · have : cell (setCell b y x (some p')) yx.1 yx.2 = some p' := by
        rw [hsame.1, hsame.2]
        exact cell_setCell_same b y x _ (by omega) (by omega)
      rw [this]
      rcases hp with rfl | rfl <;> simp [validCell]
    · rw [cell_setCell_other b y x yx.1 yx.2 _ hsame]
      have h2 := (by simp only [WF, Bool.and_eq_true, List.all_eq_true] at hWF; exact hWF.2 :
        ∀ yx ∈ allPos, validCell (cell b yx.1 yx.2) = true)
      exact h2 yx hm

set_option maxHeartbeats 800000 in
/-- On a well-formed board with both players in `{1, 2}`, every minimax
score lies in `[-1, 1]`. -/
theorem minimax_range :
    ∀ (fuel : Nat) (b : Board) (player : Nat) (m : Bool), WF b = true →
      (player = 1 ∨ player = 2) →
      -1 ≤ minimax fuel b player m ∧ minimax fuel b player m ≤ 1 := by
  have hIa : (1 : Int) ≤ INFINITY := by norm_num [INFINITY]
  intro fuel
  induction fuel with
  | zero => intro b player m _ _; constructor <;> simp [minimax]
  | succ fuel ih =>
    intro b player m hWF hp
    have hposlt : ∀ yx : Nat × Nat, yx ∈ allPos → yx.1 < 3 ∧ yx.2 < 3 := by decide
    cases hw : get_winner b with
    | some w =>
      simp only [minimax, hw, terminalScore]
      constructor <;> split <;> try split
      all_goals omega
    | none =>
      obtain ⟨yx0, hm0, hc0⟩ := get_winner_none_empty b hWF hw
      cases m with
      | true =>
        simp only [minimax, hw, Bool.not_true, if_true]
        have hgo : ∀ (L : List (Nat × Nat)), (∀ yx ∈ L, yx ∈ allPos) → ∀ (M : Int),
            ((∀ yx ∈ L, cell b yx.1 yx.2 ≠ none) →
              mmGo (fun c => minimax fuel c player false) b player true L M = M) ∧
            ((∃ yx ∈ L, cell b yx.1 yx.2 = none) →
              -1 ≤ mmGo (fun c => minimax fuel c player false) b player true L M ∧
                mmGo (fun c => minimax fuel c player false) b player true L M ≤ max M 1) := by
          intro L
          induction L with
          | nil =>
            intro _ M
            exact ⟨fun _ => rfl, fun hex => absurd hex (by simp)⟩
          | cons yx rest ihL =>
            intro hsub M
            obtain ⟨y, x⟩ := yx
            have hyx3 := hposlt (y, x) (hsub _ (by simp))
            have hsub' : ∀ yx ∈ rest, yx ∈ allPos := fun yx h => hsub yx (by simp [h])
            by_cases hcn : cell b y x = none
            · rw [mmGo_cons_max _ b player y x rest M hcn]
              have hch := ih (setCell b y x (some player)) player false
                (WF_setCell b y x player hWF hyx3.1 hyx3.2 hp) hp
              constructor
              · intro hall
                exact absurd hcn (hall (y, x) (by simp))
              · intro _
                by_cases hrest : ∃ yx ∈ rest, cell b yx.1 yx.2 = none
                · have hres := (ihL hsub'
                    (max (minimax fuel (setCell b y x (some player)) player false) M)).2 hrest
                  omega
                · push_neg at hrest
                  have hres := (ihL hsub'
                    (max (minimax fuel (setCell b y x (some player)) player false) M)).1 hrest
                  rw [hres]
                  omega
            · rw [mmGo_cons_skip _ b player true y x rest M hcn]
              constructor
              · intro hall
                exact (ihL hsub' M).1 (fun yx h => hall yx (by simp [h]))
              · intro hex
                obtain ⟨yx, hm, hcc⟩ := hex
                rcases List.mem_cons.mp hm with rfl | hm'
                · exact absurd hcc hcn
                · exact (ihL hsub' M).2 ⟨yx, hm', hcc⟩
        have hres := (hgo allPos (fun _ h => h) (-INFINITY)).2 ⟨yx0, hm0, hc0⟩
        omega
      | false =>
        simp only [minimax, hw, Bool.not_false, Bool.false_eq_true, if_false]
        have hgo : ∀ (L : List (Nat × Nat)), (∀ yx ∈ L, yx ∈ allPos) → ∀ (M : Int),
            ((∀ yx ∈ L, cell b yx.1 yx.2 ≠ none) →
              mmGo (fun c => minimax fuel c player true) b player false L M = M) ∧
            ((∃ yx ∈ L, cell b yx.1 yx.2 = none) →
              min M (-1) ≤ mmGo (fun c => minimax fuel c player true) b player false L M ∧
                mmGo (fun c => minimax fuel c player true) b player false L M ≤ 1) := by
          intro L
          induction L with
          | nil =>
            intro _ M
            exact ⟨fun _ => rfl, fun hex => absurd hex (by simp)⟩
          | cons yx rest ihL =>
            intro hsub M
            obtain ⟨y, x⟩ := yx
            have hyx3 := hposlt (y, x) (hsub _ (by simp))
            have hsub' : ∀ yx ∈ rest, yx ∈ allPos := fun yx h => hsub yx (by simp [h])
            by_cases hcn : cell b y x = none
            · rw [mmGo_cons_min _ b player y x rest M hcn]
              have hch := ih (setCell b y x (some (player % 2 + 1))) player true
                (WF_setCell b y x (player % 2 + 1) hWF hyx3.1 hyx3.2 (by omega)) hp
              constructor
              · intro hall
                exact absurd hcn (hall (y, x) (by simp))
              · intro _
                by_cases hrest : ∃ yx ∈ rest, cell b yx.1 yx.2 = none
                · have hres := (ihL hsub'
                    (min (minimax fuel (setCell b y x (some (player % 2 + 1))) player true) M)).2
                    hrest
                  omega
                · push_neg at hrest
                  have hres := (ihL hsub'
                    (min (minimax fuel (setCell b y x (some (player % 2 + 1))) player true) M)).1
                    hrest
                  rw [hres]
                  omega
            · rw [mmGo_cons_skip _ b player false y x rest M hcn]
              constructor
              · intro hall
                exact (ihL hsub' M).1 (fun yx h => hall yx (by simp [h]))
              · intro hex
                obtain ⟨yx, hm, hcc⟩ := hex
                rcases List.mem_cons.mp hm with rfl | hm'
                · exact absurd hcc hcn
                · exact (ihL hsub' M).2 ⟨yx, hm', hcc⟩
        have hres := (hgo allPos (fun _ h => h) INFINITY).2 ⟨yx0, hm0, hc0⟩
        omega

theorem allPos_lt : ∀ yx ∈ allPos, yx.1 < 3 ∧ yx.2 < 3 := by decide

theorem allPos_mem (y x : Nat) (hy : y < 3) (hx : x < 3) : (y, x) ∈ allPos := by
  have h : ∀ y < 3, ∀ x < 3, (y, x) ∈ allPos := by decide
  exact h y hy x hx

theorem allPos_pairwise : allPos.Pairwise (fun a c => posIdx a < posIdx c) := by decide

theorem mmMoveGo_cons_update (b : Board) (player y x : Nat) (rest : List (Nat × Nat))
    (st : Int × (Nat × Nat)) (h : cell b y x = none)
    (hlt : st.1 < candScore b player y x) :
    mmMoveGo b player ((y, x) :: rest) st
      = mmMoveGo b player rest (candScore b player y x, (x, y)) := by
  simp only [candScore] at hlt
  simp only [mmMoveGo, if_pos h, if_pos hlt, candScore]

theorem mmMoveGo_cons_keep (b : Board) (player y x : Nat) (rest : List (Nat × Nat))
    (st : Int × (Nat × Nat)) (h : cell b y x = none)
    (hge : ¬ st.1 < candScore b player y x) :
    mmMoveGo b player ((y, x) :: rest) st = mmMoveGo b player rest st := by
  simp only [candScore] at hge
  simp only [mmMoveGo, if_pos h, if_neg hge]

theorem mmMoveGo_cons_occupied (b : Board) (player y x : Nat) (rest : List (Nat × Nat))
    (st : Int × (Nat × Nat)) (h : ¬ cell b y x = none) :
    mmMoveGo b player ((y, x) :: rest) st = mmMoveGo b player rest st := by
  simp only [mmMoveGo, if_neg h]

/-- Complete characterisation of the candidate fold: either no empty
cell beats the incoming best score and the state passes through, or the
result records the first cell attaining the final (strictly improved)
best score, every earlier empty cell scoring strictly below it and
every later one at most it. -/
theorem mmMoveGo_spec (b : Board) (player : Nat) :
    ∀ (L : List (Nat × Nat)) (st : Int × (Nat × Nat)),
      (mmMoveGo b player L st = st ∧
        ∀ yx ∈ L, cell b yx.1 yx.2 = none → candScore b player yx.1 yx.2 ≤ st.1)
      ∨ (∃ L1 y x L2, L = L1 ++ (y, x) :: L2 ∧ cell b y x = none ∧
          mmMoveGo b player L st = (candScore b player y x, (x, y)) ∧
          st.1 < candScore b player y x ∧
          (∀ yx ∈ L1, cell b yx.1 yx.2 = none →
            candScore b player yx.1 yx.2 < candScore b player y x) ∧
          (∀ yx ∈ L2, cell b yx.1 yx.2 = none →
            candScore b player yx.1 yx.2 ≤ candScore b player y x)) := by
  intro L
  induction L with
  | nil =>
    intro st
    exact Or.inl ⟨rfl, by simp⟩
  | cons yx rest ih =>
    intro st
    obtain ⟨y, x⟩ := yx
    by_cases hcn : cell b y x = none
    · by_cases hlt : st.1 < candScore b player y x
      · rw [mmMoveGo_cons_update b player y x rest st hcn hlt]
        rcases ih (candScore b player y x, (x, y)) with ⟨heq, hall⟩ |
          ⟨L1, y', x', L2, hsplit, hcn', heq, hlt', hL1, hL2⟩
        · refine Or.inr ⟨[], y, x, rest, by simp, hcn, by rw [heq], hlt, by simp, ?_⟩
          intro yx hm hc
          exact hall yx hm hc
        · refine Or.inr ⟨(y, x) :: L1, y', x', L2, by simp [hsplit], hcn', heq, ?_, ?_, hL2⟩
          · exact lt_trans hlt hlt'
          · intro yx hm hc
            rcases List.mem_cons.mp hm with rfl | hm'
            · exact hlt'
            · exact hL1 yx hm' hc
      · rw [mmMoveGo_cons_keep b player y x rest st hcn hlt]
        rcases ih st with ⟨heq, hall⟩ | ⟨L1, y', x', L2, hsplit, hcn', heq, hlt', hL1, hL2⟩
        · refine Or.inl ⟨heq, ?_⟩
          intro yx hm hc
          rcases List.mem_cons.mp hm with rfl | hm'
          · exact le_of_not_lt hlt
          · exact hall yx hm' hc
        · refine Or.inr ⟨(y, x) :: L1, y', x', L2, by simp [hsplit], hcn', heq, hlt', ?_, hL2⟩
          intro yx hm hc
          rcases List.mem_cons.mp hm with rfl | hm'
          · exact lt_of_le_of_lt (le_of_not_lt hlt) hlt'
          · exact hL1 yx hm' hc
    · rw [mmMoveGo_cons_occupied b player y x rest st hcn]
      rcases ih st with ⟨heq, hall⟩ | ⟨L1, y', x', L2, hsplit, hcn', heq, hlt', hL1, hL2⟩
      · refine Or.inl ⟨heq, ?_⟩
        intro yx hm hc
        rcases List.mem_cons.mp hm with rfl | hm'
        · exact absurd hc hcn
        · exact hall yx hm' hc
      · refine Or.inr ⟨(y, x) :: L1, y', x', L2, by simp [hsplit], hcn', heq, hlt', ?_, hL2⟩
        intro yx hm hc
        rcases List.mem_cons.mp hm with rfl | hm'
        · exact absurd hc hcn
        · exact hL1 yx hm' hc

theorem split_order (L1 L2 : List (Nat × Nat)) (y x : Nat)
    (hsplit : allPos = L1 ++ (y, x) :: L2) :
    (∀ yx ∈ L1, posIdx yx < posIdx (y, x)) ∧ (∀ yx ∈ L2, posIdx (y, x) < posIdx yx) := by
  have hp := allPos_pairwise
  rw [hsplit, List.pairwise_append] at hp
  have h2 := hp.2.1
  rw [List.pairwise_cons] at h2
  exact ⟨fun yx h => hp.2.2 yx h (y, x) (by simp), fun yx h => h2.1 yx h⟩

theorem split_cases (L1 L2 : List (Nat × Nat)) (y x : Nat)
    (hsplit : allPos = L1 ++ (y, x) :: L2) (y' x' : Nat) (hy' : y' < 3) (hx' : x' < 3) :
    (y', x') ∈ L1 ∨ (y', x') = (y, x) ∨ (y', x') ∈ L2 := by
  have hm := allPos_mem y' x' hy' hx'
  rw [hsplit] at hm
  simpa using hm

/-- `MinimaxInput.move` returns the first empty cell (in scan order)
whose candidate score attains the maximum over all empty cells. -/
theorem mmMove_spec (b : Board) (player : Nat) (hWF : WF b = true)
    (hp : player = 1 ∨ player = 2)
    (hex : ∃ yx ∈ allPos, cell b yx.1 yx.2 = none) :
    cell b (mmMove b player).2 (mmMove b player).1 = none ∧
    (∀ y x, y < 3 → x < 3 → cell b y x = none →
      candScore b player y x ≤ candScore b player (mmMove b player).2 (mmMove b player).1) ∧
    (∀ y x, y < 3 → x < 3 → cell b y x = none →
      3 * y + x < 3 * (mmMove b player).2 + (mmMove b player).1 →
      candScore b player y x < candScore b player (mmMove b player).2 (mmMove b player).1) := by
  have hIa : (2 : Int) ≤ INFINITY := by norm_num [INFINITY]
  rcases mmMoveGo_spec b player allPos (-INFINITY, (0, 0)) with ⟨heq, hall⟩ |
    ⟨L1, y, x, L2, hsplit, hcn, heq, hlt, hL1, hL2⟩
  · exfalso
    obtain ⟨yx0, hm0, hc0⟩ := hex
    have h3 := allPos_lt yx0 hm0
    have hrange := minimax_range 9 (setCell b yx0.1 yx0.2 (some player)) player false
      (WF_setCell b yx0.1 yx0.2 player hWF h3.1 h3.2 hp) hp
    have hsc : minimax 9 (setCell b yx0.1 yx0.2 (some player)) player false ≤ -INFINITY :=
      hall yx0 hm0 hc0
    omega
  · have hmv : mmMove b player = (x, y) := by
      unfold mmMove
      rw [heq]
    rw [hmv]
    have h3 := allPos_lt (y, x) (by rw [hsplit]; simp)
    refine ⟨hcn, ?_, ?_⟩
    · intro y' x' hy' hx' hc'
      rcases split_cases L1 L2 y x hsplit y' x' hy' hx' with hm | hm | hm
      · exact le_of_lt (hL1 (y', x') hm hc')
      · rw [(Prod.mk.injEq _ _ _ _).mp hm |>.1, (Prod.mk.injEq _ _ _ _).mp hm |>.2]
      · exact hL2 (y', x') hm hc'
    · intro y' x' hy' hx' hc' hord
      rcases split_cases L1 L2 y x hsplit y' x' hy' hx' with hm | hm | hm
      · exact hL1 (y', x') hm hc'
      · have h1 := (Prod.mk.injEq _ _ _ _).mp hm
        omega
      · have := (split_order L1 L2 y x hsplit).2 (y', x') hm
        simp only [posIdx] at this
        omega

/-! ### Termination structure: empty cells strictly decrease, and any
fuel above the number of empty cells computes the same score -/

theorem countEmpty_le_nine (b : Board) : countEmpty b ≤ 9 := by
  have h := List.length_filter_le (fun yx => cell b yx.1 yx.2 == none) allPos
  simpa [countEmpty] using h

theorem countEmpty_pos (b : Board) (yx : Nat × Nat) (hm : yx ∈ allPos)
    (hc : cell b yx.1 yx.2 = none) : 1 ≤ countEmpty b := by
  have hmf : yx ∈ allPos.filter (fun yx => cell b yx.1 yx.2 == none) :=
    List.mem_filter.mpr ⟨hm, by simp [hc]⟩
  have h2 := List.length_pos.mpr (List.ne_nil_of_mem hmf)
  simpa [countEmpty] using h2

theorem filter_setCell_aux (b : Board) (y x p' : Nat) (hWF : WF b = true)
    (hy : y < 3) (hx : x < 3) (hc : cell b y x = none) :
    ∀ (L : List (Nat × Nat)), (y, x) ∈ L → L.Nodup →
      (L.filter (fun yx => cell (setCell b y x (some p')) yx.1 yx.2 == none)).length + 1
        = (L.filter (fun yx => cell b yx.1 yx.2 == none)).length := by
  have hsame : cell (setCell b y x (some p')) y x = some p' := by
    obtain ⟨hl, _⟩ := WF_shape b hWF
    exact cell_setCell_same b y x _ (by omega) (by rw [WF_row_len b hWF y hy]; omega)
  intro L
  induction L with
  | nil => intro hm _; cases hm
  | cons z rest ih =>
    intro hm hnd
    by_cases hz : z = (y, x)
    · subst hz
      have hrest : (y, x) ∉ rest := (List.nodup_cons.mp hnd).1
      have hfe : rest.filter (fun yx => cell (setCell b y x (some p')) yx.1 yx.2 == none)
          = rest.filter (fun yx => cell b yx.1 yx.2 == none) := by
        apply List.filter_congr
        intro z hzr
        have hne : ¬(z.1 = y ∧ z.2 = x) := by
          intro hco
          exact hrest (by
            have : z = (y, x) := Prod.ext hco.1 hco.2
            rw [← this]; exact hzr)
        rw [cell_setCell_other b y x z.1 z.2 _ hne]
      simp [List.filter_cons, hsame, hc, hfe]
    · have hm' : (y, x) ∈ rest := by
        rcases List.mem_cons.mp hm with h | h
        · exact absurd h.symm hz
        · exact h
      have hnd' := (List.nodup_cons.mp hnd).2
      have hne : ¬(z.1 = y ∧ z.2 = x) := by
        intro hco
        exact hz (Prod.ext hco.1 hco.2)
      have hcel := cell_setCell_other b y x z.1 z.2 (some p') hne
      have hih := ih hm' hnd'
      by_cases hcz : cell b z.1 z.2 = none
      · simp [List.filter_cons, hcel, hcz] at hih ⊢
        omega
      · simp [List.filter_cons, hcel, hcz] at hih ⊢
        omega

/-- Placing a stone on an empty in-range cell reduces the number of
empty cells by exactly one. -/
theorem countEmpty_setCell (b : Board) (y x p' : Nat) (hWF : WF b = true)
    (hy : y < 3) (hx : x < 3) (hc : cell b y x = none) :
    countEmpty (setCell b y x (some p')) + 1 = countEmpty b := by
  have hnd : allPos.Nodup := by decide
  exact filter_setCell_aux b y x p' hWF hy hx hc allPos (allPos_mem y x hy hx) hnd

theorem mmGo_congr (f g : Board → Int) (b : Board) (player : Nat) (m : Bool) :
    ∀ (L : List (Nat × Nat)),
      (∀ y x, (y, x) ∈ L → cell b y x = none →
        f (setCell b y x (some (mover player m))) = g (setCell b y x (some (mover player m)))) →
      ∀ best, mmGo f b player m L best = mmGo g b player m L best := by
  intro L
  induction L with
  | nil => intro _ best; rfl
  | cons yx rest ih =>
    intro hfg best
    obtain ⟨y, x⟩ := yx
    by_cases hc : cell b y x = none
    · simp only [mmGo, if_pos hc]
      rw [hfg y x (by simp) hc]
      exact ih (fun y' x' hm hc' => hfg y' x' (by simp [hm]) hc') _
    · simp only [mmGo, if_neg hc]
      exact ih (fun y' x' hm hc' => hfg y' x' (by simp [hm]) hc') best

theorem abGo_congr (f g : Board → Int → Int → Int) (b : Board) (player : Nat) (m : Bool) :
    ∀ (L : List (Nat × Nat)),
      (∀ y x alpha beta, (y, x) ∈ L → cell b y x = none →
        f (setCell b y x (some (mover player m))) alpha beta
          = g (setCell b y x (some (mover player m))) alpha beta) →
      ∀ best alpha beta,
        abGo f b player m L best alpha beta = abGo g b player m L best alpha beta := by
  intro L
  induction L with
  | nil => intro _ best alpha beta; rfl
  | cons yx rest ih =>
    intro hfg best alpha beta
    obtain ⟨y, x⟩ := yx
    by_cases hc : cell b y x = none
    · simp only [abGo, if_pos hc]
      rw [hfg y x alpha beta (by simp) hc]
      have hrec := ih (fun y' x' a' b' hm hc' => hfg y' x' a' b' (by simp [hm]) hc')
      simp only [hrec]
    · simp only [abGo, if_neg hc]
      exact ih (fun y' x' a' b' hm hc' => hfg y' x' a' b' (by simp [hm]) hc') best alpha beta

/-- Fuel stability for `__minimax`: any two fuels above the number of
empty cells give the same score. -/
theorem mm_fuel_general :
    ∀ (n : Nat) (b : Board) (player : Nat) (m : Bool) (f1 f2 : Nat),
      WF b = true → (player = 1 ∨ player = 2) → countEmpty b ≤ n →
      countEmpty b < f1 → countEmpty b < f2 →
      minimax f1 b player m = minimax f2 b player m := by
  intro n
  induction n with
  | zero =>
    intro b player m f1 f2 hWF hp hn h1 h2
    obtain ⟨g1, rfl⟩ : ∃ g, f1 = g + 1 := ⟨f1 - 1, by omega⟩
    obtain ⟨g2, rfl⟩ : ∃ g, f2 = g + 1 := ⟨f2 - 1, by omega⟩
    cases hw : get_winner b with
    | some w => simp only [minimax, hw]
    | none =>
      obtain ⟨yx, hm, hc⟩ := get_winner_none_empty b hWF hw
      have := countEmpty_pos b yx hm hc
      omega
  | succ n ih =>
    intro b player m f1 f2 hWF hp hn h1 h2
    obtain ⟨g1, rfl⟩ : ∃ g, f1 = g + 1 := ⟨f1 - 1, by omega⟩
    obtain ⟨g2, rfl⟩ : ∃ g, f2 = g + 1 := ⟨f2 - 1, by omega⟩
    cases hw : get_winner b with
    | some w => simp only [minimax, hw]
    | none =>
      simp only [minimax, hw]
      apply mmGo_congr
      intro y x hm hc
      have h3 := allPos_lt (y, x) hm
      have hmv : mover player m = 1 ∨ mover player m = 2 := by
        unfold mover
        rcases hp with rfl | rfl <;> cases m <;> simp
      have hWF' := WF_setCell b y x (mover player m) hWF h3.1 h3.2 hmv
      have hcnt := countEmpty_setCell b y x (mover player m) hWF h3.1 h3.2 hc
      exact ih (setCell b y x (some (mover player m))) player (!m) g1 g2 hWF' hp
        (by omega) (by omega) (by omega)

/-- Fuel stability for `__alpha_beta`. -/
theorem ab_fuel_general :
    ∀ (n : Nat) (b : Board) (player : Nat) (m : Bool) (alpha beta : Int) (f1 f2 : Nat),
      WF b = true → (player = 1 ∨ player = 2) → countEmpty b ≤ n →
      countEmpty b < f1 → countEmpty b < f2 →
      alphabeta f1 b player m alpha beta = alphabeta f2 b player m alpha beta := by
  intro n
  induction n with
  | zero =>
    intro b player m alpha beta f1 f2 hWF hp hn h1 h2
    obtain ⟨g1, rfl⟩ : ∃ g, f1 = g + 1 := ⟨f1 - 1, by omega⟩
    obtain ⟨g2, rfl⟩ : ∃ g, f2 = g + 1 := ⟨f2 - 1, by omega⟩
    cases hw : get_winner b with
    | some w => simp only [alphabeta, hw]
    | none =>
      obtain ⟨yx, hm, hc⟩ := get_winner_none_empty b hWF hw
      have := countEmpty_pos b yx hm hc
      omega
  | succ n ih =>
    intro b player m alpha beta f1 f2 hWF hp hn h1 h2
    obtain ⟨g1, rfl⟩ : ∃ g, f1 = g + 1 := ⟨f1 - 1, by omega⟩
    obtain ⟨g2, rfl⟩ : ∃ g, f2 = g + 1 := ⟨f2 - 1, by omega⟩
    cases hw : get_winner b with
    | some w => simp only [alphabeta, hw]
    | none =>
      simp only [alphabeta, hw]
      apply abGo_congr
      intro y x alpha' beta' hm hc
      have h3 := allPos_lt (y, x) hm
      have hmv : mover player m = 1 ∨ mover player m = 2 := by
        unfold mover
        rcases hp with rfl | rfl <;> cases m <;> simp
      have hWF' := WF_setCell b y x (mover player m) hWF h3.1 h3.2 hmv
      have hcnt := countEmpty_setCell b y x (mover player m) hWF h3.1 h3.2 hc
      exact ih (setCell b y x (some (mover player m))) player (!m) alpha' beta' g1 g2 hWF' hp
        (by omega) (by omega) (by omega)

/-! ### Moves on a full board, and the illegal-move branch of `play` -/

/-- With no empty cell the candidate loop never updates its state. -/
theorem mmMoveGo_all_occupied (b : Board) (player : Nat) :
    ∀ (L : List (Nat × Nat)), (∀ yx ∈ L, cell b yx.1 yx.2 ≠ none) →
      ∀ st, mmMoveGo b player L st = st := by
  intro L
  induction L with
  | nil => intro _ st; rfl
  | cons yx rest ih =>
    intro hall st
    obtain ⟨y, x⟩ := yx
    rw [mmMoveGo_cons_occupied b player y x rest st (hall (y, x) (by simp))]
    exact ih (fun yx h => hall yx (by simp [h])) st

/-- On a full board both `move` implementations fall through their loop
and return the initial `best_move = (0, 0)`. -/
theorem move_full (b : Board) (player : Nat)
    (hfull : ∀ y x, y < 3 → x < 3 → cell b y x ≠ none) :
    mmMove b player = (0, 0) ∧ abMove b player = (0, 0) := by
  have hall : ∀ yx ∈ allPos, cell b yx.1 yx.2 ≠ none := by
    intro yx hm
    have h3 := allPos_lt yx hm
    exact hfull yx.1 yx.2 h3.1 h3.2
  constructor
  · unfold mmMove
    rw [mmMoveGo_all_occupied b player allPos hall]
  · rw [abMove_eq_mmMove]
    unfold mmMove
    rw [mmMoveGo_all_occupied b player allPos hall]

/-- The illegal-move branch of the game loop: an occupied target makes
`play` raise `Exception('Invalid move')` with the board untouched. -/
theorem playLoop_invalid (fuel : Nat) (p1 p2 : Board → Nat → Nat × Nat) (b : Board)
    (current : Nat) (hw : get_winner b = none)
    (hocc : cell b ((if current = 1 then p1 else p2) b current).2
      ((if current = 1 then p1 else p2) b current).1 ≠ none) :
    playLoop (fuel + 1) p1 p2 b current = (b, PlayResult.invalidMove) := by
  simp only [playLoop, hw, if_pos hocc]

/-! ### Perspective duality: player 2 scores are the negated player 1
scores with the flag flipped (the movers placed coincide) -/

theorem mmGo_dual_max (f g : Board → Int) (b : Board) :
    ∀ (L : List (Nat × Nat)),
      (∀ y x, (y, x) ∈ L → cell b y x = none →
        f (setCell b y x (some 2)) = - g (setCell b y x (some 2))) →
      ∀ (A A' : Int), A' = -A → mmGo f b 2 true L A = - mmGo g b 1 false L A' := by
  intro L
  induction L with
  | nil => intro _ A A' hA; simp only [mmGo]; omega
  | cons yx rest ih =>
    intro hfg A A' hA
    obtain ⟨y, x⟩ := yx
    by_cases hc : cell b y x = none
    · rw [mmGo_cons_max f b 2 y x rest A hc, mmGo_cons_min g b 1 y x rest A' hc]
      have h12 : (1 % 2 + 1 : Nat) = 2 := rfl
      rw [h12]
      have hv := hfg y x (by simp) hc
      exact ih (fun y' x' hm hc' => hfg y' x' (by simp [hm]) hc') _ _ (by omega)
    · rw [mmGo_cons_skip f b 2 true y x rest A hc, mmGo_cons_skip g b 1 false y x rest A' hc]
      exact ih (fun y' x' hm hc' => hfg y' x' (by simp [hm]) hc') A A' hA

theorem mmGo_dual_min (f g : Board → Int) (b : Board) :
    ∀ (L : List (Nat × Nat)),
      (∀ y x, (y, x) ∈ L → cell b y x = none →
        f (setCell b y x (some 1)) = - g (setCell b y x (some 1))) →
      ∀ (A A' : Int), A' = -A → mmGo f b 2 false L A = - mmGo g b 1 true L A' := by
  intro L
  induction L with
  | nil => intro _ A A' hA; simp only [mmGo]; omega
  | cons yx rest ih =>
    intro hfg A A' hA
    obtain ⟨y, x⟩ := yx
    by_cases hc : cell b y x = none
    · rw [mmGo_cons_min f b 2 y x rest A hc, mmGo_cons_max g b 1 y x rest A' hc]
      have h22 : (2 % 2 + 1 : Nat) = 1 := rfl
      rw [h22]
      have hv := hfg y x (by simp) hc
      exact ih (fun y' x' hm hc' => hfg y' x' (by simp [hm]) hc') _ _ (by omega)
    · rw [mmGo_cons_skip f b 2 false y x rest A hc, mmGo_cons_skip g b 1 true y x rest A' hc]
      exact ih (fun y' x' hm hc' => hfg y' x' (by simp [hm]) hc') A A' hA

/-- Duality of the two perspectives on a well-formed board. -/
theorem mm_duality :
    ∀ (fuel : Nat) (b : Board) (m : Bool), WF b = true →
      minimax fuel b 2 m = - minimax fuel b 1 (!m) := by
  intro fuel
  induction fuel with
  | zero => intro b m _; simp [minimax]
  | succ fuel ih =>
    intro b m hWF
    cases hw : get_winner b with
    | some w =>
      rcases get_winner_some_range b w hWF hw with rfl | rfl | rfl <;>
        simp [minimax, hw, terminalScore]
    | none =>
      cases m with
      | true =>
        simp only [minimax, hw, Bool.not_true, if_true, Bool.false_eq_true, if_false]
        apply mmGo_dual_max
        · intro y x hm hc
          have h3 := allPos_lt (y, x) hm
          exact ih (setCell b y x (some 2)) false
            (WF_setCell b y x 2 hWF h3.1 h3.2 (Or.inr rfl))
        · norm_num [INFINITY]
      | false =>
        simp only [minimax, hw, Bool.not_false, if_true, Bool.false_eq_true, if_false]
        apply mmGo_dual_min
        · intro y x hm hc
          have h3 := allPos_lt (y, x) hm
          exact ih (setCell b y x (some 1)) true
            (WF_setCell b y x 1 hWF h3.1 h3.2 (Or.inl rfl))
        · norm_num [INFINITY]

theorem pw4_eq : ∀ (f e : Nat), e < 2 ^ f → pw4 f e = 4 ^ e := by
  intro f
  induction f with
  | zero =>
    intro e he
    interval_cases e
    rfl
  | succ f ih =>
    intro e he
    by_cases h0 : e = 0
    · subst h0
      simp [pw4]
    · have h2 : e / 2 < 2 ^ f := by
        have hp : (2:Nat) ^ (f + 1) = 2 * 2 ^ f := by rw [pow_succ]; ring
        omega
      have hh := ih (e / 2) h2
      rw [pw4]
      simp only [show (e == 0) = false by simpa using h0, Bool.false_eq_true, if_false]
      rw [hh]
      by_cases hpar : e % 2 = 0
      · simp only [show (e % 2 == 0) = true by simpa using hpar, if_true]
        rw [← pow_add]
        congr 1
        omega
      · simp only [show (e % 2 == 0) = false by simpa using hpar, Bool.false_eq_true, if_false]
        rw [show (4:Nat) ^ (e / 2) * 4 ^ (e / 2) * 4 = 4 ^ (e / 2) * 4 ^ (e / 2) * 4 ^ 1 from rfl,
          ← pow_add, ← pow_add]
        congr 1
        omega

theorem scanChunk_spec : ∀ (n c t : Nat), scanChunk n c t = true →
    ∀ i, i < n → checkOne (c + i) (t / 4 ^ i) = true := by
  intro n
  induction n with
  | zero =>
    intro c t _ i hi
    exact absurd hi (Nat.not_lt_zero i)
  | succ n ih =>
    intro c t h i hi
    rw [scanChunk, Bool.and_eq_true] at h
    cases i with
    | zero => simpa using h.1
    | succ j =>
      have hj := ih (c + 1) (t / 4) h.2 j (by omega)
      have e1 : c + 1 + j = c + (j + 1) := by omega
      have e2 : t / 4 / 4 ^ j = t / 4 ^ (j + 1) := by
        rw [Nat.div_div_eq_div_mul, show (4:Nat) * 4 ^ j = 4 ^ (j + 1) from (pow_succ' 4 j).symm]
      rw [e1, e2] at hj
      exact hj

theorem chunk_ok_0 : chunkAt 0 = true := by decide

theorem chunk_ok_1 : chunkAt 1 = true := by decide

theorem chunk_ok_2 : chunkAt 2 = true := by decide

theorem chunk_ok_3 : chunkAt 3 = true := by decide

theorem chunk_ok_4 : chunkAt 4 = true := by decide

theorem chunk_ok_5 : chunkAt 5 = true := by decide

theorem chunk_ok_6 : chunkAt 6 = true := by decide

theorem chunk_ok_7 : chunkAt 7 = true := by decide

theorem chunk_ok_8 : chunkAt 8 = true := by decide

theorem chunk_ok_9 : chunkAt 9 = true := by decide

theorem chunk_ok_10 : chunkAt 10 = true := by decide

theorem chunk_ok_11 : chunkAt 11 = true := by decide

theorem chunk_ok_12 : chunkAt 12 = true := by decide

theorem chunk_ok_13 : chunkAt 13 = true := by decide

theorem chunk_ok_14 : chunkAt 14 = true := by decide

theorem chunk_ok_15 : chunkAt 15 = true := by decide

theorem chunk_ok_16 : chunkAt 16 = true := by decide

theorem chunk_ok_17 : chunkAt 17 = true := by decide

theorem chunk_ok_18 : chunkAt 18 = true := by decide

theorem chunk_ok_19 : chunkAt 19 = true := by decide

theorem chunk_ok_20 : chunkAt 20 = true := by decide

theorem chunk_ok_21 : chunkAt 21 = true := by decide

theorem chunk_ok_22 : chunkAt 22 = true := by decide

theorem chunk_ok_23 : chunkAt 23 = true := by decide

theorem chunk_ok_24 : chunkAt 24 = true := by decide

theorem chunk_ok_25 : chunkAt 25 = true := by decide

theorem chunk_ok_26 : chunkAt 26 = true := by decide

theorem chunk_ok_27 : chunkAt 27 = true := by decide

theorem chunk_ok_28 : chunkAt 28 = true := by decide

theorem chunk_ok_29 : chunkAt 29 = true := by decide

theorem chunk_ok_30 : chunkAt 30 = true := by decide

theorem chunk_ok_31 : chunkAt 31 = true := by decide

theorem chunk_ok_32 : chunkAt 32 = true := by decide

theorem chunk_ok_33 : chunkAt 33 = true := by decide

theorem chunk_ok_34 : chunkAt 34 = true := by decide

theorem chunk_ok_35 : chunkAt 35 = true := by decide

theorem chunk_ok_36 : chunkAt 36 = true := by decide

theorem chunk_ok_37 : chunkAt 37 = true := by decide

theorem chunk_ok_38 : chunkAt 38 = true := by decide

theorem chunk_ok_39 : chunkAt 39 = true := by decide

theorem chunk_ok_40 : chunkAt 40 = true := by decide

theorem chunk_ok_41 : chunkAt 41 = true := by decide

theorem chunk_ok_42 : chunkAt 42 = true := by decide

theorem chunk_ok_43 : chunkAt 43 = true := by decide

theorem chunk_ok_44 : chunkAt 44 = true := by decide

theorem chunk_ok_45 : chunkAt 45 = true := by decide

theorem chunk_ok_46 : chunkAt 46 = true := by decide

theorem chunk_ok_47 : chunkAt 47 = true := by decide

theorem chunk_ok_48 : chunkAt 48 = true := by decide

theorem chunk_ok_49 : chunkAt 49 = true := by decide

theorem chunk_ok_50 : chunkAt 50 = true := by decide

theorem chunk_ok_51 : chunkAt 51 = true := by decide

theorem chunk_ok_52 : chunkAt 52 = true := by decide

theorem chunk_ok_53 : chunkAt 53 = true := by decide

theorem chunk_ok_54 : chunkAt 54 = true := by decide

theorem chunk_ok_55 : chunkAt 55 = true := by decide

theorem chunk_ok_56 : chunkAt 56 = true := by decide

theorem chunk_ok_57 : chunkAt 57 = true := by decide

theorem chunk_ok_58 : chunkAt 58 = true := by decide

theorem chunk_ok_59 : chunkAt 59 = true := by decide

theorem chunk_ok_60 : chunkAt 60 = true := by decide

theorem chunk_ok_61 : chunkAt 61 = true := by decide

theorem chunk_ok_62 : chunkAt 62 = true := by decide

theorem chunk_ok_63 : chunkAt 63 = true := by decide

theorem chunk_ok_64 : chunkAt 64 = true := by decide

theorem chunk_ok_65 : chunkAt 65 = true := by decide

theorem chunk_ok_66 : chunkAt 66 = true := by decide

theorem chunk_ok_67 : chunkAt 67 = true := by decide

theorem chunk_ok_68 : chunkAt 68 = true := by decide

theorem chunk_ok_69 : chunkAt 69 = true := by decide

theorem chunk_ok_70 : chunkAt 70 = true := by decide

theorem chunk_ok_71 : chunkAt 71 = true := by decide

theorem chunk_ok_72 : chunkAt 72 = true := by decide

theorem chunk_ok_73 : chunkAt 73 = true := by decide

theorem chunk_ok_74 : chunkAt 74 = true := by decide

theorem chunk_ok_75 : chunkAt 75 = true := by decide

theorem chunk_ok_76 : chunkAt 76 = true := by decide

theorem chunk_ok_77 : chunkAt 77 = true := by decide

theorem chunk_ok_78 : chunkAt 78 = true := by decide

theorem chunk_ok_79 : chunkAt 79 = true := by decide

theorem chunk_ok_80 : chunkAt 80 = true := by decide

theorem chunk_ok_81 : chunkAt 81 = true := by decide

theorem chunk_ok_82 : chunkAt 82 = true := by decide

theorem chunk_ok_83 : chunkAt 83 = true := by decide

theorem chunk_ok_84 : chunkAt 84 = true := by decide

theorem chunk_ok_85 : chunkAt 85 = true := by decide

theorem chunk_ok_86 : chunkAt 86 = true := by decide

theorem chunk_ok_87 : chunkAt 87 = true := by decide

theorem chunk_ok_88 : chunkAt 88 = true := by decide

theorem chunk_ok_89 : chunkAt 89 = true := by decide

theorem chunk_ok_90 : chunkAt 90 = true := by decide

theorem chunk_ok_91 : chunkAt 91 = true := by decide

theorem chunk_ok_92 : chunkAt 92 = true := by decide

theorem chunk_ok_93 : chunkAt 93 = true := by decide

theorem chunk_ok_94 : chunkAt 94 = true := by decide

theorem chunk_ok_95 : chunkAt 95 = true := by decide

theorem chunk_ok_96 : chunkAt 96 = true := by decide

theorem chunk_ok_97 : chunkAt 97 = true := by decide

theorem chunk_ok_98 : chunkAt 98 = true := by decide

theorem chunk_ok_99 : chunkAt 99 = true := by decide

theorem chunk_ok_100 : chunkAt 100 = true := by decide

theorem chunk_ok_101 : chunkAt 101 = true := by decide

theorem chunk_ok_102 : chunkAt 102 = true := by decide

theorem chunk_ok_103 : chunkAt 103 = true := by decide

theorem chunk_ok_104 : chunkAt 104 = true := by decide

theorem chunk_ok_105 : chunkAt 105 = true := by decide

theorem chunk_ok_106 : chunkAt 106 = true := by decide

theorem chunk_ok_107 : chunkAt 107 = true := by decide

theorem chunk_ok_108 : chunkAt 108 = true := by decide

theorem chunk_ok_109 : chunkAt 109 = true := by decide

theorem chunk_ok_110 : chunkAt 110 = true := by decide

theorem chunk_ok_111 : chunkAt 111 = true := by decide

theorem chunk_ok_112 : chunkAt 112 = true := by decide

theorem chunk_ok_113 : chunkAt 113 = true := by decide

theorem chunk_ok_114 : chunkAt 114 = true := by decide

theorem chunk_ok_115 : chunkAt 115 = true := by decide

theorem chunk_ok_116 : chunkAt 116 = true := by decide

theorem chunk_ok_117 : chunkAt 117 = true := by decide

theorem chunk_ok_118 : chunkAt 118 = true := by decide

theorem chunk_ok_119 : chunkAt 119 = true := by decide

theorem chunk_ok_120 : chunkAt 120 = true := by decide

theorem chunk_ok_121 : chunkAt 121 = true := by decide

theorem chunk_ok_122 : chunkAt 122 = true := by decide

theorem chunk_ok_123 : chunkAt 123 = true := by decide

theorem chunk_ok_124 : chunkAt 124 = true := by decide

theorem chunk_ok_125 : chunkAt 125 = true := by decide

theorem chunk_ok_126 : chunkAt 126 = true := by decide

theorem chunk_ok_127 : chunkAt 127 = true := by decide

theorem chunk_ok_128 : chunkAt 128 = true := by decide

theorem chunk_ok_129 : chunkAt 129 = true := by decide

theorem chunk_ok_130 : chunkAt 130 = true := by decide

theorem chunk_ok_131 : chunkAt 131 = true := by decide

theorem chunk_ok_132 : chunkAt 132 = true := by decide

theorem chunk_ok_133 : chunkAt 133 = true := by decide

theorem chunk_ok_134 : chunkAt 134 = true := by decide

theorem chunk_ok_135 : chunkAt 135 = true := by decide

theorem chunk_ok_136 : chunkAt 136 = true := by decide

theorem chunk_ok_137 : chunkAt 137 = true := by decide

theorem chunk_ok_138 : chunkAt 138 = true := by decide

theorem chunk_ok_139 : chunkAt 139 = true := by decide

theorem chunk_ok_140 : chunkAt 140 = true := by decide

theorem chunk_ok_141 : chunkAt 141 = true := by decide

theorem chunk_ok_142 : chunkAt 142 = true := by decide

theorem chunk_ok_143 : chunkAt 143 = true := by decide

theorem chunk_ok_144 : chunkAt 144 = true := by decide

theorem chunk_ok_145 : chunkAt 145 = true := by decide

theorem chunk_ok_146 : chunkAt 146 = true := by decide

theorem chunk_ok_147 : chunkAt 147 = true := by decide

theorem chunk_ok_148 : chunkAt 148 = true := by decide

theorem chunk_ok_149 : chunkAt 149 = true := by decide

theorem chunk_ok_150 : chunkAt 150 = true := by decide

theorem chunk_ok_151 : chunkAt 151 = true := by decide

theorem chunk_ok_152 : chunkAt 152 = true := by decide

theorem chunk_ok_153 : chunkAt 153 = true := by decide

theorem chunk_ok_154 : chunkAt 154 = true := by decide

theorem chunk_ok_155 : chunkAt 155 = true := by decide

theorem chunk_ok_156 : chunkAt 156 = true := by decide

theorem chunk_ok_157 : chunkAt 157 = true := by decide

theorem chunk_ok_158 : chunkAt 158 = true := by decide

theorem chunk_ok_159 : chunkAt 159 = true := by decide

theorem chunk_ok_160 : chunkAt 160 = true := by decide

theorem chunk_ok_161 : chunkAt 161 = true := by decide

theorem chunk_ok_162 : chunkAt 162 = true := by decide

theorem chunk_ok_163 : chunkAt 163 = true := by decide

theorem chunk_ok_164 : chunkAt 164 = true := by decide

theorem chunk_ok_165 : chunkAt 165 = true := by decide

theorem chunk_ok_166 : chunkAt 166 = true := by decide

theorem chunk_ok_167 : chunkAt 167 = true := by decide

theorem chunk_ok_168 : chunkAt 168 = true := by decide

theorem chunk_ok_169 : chunkAt 169 = true := by decide

theorem chunk_ok_170 : chunkAt 170 = true := by decide

theorem chunk_ok_171 : chunkAt 171 = true := by decide

theorem chunk_ok_172 : chunkAt 172 = true := by decide

theorem chunk_ok_173 : chunkAt 173 = true := by decide

theorem chunk_ok_174 : chunkAt 174 = true := by decide

theorem chunk_ok_175 : chunkAt 175 = true := by decide

theorem chunk_ok_176 : chunkAt 176 = true := by decide

theorem chunk_ok_177 : chunkAt 177 = true := by decide

theorem chunk_ok_178 : chunkAt 178 = true := by decide

theorem chunk_ok_179 : chunkAt 179 = true := by decide

theorem chunk_ok_180 : chunkAt 180 = true := by decide

theorem chunk_ok_181 : chunkAt 181 = true := by decide

theorem chunk_ok_182 : chunkAt 182 = true := by decide

theorem chunk_ok_183 : chunkAt 183 = true := by decide

theorem chunk_ok_184 : chunkAt 184 = true := by decide

theorem chunk_ok_185 : chunkAt 185 = true := by decide

theorem chunk_ok_186 : chunkAt 186 = true := by decide

theorem chunk_ok_187 : chunkAt 187 = true := by decide

theorem chunk_ok_188 : chunkAt 188 = true := by decide

theorem chunk_ok_189 : chunkAt 189 = true := by decide

theorem chunk_ok_190 : chunkAt 190 = true := by decide

theorem chunk_ok_191 : chunkAt 191 = true := by decide

theorem chunk_ok_192 : chunkAt 192 = true := by decide

theorem chunk_ok_193 : chunkAt 193 = true := by decide

theorem chunk_ok_194 : chunkAt 194 = true := by decide

theorem chunk_ok_195 : chunkAt 195 = true := by decide

theorem chunk_ok_196 : chunkAt 196 = true := by decide

theorem chunk_ok_197 : chunkAt 197 = true := by decide

theorem chunk_ok_198 : chunkAt 198 = true := by decide

theorem chunk_ok_199 : chunkAt 199 = true := by decide

theorem chunk_ok_200 : chunkAt 200 = true := by decide

theorem chunk_ok_201 : chunkAt 201 = true := by decide

theorem chunk_ok_202 : chunkAt 202 = true := by decide

theorem chunk_ok_203 : chunkAt 203 = true := by decide

theorem chunk_ok_204 : chunkAt 204 = true := by decide

theorem chunk_ok_205 : chunkAt 205 = true := by decide

theorem chunk_ok_206 : chunkAt 206 = true := by decide

theorem chunk_ok_207 : chunkAt 207 = true := by decide

theorem chunk_ok_208 : chunkAt 208 = true := by decide

theorem chunk_ok_209 : chunkAt 209 = true := by decide

theorem chunk_ok_210 : chunkAt 210 = true := by decide

theorem chunk_ok_211 : chunkAt 211 = true := by decide

theorem chunk_ok_212 : chunkAt 212 = true := by decide

theorem chunk_ok_213 : chunkAt 213 = true := by decide

theorem chunk_ok_214 : chunkAt 214 = true := by decide

theorem chunk_ok_215 : chunkAt 215 = true := by decide

theorem chunk_ok_216 : chunkAt 216 = true := by decide

theorem chunk_ok_217 : chunkAt 217 = true := by decide

theorem chunk_ok_218 : chunkAt 218 = true := by decide

theorem chunk_ok_219 : chunkAt 219 = true := by decide

theorem chunk_ok_220 : chunkAt 220 = true := by decide

theorem chunk_ok_221 : chunkAt 221 = true := by decide

theorem chunk_ok_222 : chunkAt 222 = true := by decide

theorem chunk_ok_223 : chunkAt 223 = true := by decide

theorem chunk_ok_224 : chunkAt 224 = true := by decide

theorem chunk_ok_225 : chunkAt 225 = true := by decide

theorem chunk_ok_226 : chunkAt 226 = true := by decide

theorem chunk_ok_227 : chunkAt 227 = true := by decide

theorem chunk_ok_228 : chunkAt 228 = true := by decide

theorem chunk_ok_229 : chunkAt 229 = true := by decide

theorem chunk_ok_230 : chunkAt 230 = true := by decide

theorem chunk_ok_231 : chunkAt 231 = true := by decide

theorem chunk_ok_232 : chunkAt 232 = true := by decide

theorem chunk_ok_233 : chunkAt 233 = true := by decide

theorem chunk_ok_234 : chunkAt 234 = true := by decide

theorem chunk_ok_235 : chunkAt 235 = true := by decide

theorem chunk_ok_236 : chunkAt 236 = true := by decide

theorem chunk_ok_237 : chunkAt 237 = true := by decide

theorem chunk_ok_238 : chunkAt 238 = true := by decide

theorem chunk_ok_239 : chunkAt 239 = true := by decide

theorem chunk_ok_240 : chunkAt 240 = true := by decide

theorem chunk_ok_241 : chunkAt 241 = true := by decide

theorem chunk_ok_242 : chunkAt 242 = true := by decide

theorem chunk_ok_243 : chunkAt 243 = true := by decide

theorem chunk_ok_244 : chunkAt 244 = true := by decide

theorem chunk_ok_245 : chunkAt 245 = true := by decide

theorem chunk_ok_246 : chunkAt 246 = true := by decide

theorem chunk_ok_247 : chunkAt 247 = true := by decide

theorem chunk_ok_248 : chunkAt 248 = true := by decide

theorem chunk_ok_249 : chunkAt 249 = true := by decide

theorem chunk_ok_250 : chunkAt 250 = true := by decide

theorem chunk_ok_251 : chunkAt 251 = true := by decide

theorem chunk_ok_252 : chunkAt 252 = true := by decide

theorem chunk_ok_253 : chunkAt 253 = true := by decide

theorem chunk_ok_254 : chunkAt 254 = true := by decide

theorem chunk_ok_255 : chunkAt 255 = true := by decide

/-- Every chunk of 128 consecutive codes passes (the 256 chunks cover
`0 ≤ c < 32768 ⊇ 0 ≤ c < 3 ^ 9`; each is checked by one kernel
evaluation of its slice of the table). -/
theorem chunkAll_ok (i : Nat) (hi : i < 256) : chunkAt i = true := by
  interval_cases i
  · exact chunk_ok_0
  · exact chunk_ok_1
  · exact chunk_ok_2
  · exact chunk_ok_3
  · exact chunk_ok_4
  · exact chunk_ok_5
  · exact chunk_ok_6
  · exact chunk_ok_7
  · exact chunk_ok_8
  · exact chunk_ok_9
  · exact chunk_ok_10
  · exact chunk_ok_11
  · exact chunk_ok_12
  · exact chunk_ok_13
  · exact chunk_ok_14
  · exact chunk_ok_15
  · exact chunk_ok_16
  · exact chunk_ok_17
  · exact chunk_ok_18
  · exact chunk_ok_19
  · exact chunk_ok_20
  · exact chunk_ok_21
  · exact chunk_ok_22
  · exact chunk_ok_23
  · exact chunk_ok_24
  · exact chunk_ok_25
  · exact chunk_ok_26
  · exact chunk_ok_27
  · exact chunk_ok_28
  · exact chunk_ok_29
  · exact chunk_ok_30
  · exact chunk_ok_31
  · exact chunk_ok_32
  · exact chunk_ok_33
  · exact chunk_ok_34
  · exact chunk_ok_35
  · exact chunk_ok_36
  · exact chunk_ok_37
  · exact chunk_ok_38
  · exact chunk_ok_39
  · exact chunk_ok_40
  · exact chunk_ok_41
  · exact chunk_ok_42
  · exact chunk_ok_43
  · exact chunk_ok_44
  · exact chunk_ok_45
  · exact chunk_ok_46
  · exact chunk_ok_47
  · exact chunk_ok_48
  · exact chunk_ok_49
  · exact chunk_ok_50
  · exact chunk_ok_51
  · exact chunk_ok_52
  · exact chunk_ok_53
  · exact chunk_ok_54
  · exact chunk_ok_55
  · exact chunk_ok_56
  · exact chunk_ok_57
  · exact chunk_ok_58
  · exact chunk_ok_59
  · exact chunk_ok_60
  · exact chunk_ok_61
  · exact chunk_ok_62
  · exact chunk_ok_63
  · exact chunk_ok_64
  · exact chunk_ok_65
  · exact chunk_ok_66
  · exact chunk_ok_67
  · exact chunk_ok_68
  · exact chunk_ok_69
  · exact chunk_ok_70
  · exact chunk_ok_71
  · exact chunk_ok_72
  · exact chunk_ok_73
  · exact chunk_ok_74
  · exact chunk_ok_75
  · exact chunk_ok_76
  · exact chunk_ok_77
  · exact chunk_ok_78
  · exact chunk_ok_79
  · exact chunk_ok_80
  · exact chunk_ok_81
  · exact chunk_ok_82
  · exact chunk_ok_83
  · exact chunk_ok_84
  · exact chunk_ok_85
  · exact chunk_ok_86
  · exact chunk_ok_87
  · exact chunk_ok_88
  · exact chunk_ok_89
  · exact chunk_ok_90
  · exact chunk_ok_91
  · exact chunk_ok_92
  · exact chunk_ok_93
  · exact chunk_ok_94
  · exact chunk_ok_95
  · exact chunk_ok_96
  · exact chunk_ok_97
  · exact chunk_ok_98
  · exact chunk_ok_99
  · exact chunk_ok_100
  · exact chunk_ok_101
  · exact chunk_ok_102
  · exact chunk_ok_103
  · exact chunk_ok_104
  · exact chunk_ok_105
  · exact chunk_ok_106
  · exact chunk_ok_107
  · exact chunk_ok_108
  · exact chunk_ok_109
  · exact chunk_ok_110
  · exact chunk_ok_111
  · exact chunk_ok_112
  · exact chunk_ok_113
  · exact chunk_ok_114
  · exact chunk_ok_115
  · exact chunk_ok_116
  · exact chunk_ok_117
  · exact chunk_ok_118
  · exact chunk_ok_119
  · exact chunk_ok_120
  · exact chunk_ok_121
  · exact chunk_ok_122
  · exact chunk_ok_123
  · exact chunk_ok_124
  · exact chunk_ok_125
  · exact chunk_ok_126
  · exact chunk_ok_127
  · exact chunk_ok_128
  · exact chunk_ok_129
  · exact chunk_ok_130
  · exact chunk_ok_131
  · exact chunk_ok_132
  · exact chunk_ok_133
  · exact chunk_ok_134
  · exact chunk_ok_135
  · exact chunk_ok_136
  · exact chunk_ok_137
  · exact chunk_ok_138
  · exact chunk_ok_139
  · exact chunk_ok_140
  · exact chunk_ok_141
  · exact chunk_ok_142
  · exact chunk_ok_143
  · exact chunk_ok_144
  · exact chunk_ok_145
  · exact chunk_ok_146
  · exact chunk_ok_147
  · exact chunk_ok_148
  · exact chunk_ok_149
  · exact chunk_ok_150
  · exact chunk_ok_151
  · exact chunk_ok_152
  · exact chunk_ok_153
  · exact chunk_ok_154
  · exact chunk_ok_155
  · exact chunk_ok_156
  · exact chunk_ok_157
  · exact chunk_ok_158
  · exact chunk_ok_159
  · exact chunk_ok_160
  · exact chunk_ok_161
  · exact chunk_ok_162
  · exact chunk_ok_163
  · exact chunk_ok_164
  · exact chunk_ok_165
  · exact chunk_ok_166
  · exact chunk_ok_167
  · exact chunk_ok_168
  · exact chunk_ok_169
  · exact chunk_ok_170
  · exact chunk_ok_171
  · exact chunk_ok_172
  · exact chunk_ok_173
  · exact chunk_ok_174
  · exact chunk_ok_175
  · exact chunk_ok_176
  · exact chunk_ok_177
  · exact chunk_ok_178
  · exact chunk_ok_179
  · exact chunk_ok_180
  · exact chunk_ok_181
  · exact chunk_ok_182
  · exact chunk_ok_183
  · exact chunk_ok_184
  · exact chunk_ok_185
  · exact chunk_ok_186
  · exact chunk_ok_187
  · exact chunk_ok_188
  · exact chunk_ok_189
  · exact chunk_ok_190
  · exact chunk_ok_191
  · exact chunk_ok_192
  · exact chunk_ok_193
  · exact chunk_ok_194
  · exact chunk_ok_195
  · exact chunk_ok_196
  · exact chunk_ok_197
  · exact chunk_ok_198
  · exact chunk_ok_199
  · exact chunk_ok_200
  · exact chunk_ok_201
  · exact chunk_ok_202
  · exact chunk_ok_203
  · exact chunk_ok_204
  · exact chunk_ok_205
  · exact chunk_ok_206
  · exact chunk_ok_207
  · exact chunk_ok_208
  · exact chunk_ok_209
  · exact chunk_ok_210
  · exact chunk_ok_211
  · exact chunk_ok_212
  · exact chunk_ok_213
  · exact chunk_ok_214
  · exact chunk_ok_215
  · exact chunk_ok_216
  · exact chunk_ok_217
  · exact chunk_ok_218
  · exact chunk_ok_219
  · exact chunk_ok_220
  · exact chunk_ok_221
  · exact chunk_ok_222
  · exact chunk_ok_223
  · exact chunk_ok_224
  · exact chunk_ok_225
  · exact chunk_ok_226
  · exact chunk_ok_227
  · exact chunk_ok_228
  · exact chunk_ok_229
  · exact chunk_ok_230
  · exact chunk_ok_231
  · exact chunk_ok_232
  · exact chunk_ok_233
  · exact chunk_ok_234
  · exact chunk_ok_235
  · exact chunk_ok_236
  · exact chunk_ok_237
  · exact chunk_ok_238
  · exact chunk_ok_239
  · exact chunk_ok_240
  · exact chunk_ok_241
  · exact chunk_ok_242
  · exact chunk_ok_243
  · exact chunk_ok_244
  · exact chunk_ok_245
  · exact chunk_ok_246
  · exact chunk_ok_247
  · exact chunk_ok_248
  · exact chunk_ok_249
  · exact chunk_ok_250
  · exact chunk_ok_251
  · exact chunk_ok_252
  · exact chunk_ok_253
  · exact chunk_ok_254
  · exact chunk_ok_255

/-- Every code below `3 ^ 9` passes `checkOne` against its table slice. -/
theorem checkOne_all (c : Nat) (hc : c < 19683) : checkOne c (tableT / 4 ^ c) = true := by
  have h2 : chunkAt (c / 128) = true := chunkAll_ok (c / 128) (by omega)
  rw [chunkAt] at h2
  have h3 : pw4 15 (128 * (c / 128)) = 4 ^ (128 * (c / 128)) := by
    refine pw4_eq 15 (128 * (c / 128)) ?_
    have h32768 : (2:Nat) ^ 15 = 32768 := by norm_num
    omega
  rw [h3] at h2
  have h4 := scanChunk_spec 128 (128 * (c / 128)) _ h2 (c % 128) (by omega)
  have e1 : 128 * (c / 128) + c % 128 = c := by omega
  have e2 : tableT / 4 ^ (128 * (c / 128)) / 4 ^ (c % 128) = tableT / 4 ^ c := by
    rw [Nat.div_div_eq_div_mul, ← pow_add, e1]
  rw [e1, e2] at h4
  exact h4

theorem dig_lt (c k : Nat) : dig c k < 3 := Nat.mod_lt _ (by norm_num)

theorem zerosN_dig (c : Nat) : zerosN c =
    z01 (dig c 0) + z01 (dig c 1) + z01 (dig c 2) + z01 (dig c 3) + z01 (dig c 4) +
      z01 (dig c 5) + z01 (dig c 6) + z01 (dig c 7) + z01 (dig c 8) := by
  simp only [zerosN, dig]
  norm_num

theorem zerosN_le (c : Nat) : zerosN c ≤ 9 := by
  have hz : ∀ d : Nat, z01 d ≤ 1 := by
    intro d
    unfold z01
    cases d == 0 <;> simp
  unfold zerosN
  have h0 := hz (c % 3); have h1 := hz (c / 3 % 3); have h2 := hz (c / 9 % 3)
  have h3 := hz (c / 27 % 3); have h4 := hz (c / 81 % 3); have h5 := hz (c / 243 % 3)
  have h6 := hz (c / 729 % 3); have h7 := hz (c / 2187 % 3); have h8 := hz (c / 6561 % 3)
  omega

theorem z01_zero : z01 0 = 1 := rfl

theorem z01_of_ne (d : Nat) (h : d ≠ 0) : z01 d = 0 := by
  unfold z01
  rw [show (d == 0) = false from by simpa using h, cond_false]

theorem validCell_dcell (d : Nat) : validCell (dcell d) = true := by
  unfold dcell validCell
  cases d == 1 <;> cases d == 2 <;> rfl

theorem cell_boc00 (c : Nat) : cell (boardOfCode c) 0 0 = dcell (c % 3) := rfl

theorem cell_boc01 (c : Nat) : cell (boardOfCode c) 0 1 = dcell (c / 3 % 3) := rfl

theorem cell_boc02 (c : Nat) : cell (boardOfCode c) 0 2 = dcell (c / 9 % 3) := rfl

theorem cell_boc10 (c : Nat) : cell (boardOfCode c) 1 0 = dcell (c / 27 % 3) := rfl

theorem cell_boc11 (c : Nat) : cell (boardOfCode c) 1 1 = dcell (c / 81 % 3) := rfl

theorem cell_boc12 (c : Nat) : cell (boardOfCode c) 1 2 = dcell (c / 243 % 3) := rfl

theorem cell_boc20 (c : Nat) : cell (boardOfCode c) 2 0 = dcell (c / 729 % 3) := rfl

theorem cell_boc21 (c : Nat) : cell (boardOfCode c) 2 1 = dcell (c / 2187 % 3) := rfl

theorem cell_boc22 (c : Nat) : cell (boardOfCode c) 2 2 = dcell (c / 6561 % 3) := rfl

theorem WF_boardOfCode (c : Nat) : WF (boardOfCode c) = true := by
  simp only [WF, Bool.and_eq_true, List.all_eq_true, beq_iff_eq]
  refine ⟨⟨rfl, ?_⟩, ?_⟩
  · intro r hr
    simp only [boardOfCode, List.mem_cons, List.not_mem_nil, or_false] at hr
    rcases hr with rfl | rfl | rfl <;> rfl
  · intro yx hm
    fin_cases hm <;>
      simp only [cell_boc00, cell_boc01, cell_boc02, cell_boc10, cell_boc11, cell_boc12,
        cell_boc20, cell_boc21, cell_boc22, validCell_dcell]

theorem dcell_none_iff (d : Nat) (h : d < 3) : dcell d = none ↔ d = 0 := by
  interval_cases d <;> simp [dcell]

theorem dcell_eq_some (d : Nat) (h3 : d < 3) (h : d ≠ 0) : dcell d = some d := by
  interval_cases d <;> simp_all [dcell]

theorem lg_first_ne (a b c : Nat) (h : lgN a b c = true) : a ≠ 0 := by
  simp only [lgN, Bool.and_eq_true, bne_iff_ne, ne_eq, Bool.not_eq_true', beq_eq_false_iff_ne,
    beq_iff_eq] at h
  exact h.1.1

theorem cell_boc (c y x : Nat) (hy : y < 3) (hx : x < 3) :
    cell (boardOfCode c) y x = dcell (dig c (3 * y + x)) := by
  interval_cases y <;> interval_cases x <;> (simp only [cell, boardOfCode, dig]; norm_num)

theorem get_winner_code (c : Nat) : get_winner (boardOfCode c) = winnerN c := by
  have LG : ∀ x y z : Nat, lineGuard (dcell (x % 3)) (dcell (y % 3)) (dcell (z % 3)) =
      lgN (x % 3) (y % 3) (z % 3) := by
    intro x y z
    have hx := Nat.mod_lt x (y := 3) (by norm_num)
    have hy := Nat.mod_lt y (y := 3) (by norm_num)
    have hz := Nat.mod_lt z (y := 3) (by norm_num)
    set a := x % 3 with ha
    set b := y % 3 with hb
    set d := z % 3 with hd
    clear_value a b d
    interval_cases a <;> interval_cases b <;> interval_cases d <;> rfl
  have T : ∀ x : Nat, (!truthy (dcell (x % 3))) = (x % 3 == 0) := by
    intro x
    have hx := Nat.mod_lt x (y := 3) (by norm_num)
    set a := x % 3 with ha
    clear_value a
    interval_cases a <;> rfl
  have HE : has_empty_field (boardOfCode c) =
      (c % 3 == 0 || c / 3 % 3 == 0 || c / 9 % 3 == 0 || c / 27 % 3 == 0 || c / 81 % 3 == 0 ||
       c / 243 % 3 == 0 || c / 729 % 3 == 0 || c / 2187 % 3 == 0 || c / 6561 % 3 == 0) := by
    simp only [has_empty_field, allPos, List.any_cons, List.any_nil, Bool.or_false,
      cell_boc00, cell_boc01, cell_boc02, cell_boc10, cell_boc11, cell_boc12,
      cell_boc20, cell_boc21, cell_boc22, T, Bool.or_assoc]
  simp only [get_winner, winnerN,
    cell_boc00, cell_boc01, cell_boc02, cell_boc10, cell_boc11, cell_boc12,
    cell_boc20, cell_boc21, cell_boc22, LG, HE]
  by_cases h1 : lgN (c % 3) (c / 3 % 3) (c / 9 % 3) = true
  · rw [if_pos h1, h1, cond_true]
    exact dcell_eq_some _ (Nat.mod_lt _ (by norm_num)) (lg_first_ne _ _ _ h1)
  · rw [if_neg h1, Bool.eq_false_iff.mpr h1, cond_false]
    by_cases h2 : lgN (c / 27 % 3) (c / 81 % 3) (c / 243 % 3) = true
    · rw [if_pos h2, h2, cond_true]
      exact dcell_eq_some _ (Nat.mod_lt _ (by norm_num)) (lg_first_ne _ _ _ h2)
    · rw [if_neg h2, Bool.eq_false_iff.mpr h2, cond_false]
      by_cases h3 : lgN (c / 729 % 3) (c / 2187 % 3) (c / 6561 % 3) = true
      · rw [if_pos h3, h3, cond_true]
        exact dcell_eq_some _ (Nat.mod_lt _ (by norm_num)) (lg_first_ne _ _ _ h3)
      · rw [if_neg h3, Bool.eq_false_iff.mpr h3, cond_false]
        by_cases h4 : lgN (c % 3) (c / 27 % 3) (c / 729 % 3) = true
        · rw [if_pos h4, h4, cond_true]
          exact dcell_eq_some _ (Nat.mod_lt _ (by norm_num)) (lg_first_ne _ _ _ h4)
        · rw [if_neg h4, Bool.eq_false_iff.mpr h4, cond_false]
          by_cases h5 : lgN (c / 3 % 3) (c / 81 % 3) (c / 2187 % 3) = true
          · rw [if_pos h5, h5, cond_true]
            exact dcell_eq_some _ (Nat.mod_lt _ (by norm_num)) (lg_first_ne _ _ _ h5)
          · rw [if_neg h5, Bool.eq_false_iff.mpr h5, cond_false]
            by_cases h6 : lgN (c / 9 % 3) (c / 243 % 3) (c / 6561 % 3) = true
            · rw [if_pos h6, h6, cond_true]
              exact dcell_eq_some _ (Nat.mod_lt _ (by norm_num)) (lg_first_ne _ _ _ h6)
            · rw [if_neg h6, Bool.eq_false_iff.mpr h6, cond_false]
              by_cases h7 : lgN (c % 3) (c / 81 % 3) (c / 6561 % 3) = true
              · rw [if_pos h7, h7, cond_true]
                exact dcell_eq_some _ (Nat.mod_lt _ (by norm_num)) (lg_first_ne _ _ _ h7)
              · rw [if_neg h7, Bool.eq_false_iff.mpr h7, cond_false]
                by_cases h8 : lgN (c / 9 % 3) (c / 81 % 3) (c / 729 % 3) = true
                · rw [if_pos h8, h8, cond_true]
                  exact dcell_eq_some _ (Nat.mod_lt _ (by norm_num)) (lg_first_ne _ _ _ h8)
                · rw [if_neg h8, Bool.eq_false_iff.mpr h8, cond_false]
                  by_cases h9 : (c % 3 == 0 || c / 3 % 3 == 0 || c / 9 % 3 == 0 || c / 27 % 3 == 0 ||
                      c / 81 % 3 == 0 || c / 243 % 3 == 0 || c / 729 % 3 == 0 || c / 2187 % 3 == 0 ||
                      c / 6561 % 3 == 0) = true
                  · rw [if_pos h9, h9, cond_true]
                  · rw [if_neg h9, Bool.eq_false_iff.mpr h9, cond_false]

/-! ### Placing a stone as a digit update -/

theorem dig_update (c mv k : Nat) (hc : c < 19683) (hmv1 : 1 ≤ mv) (hmv2 : mv ≤ 2)
    (hk : k < 9) (h0 : dig c k = 0) :
    (∀ j, j < 9 → dig (c + mv * 3 ^ k) j = if j = k then mv else dig c j) ∧
      c + mv * 3 ^ k < 19683 := by
  simp only [dig] at h0 ⊢
  interval_cases k <;>
    (norm_num at h0 ⊢
     constructor
     · intro j hj
       interval_cases j <;> norm_num <;> omega
     · omega)

theorem zerosN_update (c mv k : Nat) (hc : c < 19683) (hmv1 : 1 ≤ mv) (hmv2 : mv ≤ 2)
    (hk : k < 9) (h0 : dig c k = 0) :
    zerosN (c + mv * 3 ^ k) + 1 = zerosN c := by
  obtain ⟨hdig, _⟩ := dig_update c mv k hc hmv1 hmv2 hk h0
  have g0 := hdig 0 (by norm_num); have g1 := hdig 1 (by norm_num)
  have g2 := hdig 2 (by norm_num); have g3 := hdig 3 (by norm_num)
  have g4 := hdig 4 (by norm_num); have g5 := hdig 5 (by norm_num)
  have g6 := hdig 6 (by norm_num); have g7 := hdig 7 (by norm_num)
  have g8 := hdig 8 (by norm_num)
  have hzm : z01 mv = 0 := z01_of_ne mv (by omega)
  rw [zerosN_dig, zerosN_dig, g0, g1, g2, g3, g4, g5, g6, g7, g8]
  interval_cases k <;> norm_num [hzm, z01_zero, h0] <;> omega

set_option maxHeartbeats 3200000 in
theorem setCell_code (c mv y x : Nat) (hc : c < 19683) (hmv1 : 1 ≤ mv) (hmv2 : mv ≤ 2)
    (hy : y < 3) (hx : x < 3) (h0 : dig c (3 * y + x) = 0) :
    setCell (boardOfCode c) y x (some mv) = boardOfCode (c + mv * 3 ^ (3 * y + x)) := by
  obtain ⟨hdig, _⟩ := dig_update c mv (3 * y + x) hc hmv1 hmv2 (by omega) h0
  have g0 := hdig 0 (by norm_num)
  have g1 := hdig 1 (by norm_num)
  have g2 := hdig 2 (by norm_num)
  have g3 := hdig 3 (by norm_num)
  have g4 := hdig 4 (by norm_num)
  have g5 := hdig 5 (by norm_num)
  have g6 := hdig 6 (by norm_num)
  have g7 := hdig 7 (by norm_num)
  have g8 := hdig 8 (by norm_num)
  have hmv12 : mv = 1 ∨ mv = 2 := by omega
  clear hdig h0
  rcases hmv12 with rfl | rfl <;> interval_cases y <;> interval_cases x <;>
    (simp only [dig] at g0 g1 g2 g3 g4 g5 g6 g7 g8
     norm_num at g0 g1 g2 g3 g4 g5 g6 g7 g8
     norm_num [boardOfCode, setCell]
     repeat' apply And.intro
     all_goals
       first
       | rfl
       | (apply congrArg dcell; omega)
       | (rw [g0]; rfl)
       | (rw [g1]; rfl)
       | (rw [g2]; rfl)
       | (rw [g3]; rfl)
       | (rw [g4]; rfl)
       | (rw [g5]; rfl)
       | (rw [g6]; rfl)
       | (rw [g7]; rfl)
       | (rw [g8]; rfl))

/-! ### Pairing a table fold with a `mmGo` pass -/

theorem nmax_cast (a b : Nat) : ((nmax a b : Nat) : Int) = max (a : Int) (b : Int) := by
  unfold nmax
  cases h : Nat.ble a b
  · have : ¬ a ≤ b := by rw [← Nat.ble_eq]; simp [h]
    simp only [cond_false]
    omega
  · have : a ≤ b := by rw [← Nat.ble_eq]; simp [h]
    simp only [cond_true]
    omega

theorem nmin_cast (a b : Nat) : ((nmin a b : Nat) : Int) = min (a : Int) (b : Int) := by
  unfold nmin
  cases h : Nat.ble a b
  · have : ¬ a ≤ b := by rw [← Nat.ble_eq]; simp [h]
    simp only [cond_false]
    omega
  · have : a ≤ b := by rw [← Nat.ble_eq]; simp [h]
    simp only [cond_true]
    omega

theorem fold_pair_max_rel (f : Board → Int) (b : Board) (t : Nat) :
    ∀ (L : List ((Nat × Nat) × (Nat × Nat))),
      (∀ e ∈ L, (cell b e.1.1 e.1.2 = none ↔ e.2.1 = 0) ∧
        (e.2.1 = 0 → f (setCell b e.1.1 e.1.2 (some 1)) = ((t / e.2.2 % 4 : Nat) : Int) - 1)) →
      ∀ (accI : Int) (accN : Nat), accI = (accN : Int) - 1 →
        mmGo f b 1 true (L.map Prod.fst) accI =
          ((foldMax t (L.map Prod.snd) accN : Nat) : Int) - 1 := by
  intro L
  induction L with
  | nil =>
    intro _ accI accN hrel
    simpa [mmGo, foldMax] using hrel
  | cons e rest ih =>
    intro hpt accI accN hrel
    obtain ⟨⟨y, x⟩, d, p⟩ := e
    have hhead := hpt ((y, x), (d, p)) (List.mem_cons_self _ _)
    dsimp only at hhead
    have htail := fun e he => hpt e (List.mem_cons_of_mem _ he)
    simp only [List.map_cons]
    by_cases hc : cell b y x = none
    · have hd : d = 0 := hhead.1.mp hc
      have hv := hhead.2 hd
      subst hd
      rw [mmGo_cons_max f b 1 y x _ accI hc]
      rw [show foldMax t ((0, p) :: List.map Prod.snd rest) accN
            = foldMax t (List.map Prod.snd rest) (nmax accN (t / p % 4)) from rfl]
      refine ih htail _ _ ?_
      rw [hv, hrel, nmax_cast]
      omega
    · have hd : d ≠ 0 := fun h => hc (hhead.1.mpr h)
      rw [mmGo_cons_skip f b 1 true y x _ accI hc]
      rw [show foldMax t ((d, p) :: List.map Prod.snd rest) accN
            = foldMax t (List.map Prod.snd rest) (cond (d == 0) (nmax accN (t / p % 4)) accN)
            from rfl,
        show (d == 0) = false from by simpa using hd, cond_false]
      exact ih htail accI accN hrel

theorem fold_pair_max_init (f : Board → Int) (b : Board) (t : Nat) :
    ∀ (L : List ((Nat × Nat) × (Nat × Nat))),
      (∀ e ∈ L, (cell b e.1.1 e.1.2 = none ↔ e.2.1 = 0) ∧
        (e.2.1 = 0 → f (setCell b e.1.1 e.1.2 (some 1)) = ((t / e.2.2 % 4 : Nat) : Int) - 1)) →
      (∃ e ∈ L, e.2.1 = 0) →
      mmGo f b 1 true (L.map Prod.fst) (-INFINITY) =
        ((foldMax t (L.map Prod.snd) 0 : Nat) : Int) - 1 := by
  intro L
  induction L with
  | nil =>
    rintro _ ⟨e, he, _⟩
    exact absurd he (List.not_mem_nil e)
  | cons e rest ih =>
    intro hpt hex
    obtain ⟨⟨y, x⟩, d, p⟩ := e
    have hhead := hpt ((y, x), (d, p)) (List.mem_cons_self _ _)
    dsimp only at hhead
    have htail := fun e he => hpt e (List.mem_cons_of_mem _ he)
    simp only [List.map_cons]
    by_cases hc : cell b y x = none
    · have hd : d = 0 := hhead.1.mp hc
      have hv := hhead.2 hd
      subst hd
      rw [mmGo_cons_max f b 1 y x _ (-INFINITY) hc]
      rw [show foldMax t ((0, p) :: List.map Prod.snd rest) 0
            = foldMax t (List.map Prod.snd rest) (nmax 0 (t / p % 4)) from rfl]
      refine fold_pair_max_rel f b t rest htail _ _ ?_
      have hI : (1 : Int) ≤ INFINITY := by norm_num [INFINITY]
      rw [hv, nmax_cast]
      omega
    · have hd : d ≠ 0 := fun h => hc (hhead.1.mpr h)
      rw [mmGo_cons_skip f b 1 true y x _ (-INFINITY) hc]
      rw [show foldMax t ((d, p) :: List.map Prod.snd rest) 0
            = foldMax t (List.map Prod.snd rest) (cond (d == 0) (nmax 0 (t / p % 4)) 0)
            from rfl,
        show (d == 0) = false from by simpa using hd, cond_false]
      refine ih htail ?_
      obtain ⟨e, he, hez⟩ := hex
      rcases List.mem_cons.mp he with rfl | hmem
      · exact absurd hez hd
      · exact ⟨e, hmem, hez⟩

theorem fold_pair_min_rel (f : Board → Int) (b : Board) (t : Nat) :
    ∀ (L : List ((Nat × Nat) × (Nat × Nat))),
      (∀ e ∈ L, (cell b e.1.1 e.1.2 = none ↔ e.2.1 = 0) ∧
        (e.2.1 = 0 → f (setCell b e.1.1 e.1.2 (some 2)) = ((t / e.2.2 % 4 : Nat) : Int) - 1)) →
      ∀ (accI : Int) (accN : Nat), accI = (accN : Int) - 1 →
        mmGo f b 1 false (L.map Prod.fst) accI =
          ((foldMin t (L.map Prod.snd) accN : Nat) : Int) - 1 := by
  intro L
  induction L with
  | nil =>
    intro _ accI accN hrel
    simpa [mmGo, foldMin] using hrel
  | cons e rest ih =>
    intro hpt accI accN hrel
    obtain ⟨⟨y, x⟩, d, p⟩ := e
    have hhead := hpt ((y, x), (d, p)) (List.mem_cons_self _ _)
    dsimp only at hhead
    have htail := fun e he => hpt e (List.mem_cons_of_mem _ he)
    simp only [List.map_cons]
    by_cases hc : cell b y x = none
    · have hd : d = 0 := hhead.1.mp hc
      have hv := hhead.2 hd
      subst hd
      rw [mmGo_cons_min f b 1 y x _ accI hc, show (1 % 2 + 1 : Nat) = 2 from rfl]
      rw [show foldMin t ((0, p) :: List.map Prod.snd rest) accN
            = foldMin t (List.map Prod.snd rest) (nmin accN (t / p % 4)) from rfl]
      refine ih htail _ _ ?_
      rw [hv, hrel, nmin_cast]
      omega
    · have hd : d ≠ 0 := fun h => hc (hhead.1.mpr h)
      rw [mmGo_cons_skip f b 1 false y x _ accI hc]
      rw [show foldMin t ((d, p) :: List.map Prod.snd rest) accN
            = foldMin t (List.map Prod.snd rest) (cond (d == 0) (nmin accN (t / p % 4)) accN)
            from rfl,
        show (d == 0) = false from by simpa using hd, cond_false]
      exact ih htail accI accN hrel

theorem fold_pair_min_init (f : Board → Int) (b : Board) (t : Nat) :
    ∀ (L : List ((Nat × Nat) × (Nat × Nat))),
      (∀ e ∈ L, (cell b e.1.1 e.1.2 = none ↔ e.2.1 = 0) ∧
        (e.2.1 = 0 → f (setCell b e.1.1 e.1.2 (some 2)) = ((t / e.2.2 % 4 : Nat) : Int) - 1 ∧
          t / e.2.2 % 4 ≤ 2)) →
      (∃ e ∈ L, e.2.1 = 0) →
      mmGo f b 1 false (L.map Prod.fst) INFINITY =
        ((foldMin t (L.map Prod.snd) 2 : Nat) : Int) - 1 := by
  intro L
  induction L with
  | nil =>
    rintro _ ⟨e, he, _⟩
    exact absurd he (List.not_mem_nil e)
  | cons e rest ih =>
    intro hpt hex
    obtain ⟨⟨y, x⟩, d, p⟩ := e
    have hhead := hpt ((y, x), (d, p)) (List.mem_cons_self _ _)
    dsimp only at hhead
    have htail := fun e he => hpt e (List.mem_cons_of_mem _ he)
    simp only [List.map_cons]
    by_cases hc : cell b y x = none
    · have hd : d = 0 := hhead.1.mp hc
      obtain ⟨hv, hv2⟩ := hhead.2 hd
      subst hd
      rw [mmGo_cons_min f b 1 y x _ INFINITY hc, show (1 % 2 + 1 : Nat) = 2 from rfl]
      rw [show foldMin t ((0, p) :: List.map Prod.snd rest) 2
            = foldMin t (List.map Prod.snd rest) (nmin 2 (t / p % 4)) from rfl]
      refine fold_pair_min_rel f b t rest (fun e he => ⟨(htail e he).1,
        fun hz => ((htail e he).2 hz).1⟩) _ _ ?_
      have hI : (1 : Int) ≤ INFINITY := by norm_num [INFINITY]
      rw [hv, nmin_cast]
      omega
    · have hd : d ≠ 0 := fun h => hc (hhead.1.mpr h)
      rw [mmGo_cons_skip f b 1 false y x _ INFINITY hc]
      rw [show foldMin t ((d, p) :: List.map Prod.snd rest) 2
            = foldMin t (List.map Prod.snd rest) (cond (d == 0) (nmin 2 (t / p % 4)) 2)
            from rfl,
        show (d == 0) = false from by simpa using hd, cond_false]
      refine ih htail ?_
      obtain ⟨e, he, hez⟩ := hex
      rcases List.mem_cons.mp he with rfl | hmem
      · exact absurd hez hd
      · exact ⟨e, hmem, hez⟩

theorem pa_eq (k : Nat) (hk : k < 9) : pa k = 4 ^ 3 ^ k := by
  have h1 : pa k = pw4 13 (3 ^ k) := by interval_cases k <;> decide
  have h2 : (3:Nat) ^ k < 2 ^ 13 := by interval_cases k <;> norm_num
  rw [h1, pw4_eq 13 (3 ^ k) h2]

theorem pb_eq (k : Nat) (hk : k < 9) : pb k = 4 ^ (2 * 3 ^ k) := by
  show pa k * pa k = _
  rw [pa_eq k hk, ← pow_add]
  congr 1
  ring

theorem childVal1 (c k : Nat) (hk : k < 9) :
    tableT / 4 ^ c / pa k % 4 = lookupT (c + 3 ^ k) := by
  rw [pa_eq k hk, Nat.div_div_eq_div_mul, ← pow_add, lookupT]

theorem childVal2 (c k : Nat) (hk : k < 9) :
    tableT / 4 ^ c / pb k % 4 = lookupT (c + 2 * 3 ^ k) := by
  rw [pb_eq k hk, Nat.div_div_eq_div_mul, ← pow_add, lookupT]

theorem terminal_branch (w t : Nat) (h3 : w < 3) (hne : w ≠ 0)
    (hval : t = tvN w) : terminalScore w 1 = ((t : Nat) : Int) - 1 := by
  rcases (by omega : w = 1 ∨ w = 2) with rfl | rfl <;> rw [hval] <;> decide

theorem child_fact_max (fuel c y x : Nat) (hc : c < 19683) (hy : y < 3) (hx : x < 3)
    (ih : ∀ c2, c2 < 19683 → zerosN c2 < fuel →
      minimax fuel (boardOfCode c2) 1 (flagN c2) = ((lookupT c2 : Nat) : Int) - 1)
    (hzc : zerosN c ≤ fuel) (hf : flagN c = true) (hd : dig c (3 * y + x) = 0) :
    minimax fuel (setCell (boardOfCode c) y x (some 1)) 1 false
      = ((tableT / 4 ^ c / pa (3 * y + x) % 4 : Nat) : Int) - 1 := by
  have hk : 3 * y + x < 9 := by omega
  have hset := setCell_code c 1 y x hc (by omega) (by omega) hy hx hd
  have hupd := dig_update c 1 (3 * y + x) hc (by omega) (by omega) hk hd
  have hz2 := zerosN_update c 1 (3 * y + x) hc (by omega) (by omega) hk hd
  have h1 : zerosN c % 2 = 1 := by simpa [flagN] using hf
  have hfc : flagN (c + 1 * 3 ^ (3 * y + x)) = false := by
    simp only [flagN]
    rw [show zerosN (c + 1 * 3 ^ (3 * y + x)) % 2 = 0 from by omega]
    rfl
  have hval := ih (c + 1 * 3 ^ (3 * y + x)) hupd.2 (by omega)
  rw [hfc] at hval
  have hc1 := childVal1 c (3 * y + x) hk
  rw [hset, hval, hc1, show c + 1 * 3 ^ (3 * y + x) = c + 3 ^ (3 * y + x) from by ring]

theorem child_fact_min (fuel c y x : Nat) (hc : c < 19683) (hy : y < 3) (hx : x < 3)
    (ih : ∀ c2, c2 < 19683 → zerosN c2 < fuel →
      minimax fuel (boardOfCode c2) 1 (flagN c2) = ((lookupT c2 : Nat) : Int) - 1)
    (hzc : zerosN c ≤ fuel) (hf : flagN c = false) (hd : dig c (3 * y + x) = 0) :
    minimax fuel (setCell (boardOfCode c) y x (some 2)) 1 true
      = ((tableT / 4 ^ c / pb (3 * y + x) % 4 : Nat) : Int) - 1 ∧
      tableT / 4 ^ c / pb (3 * y + x) % 4 ≤ 2 := by
  have hk : 3 * y + x < 9 := by omega
  have hset := setCell_code c 2 y x hc (by omega) (by omega) hy hx hd
  have hupd := dig_update c 2 (3 * y + x) hc (by omega) (by omega) hk hd
  have hz2 := zerosN_update c 2 (3 * y + x) hc (by omega) (by omega) hk hd
  have h0 : zerosN c % 2 = 0 := by
    have h1 := hf
    simp only [flagN, beq_eq_false_iff_ne, ne_eq] at h1
    omega
  have hfc : flagN (c + 2 * 3 ^ (3 * y + x)) = true := by
    simp only [flagN]
    rw [show zerosN (c + 2 * 3 ^ (3 * y + x)) % 2 = 1 from by omega]
    rfl
  have hval := ih (c + 2 * 3 ^ (3 * y + x)) hupd.2 (by omega)
  rw [hfc] at hval
  have hrange := minimax_range fuel (boardOfCode (c + 2 * 3 ^ (3 * y + x))) 1 true
    (WF_boardOfCode _) (Or.inl rfl)
  have hc2 := childVal2 c (3 * y + x) hk
  constructor
  · rw [hset, hval, hc2]
  · rw [hval] at hrange
    rw [hc2]
    omega

theorem nonterminal_max (fuel c : Nat) (hc : c < 19683) (hz : zerosN c < fuel + 1)
    (ih : ∀ c2, c2 < 19683 → zerosN c2 < fuel →
      minimax fuel (boardOfCode c2) 1 (flagN c2) = ((lookupT c2 : Nat) : Int) - 1)
    (hf : flagN c = true)
    (hful : (c % 3 == 0 || c / 3 % 3 == 0 || c / 9 % 3 == 0 || c / 27 % 3 == 0 || c / 81 % 3 == 0 || c / 243 % 3 == 0 || c / 729 % 3 == 0 || c / 2187 % 3 == 0 || c / 6561 % 3 == 0) = true)
    (hchk : (tableT / 4 ^ c % 4 == foldMax (tableT / 4 ^ c) [(c % 3, pa 0), (c / 3 % 3, pa 1), (c / 9 % 3, pa 2), (c / 27 % 3, pa 3), (c / 81 % 3, pa 4), (c / 243 % 3, pa 5), (c / 729 % 3, pa 6), (c / 2187 % 3, pa 7), (c / 6561 % 3, pa 8)] 0) = true) :
    mmGo (fun c2 => minimax fuel c2 1 false) (boardOfCode c) 1 true allPos (-INFINITY)
      = ((lookupT c : Nat) : Int) - 1 := by
  have hpt : ∀ e ∈ tblL c, (cell (boardOfCode c) e.1.1 e.1.2 = none ↔ e.2.1 = 0) ∧
      (e.2.1 = 0 → minimax fuel (setCell (boardOfCode c) e.1.1 e.1.2 (some 1)) 1 false
        = ((tableT / 4 ^ c / e.2.2 % 4 : Nat) : Int) - 1) := by
    intro e he
    simp only [tblL] at he
    fin_cases he <;> dsimp only
    · refine ⟨?_, ?_⟩
      · rw [cell_boc00 c]
        exact dcell_none_iff _ (Nat.mod_lt _ (by norm_num))
      · intro hdk
        exact child_fact_max fuel c 0 0 hc (by norm_num) (by norm_num) ih (by omega) hf
          (by norm_num [dig]; exact hdk)
    · refine ⟨?_, ?_⟩
      · rw [cell_boc01 c]
        exact dcell_none_iff _ (Nat.mod_lt _ (by norm_num))
      · intro hdk
        exact child_fact_max fuel c 0 1 hc (by norm_num) (by norm_num) ih (by omega) hf
          (by norm_num [dig]; exact hdk)
    · refine ⟨?_, ?_⟩
      · rw [cell_boc02 c]
        exact dcell_none_iff _ (Nat.mod_lt _ (by norm_num))
      · intro hdk
        exact child_fact_max fuel c 0 2 hc (by norm_num) (by norm_num) ih (by omega) hf
          (by norm_num [dig]; exact hdk)
    · refine ⟨?_, ?_⟩
      · rw [cell_boc10 c]
        exact dcell_none_iff _ (Nat.mod_lt _ (by norm_num))
      · intro hdk
        exact child_fact_max fuel c 1 0 hc (by norm_num) (by norm_num) ih (by omega) hf
          (by norm_num [dig]; exact hdk)
    · refine ⟨?_, ?_⟩
      · rw [cell_boc11 c]
        exact dcell_none_iff _ (Nat.mod_lt _ (by norm_num))
      · intro hdk
        exact child_fact_max fuel c 1 1 hc (by norm_num) (by norm_num) ih (by omega) hf
          (by norm_num [dig]; exact hdk)
    · refine ⟨?_, ?_⟩
      · rw [cell_boc12 c]
        exact dcell_none_iff _ (Nat.mod_lt _ (by norm_num))
      · intro hdk
        exact child_fact_max fuel c 1 2 hc (by norm_num) (by norm_num) ih (by omega) hf
          (by norm_num [dig]; exact hdk)
    · refine ⟨?_, ?_⟩
      · rw [cell_boc20 c]
        exact dcell_none_iff _ (Nat.mod_lt _ (by norm_num))
      · intro hdk
        exact child_fact_max fuel c 2 0 hc (by norm_num) (by norm_num) ih (by omega) hf
          (by norm_num [dig]; exact hdk)
    · refine ⟨?_, ?_⟩
      · rw [cell_boc21 c]
        exact dcell_none_iff _ (Nat.mod_lt _ (by norm_num))
      · intro hdk
        exact child_fact_max fuel c 2 1 hc (by norm_num) (by norm_num) ih (by omega) hf
          (by norm_num [dig]; exact hdk)
    · refine ⟨?_, ?_⟩
      · rw [cell_boc22 c]
        exact dcell_none_iff _ (Nat.mod_lt _ (by norm_num))
      · intro hdk
        exact child_fact_max fuel c 2 2 hc (by norm_num) (by norm_num) ih (by omega) hf
          (by norm_num [dig]; exact hdk)
  have hex : ∃ e ∈ tblL c, e.2.1 = 0 := by
    have hful2 := hful
    simp only [Bool.or_eq_true, beq_iff_eq] at hful2
    simp only [tblL]
    rcases hful2 with ((((((((h | h) | h) | h) | h) | h) | h) | h) | h)
    · exact ⟨((0, 0), (c % 3, pa 0)), by simp, h⟩
    · exact ⟨((0, 1), (c / 3 % 3, pa 1)), by simp, h⟩
    · exact ⟨((0, 2), (c / 9 % 3, pa 2)), by simp, h⟩
    · exact ⟨((1, 0), (c / 27 % 3, pa 3)), by simp, h⟩
    · exact ⟨((1, 1), (c / 81 % 3, pa 4)), by simp, h⟩
    · exact ⟨((1, 2), (c / 243 % 3, pa 5)), by simp, h⟩
    · exact ⟨((2, 0), (c / 729 % 3, pa 6)), by simp, h⟩
    · exact ⟨((2, 1), (c / 2187 % 3, pa 7)), by simp, h⟩
    · exact ⟨((2, 2), (c / 6561 % 3, pa 8)), by simp, h⟩
  have hpair := fold_pair_max_init (fun c2 => minimax fuel c2 1 false) (boardOfCode c)
    (tableT / 4 ^ c) (tblL c) hpt hex
  have heq : tableT / 4 ^ c % 4 = foldMax (tableT / 4 ^ c) [(c % 3, pa 0), (c / 3 % 3, pa 1), (c / 9 % 3, pa 2), (c / 27 % 3, pa 3), (c / 81 % 3, pa 4), (c / 243 % 3, pa 5), (c / 729 % 3, pa 6), (c / 2187 % 3, pa 7), (c / 6561 % 3, pa 8)] 0 := by
    simpa using hchk
  rw [show lookupT c = tableT / 4 ^ c % 4 from rfl, heq]
  exact hpair

theorem nonterminal_min (fuel c : Nat) (hc : c < 19683) (hz : zerosN c < fuel + 1)
    (ih : ∀ c2, c2 < 19683 → zerosN c2 < fuel →
      minimax fuel (boardOfCode c2) 1 (flagN c2) = ((lookupT c2 : Nat) : Int) - 1)
    (hf : flagN c = false)
    (hful : (c % 3 == 0 || c / 3 % 3 == 0 || c / 9 % 3 == 0 || c / 27 % 3 == 0 || c / 81 % 3 == 0 || c / 243 % 3 == 0 || c / 729 % 3 == 0 || c / 2187 % 3 == 0 || c / 6561 % 3 == 0) = true)
    (hchk : (tableT / 4 ^ c % 4 == foldMin (tableT / 4 ^ c) [(c % 3, pb 0), (c / 3 % 3, pb 1), (c / 9 % 3, pb 2), (c / 27 % 3, pb 3), (c / 81 % 3, pb 4), (c / 243 % 3, pb 5), (c / 729 % 3, pb 6), (c / 2187 % 3, pb 7), (c / 6561 % 3, pb 8)] 2) = true) :
    mmGo (fun c2 => minimax fuel c2 1 true) (boardOfCode c) 1 false allPos INFINITY
      = ((lookupT c : Nat) : Int) - 1 := by
  have hpt : ∀ e ∈ tblL2 c, (cell (boardOfCode c) e.1.1 e.1.2 = none ↔ e.2.1 = 0) ∧
      (e.2.1 = 0 → minimax fuel (setCell (boardOfCode c) e.1.1 e.1.2 (some 2)) 1 true
        = ((tableT / 4 ^ c / e.2.2 % 4 : Nat) : Int) - 1 ∧ tableT / 4 ^ c / e.2.2 % 4 ≤ 2) := by
    intro e he
    simp only [tblL2] at he
    fin_cases he <;> dsimp only
    · refine ⟨?_, ?_⟩
      · rw [cell_boc00 c]
        exact dcell_none_iff _ (Nat.mod_lt _ (by norm_num))
      · intro hdk
        exact child_fact_min fuel c 0 0 hc (by norm_num) (by norm_num) ih (by omega) hf
          (by norm_num [dig]; exact hdk)
    · refine ⟨?_, ?_⟩
      · rw [cell_boc01 c]
        exact dcell_none_iff _ (Nat.mod_lt _ (by norm_num))
      · intro hdk
        exact child_fact_min fuel c 0 1 hc (by norm_num) (by norm_num) ih (by omega) hf
          (by norm_num [dig]; exact hdk)
    · refine ⟨?_, ?_⟩
      · rw [cell_boc02 c]
        exact dcell_none_iff _ (Nat.mod_lt _ (by norm_num))
      · intro hdk
        exact child_fact_min fuel c 0 2 hc (by norm_num) (by norm_num) ih (by omega) hf
          (by norm_num [dig]; exact hdk)
    · refine ⟨?_, ?_⟩
      · rw [cell_boc10 c]
        exact dcell_none_iff _ (Nat.mod_lt _ (by norm_num))
      · intro hdk
        exact child_fact_min fuel c 1 0 hc (by norm_num) (by norm_num) ih (by omega) hf
          (by norm_num [dig]; exact hdk)
    · refine ⟨?_, ?_⟩
      · rw [cell_boc11 c]
        exact dcell_none_iff _ (Nat.mod_lt _ (by norm_num))
      · intro hdk
        exact child_fact_min fuel c 1 1 hc (by norm_num) (by norm_num) ih (by omega) hf
          (by norm_num [dig]; exact hdk)
    · refine ⟨?_, ?_⟩
      · rw [cell_boc12 c]
        exact dcell_none_iff _ (Nat.mod_lt _ (by norm_num))
      · intro hdk
        exact child_fact_min fuel c 1 2 hc (by norm_num) (by norm_num) ih (by omega) hf
          (by norm_num [dig]; exact hdk)
    · refine ⟨?_, ?_⟩
      · rw [cell_boc20 c]
        exact dcell_none_iff _ (Nat.mod_lt _ (by norm_num))
      · intro hdk
        exact child_fact_min fuel c 2 0 hc (by norm_num) (by norm_num) ih (by omega) hf
          (by norm_num [dig]; exact hdk)
    · refine ⟨?_, ?_⟩
      · rw [cell_boc21 c]
        exact dcell_none_iff _ (Nat.mod_lt _ (by norm_num))
      · intro hdk
        exact child_fact_min fuel c 2 1 hc (by norm_num) (by norm_num) ih (by omega) hf
          (by norm_num [dig]; exact hdk)
    · refine ⟨?_, ?_⟩
      · rw [cell_boc22 c]
        exact dcell_none_iff _ (Nat.mod_lt _ (by norm_num))
      · intro hdk
        exact child_fact_min fuel c 2 2 hc (by norm_num) (by norm_num) ih (by omega) hf
          (by norm_num [dig]; exact hdk)
  have hex : ∃ e ∈ tblL2 c, e.2.1 = 0 := by
    have hful2 := hful
    simp only [Bool.or_eq_true, beq_iff_eq] at hful2
    simp only [tblL2]
    rcases hful2 with ((((((((h | h) | h) | h) | h) | h) | h) | h) | h)
    · exact ⟨((0, 0), (c % 3, pb 0)), by simp, h⟩
    · exact ⟨((0, 1), (c / 3 % 3, pb 1)), by simp, h⟩
    · exact ⟨((0, 2), (c / 9 % 3, pb 2)), by simp, h⟩
    · exact ⟨((1, 0), (c / 27 % 3, pb 3)), by simp, h⟩
    · exact ⟨((1, 1), (c / 81 % 3, pb 4)), by simp, h⟩
    · exact ⟨((1, 2), (c / 243 % 3, pb 5)), by simp, h⟩
    · exact ⟨((2, 0), (c / 729 % 3, pb 6)), by simp, h⟩
    · exact ⟨((2, 1), (c / 2187 % 3, pb 7)), by simp, h⟩
    · exact ⟨((2, 2), (c / 6561 % 3, pb 8)), by simp, h⟩
  have hpair := fold_pair_min_init (fun c2 => minimax fuel c2 1 true) (boardOfCode c)
    (tableT / 4 ^ c) (tblL2 c) hpt hex
  have heq : tableT / 4 ^ c % 4 = foldMin (tableT / 4 ^ c) [(c % 3, pb 0), (c / 3 % 3, pb 1), (c / 9 % 3, pb 2), (c / 27 % 3, pb 3), (c / 81 % 3, pb 4), (c / 243 % 3, pb 5), (c / 729 % 3, pb 6), (c / 2187 % 3, pb 7), (c / 6561 % 3, pb 8)] 2 := by
    simpa using hchk
  rw [show lookupT c = tableT / 4 ^ c % 4 from rfl, heq]
  exact hpair

set_option maxHeartbeats 1600000 in
/-- The certified table stores exactly the (shifted) minimax values:
for every code `c`, enough fuel, and the parity flag the self-play game
reaches at `c`, the player-1 minimax score of the coded board is the
table entry minus one. -/
theorem minimax_eq_table :
    ∀ (fuel c : Nat), c < 19683 → zerosN c < fuel →
      minimax fuel (boardOfCode c) 1 (flagN c) = ((lookupT c : Nat) : Int) - 1 := by
  intro fuel
  induction fuel with
  | zero =>
    intro c hc hz
    exact absurd hz (Nat.not_lt_zero _)
  | succ fuel ih =>
    intro c hc hz
    have hchk := checkOne_all c hc
    have hble : Nat.ble 19683 c = false := by
      cases h : Nat.ble 19683 c
      · rfl
      · exact absurd (Nat.le_of_ble_eq_true h) (by omega)
    simp only [checkOne, hble, cond_false] at hchk
    simp only [minimax]
    rw [get_winner_code c]
    by_cases h1 : (lgN (c % 3) (c / 3 % 3) (c / 9 % 3)) = true
    · rw [h1, cond_true] at hchk
      rw [show winnerN c = some (c % 3) from by
        simp only [winnerN]
        rw [h1, cond_true]]
      refine terminal_branch _ _ (Nat.mod_lt _ (by norm_num)) (lg_first_ne _ _ _ h1) ?_
      simpa [lookupT] using hchk
    · rw [Bool.eq_false_iff.mpr h1, cond_false] at hchk
      by_cases h2 : (lgN (c / 27 % 3) (c / 81 % 3) (c / 243 % 3)) = true
      · rw [h2, cond_true] at hchk
        rw [show winnerN c = some (c / 27 % 3) from by
          simp only [winnerN]
          rw [Bool.eq_false_iff.mpr h1, cond_false, h2, cond_true]]
        refine terminal_branch _ _ (Nat.mod_lt _ (by norm_num)) (lg_first_ne _ _ _ h2) ?_
        simpa [lookupT] using hchk
      · rw [Bool.eq_false_iff.mpr h2, cond_false] at hchk
        by_cases h3 : (lgN (c / 729 % 3) (c / 2187 % 3) (c / 6561 % 3)) = true
        · rw [h3, cond_true] at hchk
          rw [show winnerN c = some (c / 729 % 3) from by
            simp only [winnerN]
            rw [Bool.eq_false_iff.mpr h1, cond_false, Bool.eq_false_iff.mpr h2, cond_false, h3, cond_true]]
          refine terminal_branch _ _ (Nat.mod_lt _ (by norm_num)) (lg_first_ne _ _ _ h3) ?_
          simpa [lookupT] using hchk
        · rw [Bool.eq_false_iff.mpr h3, cond_false] at hchk
          by_cases h4 : (lgN (c % 3) (c / 27 % 3) (c / 729 % 3)) = true
          · rw [h4, cond_true] at hchk
            rw [show winnerN c = some (c % 3) from by
              simp only [winnerN]
              rw [Bool.eq_false_iff.mpr h1, cond_false, Bool.eq_false_iff.mpr h2, cond_false, Bool.eq_false_iff.mpr h3, cond_false, h4, cond_true]]
            refine terminal_branch _ _ (Nat.mod_lt _ (by norm_num)) (lg_first_ne _ _ _ h4) ?_
            simpa [lookupT] using hchk
          · rw [Bool.eq_false_iff.mpr h4, cond_false] at hchk
            by_cases h5 : (lgN (c / 3 % 3) (c / 81 % 3) (c / 2187 % 3)) = true
            · rw [h5, cond_true] at hchk
              rw [show winnerN c = some (c / 3 % 3) from by
                simp only [winnerN]
                rw [Bool.eq_false_iff.mpr h1, cond_false, Bool.eq_false_iff.mpr h2, cond_false, Bool.eq_false_iff.mpr h3, cond_false, Bool.eq_false_iff.mpr h4, cond_false, h5, cond_true]]
              refine terminal_branch _ _ (Nat.mod_lt _ (by norm_num)) (lg_first_ne _ _ _ h5) ?_
              simpa [lookupT] using hchk
            · rw [Bool.eq_false_iff.mpr h5, cond_false] at hchk
              by_cases h6 : (lgN (c / 9 % 3) (c / 243 % 3) (c / 6561 % 3)) = true
              · rw [h6, cond_true] at hchk
                rw [show winnerN c = some (c / 9 % 3) from by
                  simp only [winnerN]
                  rw [Bool.eq_false_iff.mpr h1, cond_false, Bool.eq_false_iff.mpr h2, cond_false, Bool.eq_false_iff.mpr h3, cond_false, Bool.eq_false_iff.mpr h4, cond_false, Bool.eq_false_iff.mpr h5, cond_false, h6, cond_true]]
                refine terminal_branch _ _ (Nat.mod_lt _ (by norm_num)) (lg_first_ne _ _ _ h6) ?_
                simpa [lookupT] using hchk
              · rw [Bool.eq_false_iff.mpr h6, cond_false] at hchk
                by_cases h7 : (lgN (c % 3) (c / 81 % 3) (c / 6561 % 3)) = true
                · rw [h7, cond_true] at hchk
                  rw [show winnerN c = some (c % 3) from by
                    simp only [winnerN]
                    rw [Bool.eq_false_iff.mpr h1, cond_false, Bool.eq_false_iff.mpr h2, cond_false, Bool.eq_false_iff.mpr h3, cond_false, Bool.eq_false_iff.mpr h4, cond_false, Bool.eq_false_iff.mpr h5, cond_false, Bool.eq_false_iff.mpr h6, cond_false, h7, cond_true]]
                  refine terminal_branch _ _ (Nat.mod_lt _ (by norm_num)) (lg_first_ne _ _ _ h7) ?_
                  simpa [lookupT] using hchk
                · rw [Bool.eq_false_iff.mpr h7, cond_false] at hchk
                  by_cases h8 : (lgN (c / 9 % 3) (c / 81 % 3) (c / 729 % 3)) = true
                  · rw [h8, cond_true] at hchk
                    rw [show winnerN c = some (c / 9 % 3) from by
                      simp only [winnerN]
                      rw [Bool.eq_false_iff.mpr h1, cond_false, Bool.eq_false_iff.mpr h2, cond_false, Bool.eq_false_iff.mpr h3, cond_false, Bool.eq_false_iff.mpr h4, cond_false, Bool.eq_false_iff.mpr h5, cond_false, Bool.eq_false_iff.mpr h6, cond_false, Bool.eq_false_iff.mpr h7, cond_false, h8, cond_true]]
                    refine terminal_branch _ _ (Nat.mod_lt _ (by norm_num)) (lg_first_ne _ _ _ h8) ?_
                    simpa [lookupT] using hchk
                  · rw [Bool.eq_false_iff.mpr h8, cond_false] at hchk
                    by_cases hful : (c % 3 == 0 || c / 3 % 3 == 0 || c / 9 % 3 == 0 || c / 27 % 3 == 0 || c / 81 % 3 == 0 || c / 243 % 3 == 0 || c / 729 % 3 == 0 || c / 2187 % 3 == 0 || c / 6561 % 3 == 0) = true
                    · rw [hful, cond_true] at hchk
                      rw [show winnerN c = none from by
                          simp only [winnerN]
                          rw [Bool.eq_false_iff.mpr h1, cond_false, Bool.eq_false_iff.mpr h2, cond_false, Bool.eq_false_iff.mpr h3, cond_false, Bool.eq_false_iff.mpr h4, cond_false, Bool.eq_false_iff.mpr h5, cond_false, Bool.eq_false_iff.mpr h6, cond_false, Bool.eq_false_iff.mpr h7, cond_false, Bool.eq_false_iff.mpr h8, cond_false, hful, cond_true]]
                      rw [show ((z01 (c % 3) + z01 (c / 3 % 3) + z01 (c / 9 % 3) + z01 (c / 27 % 3) + z01 (c / 81 % 3) + z01 (c / 243 % 3) + z01 (c / 729 % 3) + z01 (c / 2187 % 3) + z01 (c / 6561 % 3)) % 2 == 1) = flagN c from rfl] at hchk
                      cases hf : flagN c
                      · rw [hf, cond_false] at hchk
                        simp only [Bool.not_false, reduceIte]
                        exact nonterminal_min fuel c hc hz ih hf hful hchk
                      · rw [hf, cond_true] at hchk
                        simp only [Bool.not_true, reduceIte]
                        exact nonterminal_max fuel c hc hz ih hf hful hchk
                    · rw [Bool.eq_false_iff.mpr hful, cond_false] at hchk
                      rw [show winnerN c = some 0 from by
                          simp only [winnerN]
                          rw [Bool.eq_false_iff.mpr h1, cond_false, Bool.eq_false_iff.mpr h2, cond_false, Bool.eq_false_iff.mpr h3, cond_false, Bool.eq_false_iff.mpr h4, cond_false, Bool.eq_false_iff.mpr h5, cond_false, Bool.eq_false_iff.mpr h6, cond_false, Bool.eq_false_iff.mpr h7, cond_false, Bool.eq_false_iff.mpr h8, cond_false, Bool.eq_false_iff.mpr hful, cond_false]]
                      have hv : lookupT c = 1 := by simpa [lookupT] using hchk
                      rw [hv]
                      norm_num [terminalScore]

theorem lookupP_eq (x : Nat) (hx : x < 32768) : lookupP x = lookupT x := by
  unfold lookupP lookupT
  rw [pw4_eq 15 x (by norm_num; omega)]

theorem mmMoveGo_pair (b : Board) (c p : Nat) :
    ∀ (L : List (Nat × Nat)),
      (∀ yx ∈ L, (cell b yx.1 yx.2 = none ↔ dig c (3 * yx.1 + yx.2) = 0) ∧
        (cell b yx.1 yx.2 = none →
          minimax 9 (setCell b yx.1 yx.2 (some p)) p false = scoreN c p (3 * yx.1 + yx.2))) →
      ∀ st, mmMoveGo b p L st = moveNGo c p L st := by
  intro L
  induction L with
  | nil => intro _ st; rfl
  | cons yx rest ih =>
    intro hpt st
    obtain ⟨y, x⟩ := yx
    have hhead := hpt (y, x) (List.mem_cons_self _ _)
    dsimp only at hhead
    have htail := fun e he => hpt e (List.mem_cons_of_mem _ he)
    by_cases hc : cell b y x = none
    · have hd : dig c (3 * y + x) = 0 := hhead.1.mp hc
      have hv := hhead.2 hc
      simp only [mmMoveGo, moveNGo]
      rw [if_pos hc, if_pos hd, hv]
      by_cases hlt : st.1 < scoreN c p (3 * y + x)
      · rw [if_pos hlt, if_pos hlt]
        exact ih htail _
      · rw [if_neg hlt, if_neg hlt]
        exact ih htail st
    · have hd : ¬ dig c (3 * y + x) = 0 := fun h => hc (hhead.1.mpr h)
      simp only [mmMoveGo, moveNGo]
      rw [if_neg hc, if_neg hd]
      exact ih htail st

theorem moveNGo_range (c p : Nat) :
    ∀ (L : List (Nat × Nat)), (∀ yx ∈ L, yx.1 < 3 ∧ yx.2 < 3) →
      ∀ st : Int × (Nat × Nat), st.2.1 < 3 ∧ st.2.2 < 3 →
        (moveNGo c p L st).2.1 < 3 ∧ (moveNGo c p L st).2.2 < 3 := by
  intro L
  induction L with
  | nil => intro _ st hst; exact hst
  | cons yx rest ih =>
    intro hL st hst
    obtain ⟨y, x⟩ := yx
    have hyx := hL (y, x) (List.mem_cons_self _ _)
    have htail := fun e he => hL e (List.mem_cons_of_mem _ he)
    simp only [moveNGo]
    split
    · split
      · exact ih htail _ ⟨hyx.2, hyx.1⟩
      · exact ih htail st hst
    · exact ih htail st hst

theorem moveN_range (c p : Nat) : (moveN c p).1 < 3 ∧ (moveN c p).2 < 3 := by
  unfold moveN
  exact moveNGo_range c p allPos allPos_lt (-INFINITY, (0, 0)) (by norm_num)

theorem mmMove_code (c p : Nat) (hc : c < 19683)
    (hpar : (p = 1 ∧ zerosN c % 2 = 1) ∨ (p = 2 ∧ zerosN c % 2 = 0)) :
    mmMove (boardOfCode c) p = moveN c p := by
  unfold mmMove moveN
  rw [mmMoveGo_pair (boardOfCode c) c p allPos ?_ (-INFINITY, (0, 0))]
  intro yx hm
  have hlt := allPos_lt yx hm
  obtain ⟨y, x⟩ := yx
  dsimp only
  obtain ⟨hy3, hx3⟩ := hlt
  constructor
  · rw [cell_boc c y x hy3 hx3]
    exact dcell_none_iff _ (dig_lt c _)
  · intro hcell
    have hd : dig c (3 * y + x) = 0 := by
      rw [cell_boc c y x hy3 hx3] at hcell
      exact (dcell_none_iff _ (dig_lt c _)).mp hcell
    have hk : 3 * y + x < 9 := by omega
    have h9 := zerosN_le c
    rcases hpar with ⟨rfl, hz1⟩ | ⟨rfl, hz0⟩
    · have hupd := dig_update c 1 (3 * y + x) hc (by omega) (by omega) hk hd
      have hzup := zerosN_update c 1 (3 * y + x) hc (by omega) (by omega) hk hd
      have hset := setCell_code c 1 y x hc (by omega) (by omega) hy3 hx3 hd
      have hfc : flagN (c + 1 * 3 ^ (3 * y + x)) = false := by
        simp only [flagN]
        rw [show zerosN (c + 1 * 3 ^ (3 * y + x)) % 2 = 0 from by omega]
        rfl
      have hval := minimax_eq_table 9 (c + 1 * 3 ^ (3 * y + x)) hupd.2 (by omega)
      rw [hfc] at hval
      have hsc : scoreN c 1 (3 * y + x) = ((lookupT (c + 3 ^ (3 * y + x)) : Nat) : Int) - 1 := by
        rw [show scoreN c 1 (3 * y + x)
            = ((lookupP (c + 3 ^ (3 * y + x)) : Nat) : Int) - 1 from by simp [scoreN],
          lookupP_eq _ (by have := hupd.2; omega)]
      rw [hset, hval, hsc, show c + 1 * 3 ^ (3 * y + x) = c + 3 ^ (3 * y + x) from by ring]
    · have hupd := dig_update c 2 (3 * y + x) hc (by omega) (by omega) hk hd
      have hzup := zerosN_update c 2 (3 * y + x) hc (by omega) (by omega) hk hd
      have hset := setCell_code c 2 y x hc (by omega) (by omega) hy3 hx3 hd
      have hWFs : WF (setCell (boardOfCode c) y x (some 2)) = true :=
        WF_setCell (boardOfCode c) y x 2 (WF_boardOfCode c) hy3 hx3 (Or.inr rfl)
      have hdual := mm_duality 9 (setCell (boardOfCode c) y x (some 2)) false hWFs
      simp only [Bool.not_false] at hdual
      have hfc : flagN (c + 2 * 3 ^ (3 * y + x)) = true := by
        simp only [flagN]
        rw [show zerosN (c + 2 * 3 ^ (3 * y + x)) % 2 = 1 from by omega]
        rfl
      have hval := minimax_eq_table 9 (c + 2 * 3 ^ (3 * y + x)) hupd.2 (by omega)
      rw [hfc] at hval
      have hsc : scoreN c 2 (3 * y + x) = 1 - ((lookupT (c + 2 * 3 ^ (3 * y + x)) : Nat) : Int) := by
        rw [show scoreN c 2 (3 * y + x)
            = 1 - ((lookupP (c + 2 * 3 ^ (3 * y + x)) : Nat) : Int) from by norm_num [scoreN],
          lookupP_eq _ (by have := hupd.2; omega)]
      rw [hdual, hset, hval, hsc]
      omega

theorem playLoop_code :
    ∀ (fuel c p : Nat), c < 19683 →
      ((p = 1 ∧ zerosN c % 2 = 1) ∨ (p = 2 ∧ zerosN c % 2 = 0)) →
      (playLoop fuel mmMove mmMove (boardOfCode c) p).2 = (playN fuel c p).2 := by
  intro fuel
  induction fuel with
  | zero => intro c p _ _; rfl
  | succ fuel ih =>
    intro c p hc hpar
    simp only [playLoop, playN]
    rw [get_winner_code c]
    cases hw : winnerN c with
    | some w => rfl
    | none =>
      simp only [ite_self]
      rw [mmMove_code c p hc hpar]
      obtain ⟨hmv1, hmv2⟩ := moveN_range c p
      have hcell : cell (boardOfCode c) (moveN c p).2 (moveN c p).1
          = dcell (dig c (3 * (moveN c p).2 + (moveN c p).1)) :=
        cell_boc c _ _ hmv2 hmv1
      have hk : 3 * (moveN c p).2 + (moveN c p).1 < 9 := by omega
      have h9 := zerosN_le c
      by_cases hd : dig c (3 * (moveN c p).2 + (moveN c p).1) = 0
      · have hcnone : cell (boardOfCode c) (moveN c p).2 (moveN c p).1 = none := by
          rw [hcell, hd]
          rfl
        rw [if_neg (fun hne => hne hcnone), if_neg (fun hne => hne hd)]
        rcases hpar with ⟨rfl, hz1⟩ | ⟨rfl, hz0⟩
        · have hupd := dig_update c 1 _ hc (by omega) (by omega) hk hd
          have hzup := zerosN_update c 1 _ hc (by omega) (by omega) hk hd
          rw [setCell_code c 1 _ _ hc (by omega) (by omega) hmv2 hmv1 hd]
          exact ih (c + 1 * 3 ^ (3 * (moveN c 1).2 + (moveN c 1).1)) (1 % 2 + 1) hupd.2
            (Or.inr ⟨by norm_num, by omega⟩)
        · have hupd := dig_update c 2 _ hc (by omega) (by omega) hk hd
          have hzup := zerosN_update c 2 _ hc (by omega) (by omega) hk hd
          rw [setCell_code c 2 _ _ hc (by omega) (by omega) hmv2 hmv1 hd]
          exact ih (c + 2 * 3 ^ (3 * (moveN c 2).2 + (moveN c 2).1)) (2 % 2 + 1) hupd.2
            (Or.inl ⟨by norm_num, by omega⟩)
      · have hcsome : ¬ cell (boardOfCode c) (moveN c p).2 (moveN c p).1 = none := by
          rw [hcell]
          intro hcontra
          exact hd ((dcell_none_iff _ (dig_lt c _)).mp hcontra)
        rw [if_pos hcsome, if_pos hd]

theorem playLoop_ok_mono :
    ∀ (fuel extra : Nat) (p1 p2 : Board → Nat → Nat × Nat) (b : Board) (cur w : Nat)
      (b2 : Board), playLoop fuel p1 p2 b cur = (b2, PlayResult.ok w) →
      playLoop (fuel + extra) p1 p2 b cur = (b2, PlayResult.ok w) := by
  intro fuel
  induction fuel with
  | zero =>
    intro extra p1 p2 b cur w b2 h
    simp only [playLoop] at h
    cases h
  | succ fuel ih =>
    intro extra p1 p2 b cur w b2 h
    rw [show fuel + 1 + extra = (fuel + extra) + 1 from by omega]
    simp only [playLoop] at h ⊢
    cases hw : get_winner b with
    | some w2 =>
      rw [hw] at h
      exact h
    | none =>
      rw [hw] at h
      by_cases hcl : cell b ((if cur = 1 then p1 else p2) b cur).2
          ((if cur = 1 then p1 else p2) b cur).1 ≠ none
      · rw [if_pos hcl] at h
        cases h
      · rw [if_neg hcl] at h ⊢
        exact ih extra p1 p2 _ _ w b2 h

theorem emptyBoard_code : emptyBoard = boardOfCode 0 := by decide

theorem zerosN_zero : zerosN 0 % 2 = 1 := by decide

theorem playN_draw : (playN 10 0 1).2 = PlayResult.ok 0 := by decide

/-- The minimax engine playing itself from the empty board draws. -/
theorem selfplay_mm_mm : (playLoop 10 mmMove mmMove emptyBoard 1).2 = PlayResult.ok 0 := by
  rw [emptyBoard_code, playLoop_code 10 0 1 (by norm_num) (Or.inl ⟨rfl, zerosN_zero⟩)]
  exact playN_draw

/-! ### The claims -/

/-- C1: the two engines are equivalent: on every board the windowed
search started from the full window `(-INFINITY, INFINITY)` reports the
same score as the plain search for each hypothetical first move, and
`AlphaBetaInput.move` selects the same position as `MinimaxInput.move`
(both use the same strict-improvement scan, so the same first-seen
tie-break). -/
theorem c1_engines_agree (b : Board) (player : Nat) :
    (∀ y x, alphabeta 9 (setCell b y x (some player)) player false (-INFINITY) INFINITY
        = minimax 9 (setCell b y x (some player)) player false) ∧
    abMove b player = mmMove b player :=
  ⟨fun _ _ => ab_eq_mm 9 _ player false, abMove_eq_mmMove b player⟩

/-- C2, counterexample: on a well-formed board where player 2 has a
completed line, `get_winner` does not report player 2 if player 1's
completed line is checked first — the claim's "Win(P) if any line is
filled with P" overlooks double-win boards, on which the first line in
the fixed row/column/diagonal order wins. -/
theorem c2_counterexample :
    WF [[some 1, some 1, some 1], [some 2, some 2, some 2], [none, none, none]] = true ∧
    lineFilled [[some 1, some 1, some 1], [some 2, some 2, some 2], [none, none, none]] 2 ∧
    get_winner [[some 1, some 1, some 1], [some 2, some 2, some 2], [none, none, none]]
      ≠ some 2 :=
  ⟨by decide, by decide, by decide⟩

/-- C2, amended: on a well-formed board, a line filled with `p` is
reported as the winner provided the other player has no completed line;
with no completed line at all, a full board is a draw (`some 0`) and a
board with an empty cell is undecided (`none`). -/
theorem c2_winner_cases (b : Board) (p : Nat) (hWF : WF b = true) (hp : p = 1 ∨ p = 2) :
    (lineFilled b p → ¬ lineFilled b (3 - p) → get_winner b = some p) ∧
    (¬ lineFilled b 1 → ¬ lineFilled b 2 → boardFull b → get_winner b = some 0) ∧
    (¬ lineFilled b 1 → ¬ lineFilled b 2 → (∃ yx ∈ allPos, cell b yx.1 yx.2 = none) →
      get_winner b = none) :=
  ⟨fun h1 h2 => get_winner_of_filled b p hWF hp h1 h2,
   fun h1 h2 h3 => get_winner_full_draw b hWF h1 h2 h3,
   fun h1 h2 h3 => get_winner_undecided b hWF h1 h2 h3⟩

theorem c2_winner_cases_witness :
    WF [[some 2, some 2, some 2], [some 1, some 1, none], [none, none, none]] = true ∧
    ((2 : Nat) = 1 ∨ (2 : Nat) = 2) ∧
    ((lineFilled [[some 2, some 2, some 2], [some 1, some 1, none], [none, none, none]] 2 →
      ¬ lineFilled [[some 2, some 2, some 2], [some 1, some 1, none], [none, none, none]] (3 - 2) →
      get_winner [[some 2, some 2, some 2], [some 1, some 1, none], [none, none, none]] = some 2) ∧
    (¬ lineFilled [[some 2, some 2, some 2], [some 1, some 1, none], [none, none, none]] 1 →
      ¬ lineFilled [[some 2, some 2, some 2], [some 1, some 1, none], [none, none, none]] 2 →
      boardFull [[some 2, some 2, some 2], [some 1, some 1, none], [none, none, none]] →
      get_winner [[some 2, some 2, some 2], [some 1, some 1, none], [none, none, none]] = some 0) ∧
    (¬ lineFilled [[some 2, some 2, some 2], [some 1, some 1, none], [none, none, none]] 1 →
      ¬ lineFilled [[some 2, some 2, some 2], [some 1, some 1, none], [none, none, none]] 2 →
      (∃ yx ∈ allPos,
        cell [[some 2, some 2, some 2], [some 1, some 1, none], [none, none, none]] yx.1 yx.2
          = none) →
      get_winner [[some 2, some 2, some 2], [some 1, some 1, none], [none, none, none]] = none)) :=
  ⟨by decide, Or.inr rfl,
   c2_winner_cases [[some 2, some 2, some 2], [some 1, some 1, none], [none, none, none]] 2
     (by decide) (Or.inr rfl)⟩

/-- C3: every search call hands the board back exactly as it received
it: the state-passing forms of `__minimax`, `__alpha_beta` (every exit
path, the pruning cutoff included) and of both `move` methods return
the entry board unchanged alongside the pure result. -/
theorem c3_search_restores_board (fuel : Nat) (b : Board) (player : Nat) (m : Bool)
    (alpha beta : Int) :
    minimaxS fuel b player m = (minimax fuel b player m, b) ∧
    alphabetaS fuel b player m alpha beta = (alphabeta fuel b player m alpha beta, b) ∧
    mmMoveS b player = (mmMove b player, b) ∧
    abMoveS b player = (abMove b player, b) :=
  ⟨minimaxS_spec fuel b player m, alphabetaS_spec fuel b player m alpha beta,
   mmMoveS_spec b player, abMoveS_spec b player⟩

/-- C4, counterexample: on a board with zero empty cells, both `move`
methods return normally — the `(0, 0)` initialisation of `best_move` —
instead of rejecting the call with an error: the claimed
`NoLegalMoves` precondition check does not exist in the code. -/
theorem c4_counterexample :
    countEmpty [[some 1, some 2, some 1], [some 2, some 1, some 2], [some 2, some 1, some 2]]
      = 0 ∧
    mmMove [[some 1, some 2, some 1], [some 2, some 1, some 2], [some 2, some 1, some 2]] 1
      = (0, 0) ∧
    abMove [[some 1, some 2, some 1], [some 2, some 1, some 2], [some 2, some 1, some 2]] 1
      = (0, 0) :=
  ⟨by decide, by decide, by decide⟩

/-- C4, amended: a full board is not rejected; the candidate loop never
runs and both `move` methods silently return the initial `best_move`
value `(0, 0)`. -/
theorem c4_full_board_returns_default (b : Board) (player : Nat)
    (hfull : ∀ y x, y < 3 → x < 3 → cell b y x ≠ none) :
    mmMove b player = (0, 0) ∧ abMove b player = (0, 0) :=
  move_full b player hfull

theorem c4_full_board_returns_default_witness :
    (∀ y x, y < 3 → x < 3 →
      cell [[some 2, some 1, some 2], [some 1, some 2, some 1], [some 1, some 2, some 1]] y x
        ≠ none) ∧
    (mmMove [[some 2, some 1, some 2], [some 1, some 2, some 1], [some 1, some 2, some 1]] 2
        = (0, 0) ∧
      abMove [[some 2, some 1, some 2], [some 1, some 2, some 1], [some 1, some 2, some 1]] 2
        = (0, 0)) :=
  ⟨by intro y x hy hx; interval_cases y <;> interval_cases x <;> decide,
   c4_full_board_returns_default
     [[some 2, some 1, some 2], [some 1, some 2, some 1], [some 1, some 2, some 1]] 2
     (by intro y x hy hx; interval_cases y <;> interval_cases x <;> decide)⟩

/-- C5: when the active player's input returns an occupied position on
an undecided board, the game loop raises `Exception('Invalid move')`
and the board is exactly the board from before the call. -/
theorem c5_illegal_move_aborts (fuel : Nat) (p1 p2 : Board → Nat → Nat × Nat)
    (b : Board) (current : Nat) (hw : get_winner b = none)
    (hocc : cell b ((if current = 1 then p1 else p2) b current).2
      ((if current = 1 then p1 else p2) b current).1 ≠ none) :
    playLoop (fuel + 1) p1 p2 b current = (b, PlayResult.invalidMove) :=
  playLoop_invalid fuel p1 p2 b current hw hocc

theorem c5_illegal_move_aborts_witness :
    get_winner [[some 1, none, none], [none, none, none], [none, none, none]] = none ∧
    cell [[some 1, none, none], [none, none, none], [none, none, none]]
      ((if 1 = 1 then (fun _ _ => ((0 : Nat), (0 : Nat))) else fun _ _ => (0, 0))
        [[some 1, none, none], [none, none, none], [none, none, none]] 1).2
      ((if 1 = 1 then (fun _ _ => ((0 : Nat), (0 : Nat))) else fun _ _ => (0, 0))
        [[some 1, none, none], [none, none, none], [none, none, none]] 1).1 ≠ none ∧
    playLoop (0 + 1) (fun _ _ => (0, 0)) (fun _ _ => (0, 0))
      [[some 1, none, none], [none, none, none], [none, none, none]] 1
      = ([[some 1, none, none], [none, none, none], [none, none, none]],
        PlayResult.invalidMove) :=
  ⟨by decide, by decide,
   c5_illegal_move_aborts 0 (fun _ _ => (0, 0)) (fun _ _ => (0, 0))
     [[some 1, none, none], [none, none, none], [none, none, none]] 1 (by decide) (by decide)⟩

/-- C6: on a well-formed board with an empty cell, both engines select
the same position; the selected cell is empty and its candidate score
(the minimax value of the hypothetical move) is maximal among all empty
cells, every earlier empty cell in the row-major scan being strictly
worse — the first-seen tie-break. -/
theorem c6_move_is_first_best (b : Board) (player : Nat) (hWF : WF b = true)
    (hp : player = 1 ∨ player = 2)
    (hex : ∃ yx ∈ allPos, cell b yx.1 yx.2 = none) :
    abMove b player = mmMove b player ∧
    cell b (mmMove b player).2 (mmMove b player).1 = none ∧
    (∀ y x, y < 3 → x < 3 → cell b y x = none →
      candScore b player y x ≤ candScore b player (mmMove b player).2 (mmMove b player).1) ∧
    (∀ y x, y < 3 → x < 3 → cell b y x = none →
      3 * y + x < 3 * (mmMove b player).2 + (mmMove b player).1 →
      candScore b player y x < candScore b player (mmMove b player).2 (mmMove b player).1) :=
  ⟨abMove_eq_mmMove b player, (mmMove_spec b player hWF hp hex).1,
   (mmMove_spec b player hWF hp hex).2.1, (mmMove_spec b player hWF hp hex).2.2⟩

theorem c6_move_is_first_best_witness :
    WF emptyBoard = true ∧ ((1 : Nat) = 1 ∨ (1 : Nat) = 2) ∧
    (∃ yx ∈ allPos, cell emptyBoard yx.1 yx.2 = none) ∧
    (abMove emptyBoard 1 = mmMove emptyBoard 1 ∧
    cell emptyBoard (mmMove emptyBoard 1).2 (mmMove emptyBoard 1).1 = none ∧
    (∀ y x, y < 3 → x < 3 → cell emptyBoard y x = none →
      candScore emptyBoard 1 y x
        ≤ candScore emptyBoard 1 (mmMove emptyBoard 1).2 (mmMove emptyBoard 1).1) ∧
    (∀ y x, y < 3 → x < 3 → cell emptyBoard y x = none →
      3 * y + x < 3 * (mmMove emptyBoard 1).2 + (mmMove emptyBoard 1).1 →
      candScore emptyBoard 1 y x
        < candScore emptyBoard 1 (mmMove emptyBoard 1).2 (mmMove emptyBoard 1).1)) :=
  ⟨by decide, Or.inl rfl, ⟨(0, 0), by decide, rfl⟩,
   c6_move_is_first_best emptyBoard 1 (by decide) (Or.inl rfl) ⟨(0, 0), by decide, rfl⟩⟩

/-- C7: on a well-formed board with a player in `{1, 2}`, `__minimax`
only returns `-1`, `0` or `1`, and so does `__alpha_beta` when started
from the initial window `(-INFINITY, INFINITY)`: the sentinel values
never escape. -/
theorem c7_scores_in_range (fuel : Nat) (b : Board) (player : Nat) (m : Bool)
    (hWF : WF b = true) (hp : player = 1 ∨ player = 2) :
    (minimax fuel b player m = -1 ∨ minimax fuel b player m = 0 ∨
      minimax fuel b player m = 1) ∧
    (alphabeta fuel b player m (-INFINITY) INFINITY = -1 ∨
      alphabeta fuel b player m (-INFINITY) INFINITY = 0 ∨
      alphabeta fuel b player m (-INFINITY) INFINITY = 1) := by
  have h := minimax_range fuel b player m hWF hp
  have hab := ab_eq_mm fuel b player m
  constructor
  · omega
  · rw [hab]
    omega

theorem c7_scores_in_range_witness :
    WF emptyBoard = true ∧ ((1 : Nat) = 1 ∨ (1 : Nat) = 2) ∧
    ((minimax 0 emptyBoard 1 true = -1 ∨ minimax 0 emptyBoard 1 true = 0 ∨
      minimax 0 emptyBoard 1 true = 1) ∧
    (alphabeta 0 emptyBoard 1 true (-INFINITY) INFINITY = -1 ∨
      alphabeta 0 emptyBoard 1 true (-INFINITY) INFINITY = 0 ∨
      alphabeta 0 emptyBoard 1 true (-INFINITY) INFINITY = 1)) :=
  ⟨by decide, Or.inl rfl, c7_scores_in_range 0 emptyBoard 1 true (by decide) (Or.inl rfl)⟩

/-- C8: from the empty board, with the two move providers drawn from
the two search engines in any of the four combinations, the game loop
terminates with the draw outcome (`get_winner` value `0`) — for every
fuel from ten (nine moves and the final check) upward. -/
theorem c8_selfplay_draws (extra : Nat) :
    (playLoop (10 + extra) mmMove mmMove emptyBoard 1).2 = PlayResult.ok 0 ∧
    (playLoop (10 + extra) mmMove abMove emptyBoard 1).2 = PlayResult.ok 0 ∧
    (playLoop (10 + extra) abMove mmMove emptyBoard 1).2 = PlayResult.ok 0 ∧
    (playLoop (10 + extra) abMove abMove emptyBoard 1).2 = PlayResult.ok 0 := by
  have habs : abMove = mmMove := funext fun b => funext fun p => abMove_eq_mmMove b p
  have h2 := selfplay_mm_mm
  rw [habs]
  cases hP : playLoop 10 mmMove mmMove emptyBoard 1 with
  | mk b2 r =>
    rw [hP] at h2
    dsimp only at h2
    subst h2
    have hx := playLoop_ok_mono 10 extra mmMove mmMove emptyBoard 1 0 b2 hP
    rw [hx]
    exact ⟨rfl, rfl, rfl, rfl⟩

/-- C9: on a board with zero empty cells the candidate loop of both
`move` methods never runs, so both return the initial `best_move`
value `(0, 0)` and no error is raised. -/
theorem c9_full_board_moves_origin (b : Board) (player : Nat) (h : countEmpty b = 0) :
    mmMove b player = (0, 0) ∧ abMove b player = (0, 0) := by
  refine move_full b player ?_
  intro y x hy hx hcell
  have := countEmpty_pos b (y, x) (allPos_mem y x hy hx) hcell
  omega

theorem c9_full_board_moves_origin_witness :
    countEmpty [[some 1, some 1, some 2], [some 2, some 2, some 1], [some 1, some 1, some 2]]
      = 0 ∧
    (mmMove [[some 1, some 1, some 2], [some 2, some 2, some 1], [some 1, some 1, some 2]] 1
        = (0, 0) ∧
      abMove [[some 1, some 1, some 2], [some 2, some 2, some 1], [some 1, some 1, some 2]] 1
        = (0, 0)) :=
  ⟨by decide,
   c9_full_board_moves_origin
     [[some 1, some 1, some 2], [some 2, some 2, some 1], [some 1, some 1, some 2]] 1
     (by decide)⟩

/-- C10: the recursion of both scorers terminates: every hypothetical
move strictly decreases the number of empty cells, and any two fuels
above that number give the same value, so the fuelled embedding
computes the Python functions. -/
theorem c10_search_terminates (b : Board) (player : Nat) (m : Bool) (alpha beta : Int)
    (f1 f2 : Nat) (hWF : WF b = true) (hp : player = 1 ∨ player = 2)
    (h1 : countEmpty b < f1) (h2 : countEmpty b < f2) :
    (∀ y x p2, y < 3 → x < 3 → cell b y x = none →
      countEmpty (setCell b y x (some p2)) < countEmpty b) ∧
    minimax f1 b player m = minimax f2 b player m ∧
    alphabeta f1 b player m alpha beta = alphabeta f2 b player m alpha beta := by
  refine ⟨?_, mm_fuel_general (countEmpty b) b player m f1 f2 hWF hp le_rfl h1 h2,
    ab_fuel_general (countEmpty b) b player m alpha beta f1 f2 hWF hp le_rfl h1 h2⟩
  intro y x p2 hy hx hcell
  have := countEmpty_setCell b y x p2 hWF hy hx hcell
  omega

theorem c10_search_terminates_witness :
    WF emptyBoard = true ∧ ((1 : Nat) = 1 ∨ (1 : Nat) = 2) ∧
    countEmpty emptyBoard < 10 ∧ countEmpty emptyBoard < 11 ∧
    ((∀ y x p2, y < 3 → x < 3 → cell emptyBoard y x = none →
      countEmpty (setCell emptyBoard y x (some p2)) < countEmpty emptyBoard) ∧
    minimax 10 emptyBoard 1 true = minimax 11 emptyBoard 1 true ∧
    alphabeta 10 emptyBoard 1 true (-INFINITY) INFINITY
      = alphabeta 11 emptyBoard 1 true (-INFINITY) INFINITY) :=
  ⟨by decide, Or.inl rfl, by decide, by decide,
   c10_search_terminates emptyBoard 1 true (-INFINITY) INFINITY 10 11 (by decide)
     (Or.inl rfl) (by decide) (by decide)⟩

end Tictactoe
